import Mathlib

/-!
# Motion sequencer of the exoskeleton walk program

A shallow embedding of `canOpenBeagle/Robogals/CanFeast_Robogals_walk.c`:
the convergence test `checkPos`, the two polling state machines `sitStand`
and `walkMode`, and the helpers they call on the Device Link.

Modelling conventions.

* C `int` and `long` values are `Int`.  The sequencer only adds or subtracts 1
  from an index that stays between -1 and the array size, and compares
  positions with `target - POSCLEARANCE` and `target + POSCLEARANCE`; targets
  are taken to be far enough from the limits of `long` for these not to wrap.
* A trajectory element (`long`) passed to `setAbsPosSmart` (parameter `int`)
  keeps its value.
* The Device Link is a log of the calls made on it, oldest first.  What a
  drive answers to a position query is an input: every `getPos` call has its
  own reported value, so two queries of the same joint may differ.
* Transport failure (`canFeast` ends the process when a socket write or read
  fails) is not part of this model: every exchange is taken to succeed.
* Reading a trajectory array outside its bounds has no defined result in C;
  here such a read yields `none` and the step that made it has no result.
* A C string is the list of its characters before the terminating NUL.  `itoa`
  alone is given with the cells it stores, the NUL included, and `cstr` reads
  the string held in such cells.
* The sections on the two programs under `canOpenBeagle/canFeast` embed the
  functions of those programs whose text differs from the walk program; the
  line numbers given there are those of the program the section is about.
-/

namespace Walk

/-! ## Constants (lines 26-58) -/

def LHIP : Int := 1
def LKNEE : Int := 2
def RHIP : Int := 3
def RKNEE : Int := 4
def POSCLEARANCE : Int := 10000
def STANDING : Int := 111
def SITTING : Int := 222
def STATESTANDING : Int := 1
def STATESITTING : Int := 2
def STATEIMMOBILE : Int := 0
def WALKINGFORWARD : Int := 1
def WALKINGBACK : Int := 2

/-! ## Device Link -/

/-- One call made on the Device Link.  `setAbsPosSmart` stands for the burst of
three commands that function sends (target position, control word low, control
word high), `getPos` for one position query, `preop` for one preop command,
`canFeastDown` for closing the socket. -/
inductive Call where
  | setAbsPosSmart (nodeid : Int) (position : Int)
  | getPos (nodeid : Int)
  | preop (nodeid : Int)
  | canFeastDown
  deriving DecidableEq, Repr

/-- Whether a call is an absolute-position command burst. -/
def Call.isMove : Call → Bool
  | Call.setAbsPosSmart _ _ => true
  | _ => false

/-- Sets the target position of a node and moves it there (lines 622-664). -/
def setAbsPosSmart (sent : List Call) (nodeid position : Int) : List Call :=
  sent ++ [Call.setAbsPosSmart nodeid position]

/-- Reads the position of a node (lines 589-619): one query is sent and the
value the drive reports is returned. -/
def getPos (sent : List Call) (nodeid : Int) (reported : Int) : Int × List Call :=
  (reported, sent ++ [Call.getPos nodeid])

/-- Sets a node to preop mode (lines 842-857). -/
def preop (sent : List Call) (nodeid : Int) : List Call :=
  sent ++ [Call.preop nodeid]

/-- Puts the four motors to preop (lines 1010-1015). -/
def stopExo (sent : List Call) : List Call :=
  preop (preop (preop (preop sent LHIP) LKNEE) RHIP) RKNEE

/-- Closes the socket (lines 691-697). -/
def canFeastDown (sent : List Call) : List Call :=
  sent ++ [Call.canFeastDown]

/-- What the drives report to the eight position queries one `checkPos` call
can make, in the order of the calls in its two conditions: left hip (lower
bound test, upper bound test), right hip, left knee, right knee.  A query that
short-circuit evaluation skips leaves its value unused. -/
structure Reads where
  lhip1 : Int
  lhip2 : Int
  rhip1 : Int
  rhip2 : Int
  lknee1 : Int
  lknee2 : Int
  rknee1 : Int
  rknee2 : Int
  deriving DecidableEq, Repr

/-- Checks that the four joints are within the clearance of their targets
(lines 889-906).  The conjunctions are evaluated left to right and stop at the
first false test, so the log holds only the queries really made. -/
def checkPos (sent : List Call) (r : Reads)
    (lhipTarget lkneeTarget rhipTarget rkneeTarget : Int) : Int × List Call :=
  let (p, sent) := getPos sent LHIP r.lhip1
  if p > lhipTarget - POSCLEARANCE then
    let (p, sent) := getPos sent LHIP r.lhip2
    if p < lhipTarget + POSCLEARANCE then
      let (p, sent) := getPos sent RHIP r.rhip1
      if p > rhipTarget - POSCLEARANCE then
        let (p, sent) := getPos sent RHIP r.rhip2
        if p < rhipTarget + POSCLEARANCE then
          let (p, sent) := getPos sent LKNEE r.lknee1
          if p > lkneeTarget - POSCLEARANCE then
            let (p, sent) := getPos sent LKNEE r.lknee2
            if p < lkneeTarget + POSCLEARANCE then
              let (p, sent) := getPos sent RKNEE r.rknee1
              if p > rkneeTarget - POSCLEARANCE then
                let (p, sent) := getPos sent RKNEE r.rknee2
                if p < rkneeTarget + POSCLEARANCE then (1, sent)
                else (0, sent)
              else (0, sent)
            else (0, sent)
          else (0, sent)
        else (0, sent)
      else (0, sent)
    else (0, sent)
  else (0, sent)

/-! ## Inputs of one poll -/

/-- What one iteration of a polling loop reads from outside: the four button
values sampled at the top of the loop (a button reads 0 when it is pressed) and
the positions the drives would report to the convergence test of the advancing
move (`fwd`) and of the retreating move (`back`). -/
structure PollIn where
  button1Status : Int
  button2Status : Int
  button3Status : Int
  button4Status : Int
  fwd : Reads
  back : Reads
  deriving DecidableEq, Repr

/-- The four motion branches of a loop body, in the order the body runs them. -/
inductive Branch where
  | advanceStart
  | advanceCheck
  | retreatStart
  | retreatCheck
  deriving DecidableEq, Repr

/-- Order of the motion branches in both loop bodies. -/
def branchOrder : List Branch :=
  [Branch.advanceStart, Branch.advanceCheck, Branch.retreatStart, Branch.retreatCheck]

/-- Element `i` of a C array held as a list; `none` outside the array. -/
def arrAt (a : List Int) (i : Int) : Option Int :=
  if 0 ≤ i then a.get? i.toNat else none

/-- How one iteration of a polling loop ends: the loop goes round again
(`next`), the process is ended by `exit(EXIT_SUCCESS)` in the abort branch
(`exited`, with the final log of the link), or the loop is left by `break` and
the function returns (`returned`). -/
inductive Outcome (σ : Type) where
  | next (s : σ)
  | exited (sent : List Call)
  | returned (s : σ)
  deriving DecidableEq, Repr

/-! ## sitStand (lines 146-289) -/

/-- The converted trajectory of `sitStand` and its argument `initState`.  Both
arrays are declared with `arrSize` elements in the source. -/
structure SitStandCfg where
  sitStandArrayHip : List Int
  sitStandArrayKnee : List Int
  initState : Int
  deriving DecidableEq, Repr

/-- Number of waypoints (line 166). -/
def SitStandCfg.arrSize (c : SitStandCfg) : Int := c.sitStandArrayHip.length

/-- Both arrays have `arrSize` elements (lines 168-169). -/
@[reducible] def SitStandCfg.sized (c : SitStandCfg) : Prop :=
  c.sitStandArrayKnee.length = c.sitStandArrayHip.length

/-- The locals of `sitStand` that persist across iterations, and the link. -/
structure SitStandState where
  sitstate : Int
  movestate : Int
  sent : List Call
  deriving DecidableEq, Repr

/-- State at loop entry (lines 177-186). -/
def sitStandInit (c : SitStandCfg) (sent : List Call) : SitStandState :=
  let sitstate : Int := 1
  let sitstate := if c.initState = SITTING then c.arrSize else sitstate
  let sitstate := if c.initState = STANDING then -1 else sitstate
  { sitstate := sitstate, movestate := STATEIMMOBILE, sent := sent }

/-- Lines 227-235: button 1 pressed, exo not moving, array not at end. -/
def sitStandAdvanceStart (c : SitStandCfg) (i : PollIn) (s : SitStandState) :
    Option SitStandState :=
  if i.button1Status = 0 ∧ s.movestate = STATEIMMOBILE ∧ s.sitstate < c.arrSize - 1 then
    (arrAt c.sitStandArrayHip (s.sitstate + 1)).bind fun hip =>
    (arrAt c.sitStandArrayKnee (s.sitstate + 1)).bind fun knee =>
    let sent := setAbsPosSmart s.sent LHIP hip
    let sent := setAbsPosSmart sent LKNEE knee
    let sent := setAbsPosSmart sent RHIP hip
    let sent := setAbsPosSmart sent RKNEE knee
    some { sitstate := s.sitstate, movestate := STATESITTING, sent := sent }
  else some s

/-- Lines 238-248: if the target position is reached, increment `sitstate` and
set `movestate` to 0. -/
def sitStandAdvanceCheck (c : SitStandCfg) (i : PollIn) (s : SitStandState) :
    Option SitStandState :=
  if s.sitstate < c.arrSize - 1 ∧ s.movestate = STATESITTING then
    (arrAt c.sitStandArrayHip (s.sitstate + 1)).bind fun hip =>
    (arrAt c.sitStandArrayKnee (s.sitstate + 1)).bind fun knee =>
    let r := checkPos s.sent i.fwd hip knee hip knee
    if r.1 = 1 then
      some { sitstate := s.sitstate + 1, movestate := STATEIMMOBILE, sent := r.2 }
    else some { sitstate := s.sitstate, movestate := s.movestate, sent := r.2 }
  else some s

/-- Lines 251-259: button 2 pressed, exo not moving, array not at start. -/
def sitStandRetreatStart (c : SitStandCfg) (i : PollIn) (s : SitStandState) :
    Option SitStandState :=
  if i.button2Status = 0 ∧ s.movestate = STATEIMMOBILE ∧ s.sitstate > 0 then
    (arrAt c.sitStandArrayHip (s.sitstate - 1)).bind fun hip =>
    (arrAt c.sitStandArrayKnee (s.sitstate - 1)).bind fun knee =>
    let sent := setAbsPosSmart s.sent LHIP hip
    let sent := setAbsPosSmart sent LKNEE knee
    let sent := setAbsPosSmart sent RHIP hip
    let sent := setAbsPosSmart sent RKNEE knee
    some { sitstate := s.sitstate, movestate := STATESTANDING, sent := sent }
  else some s

/-- Lines 262-272: if the target position is reached, decrease `sitstate` and
set `movestate` to 0. -/
def sitStandRetreatCheck (c : SitStandCfg) (i : PollIn) (s : SitStandState) :
    Option SitStandState :=
  if s.sitstate > 0 ∧ s.movestate = STATESTANDING then
    (arrAt c.sitStandArrayHip (s.sitstate - 1)).bind fun hip =>
    (arrAt c.sitStandArrayKnee (s.sitstate - 1)).bind fun knee =>
    let r := checkPos s.sent i.back hip knee hip knee
    if r.1 = 1 then
      some { sitstate := s.sitstate - 1, movestate := STATEIMMOBILE, sent := r.2 }
    else some { sitstate := s.sitstate, movestate := s.movestate, sent := r.2 }
  else some s

/-- One motion branch of the loop body of `sitStand`. -/
def sitStandBranch (c : SitStandCfg) (i : PollIn) : Branch → SitStandState → Option SitStandState
  | Branch.advanceStart => sitStandAdvanceStart c i
  | Branch.advanceCheck => sitStandAdvanceCheck c i
  | Branch.retreatStart => sitStandRetreatStart c i
  | Branch.retreatCheck => sitStandRetreatCheck c i

/-- Runs the listed motion branches one after the other. -/
def sitStandSeq (c : SitStandCfg) (i : PollIn) : List Branch → SitStandState → Option SitStandState
  | [], s => some s
  | k :: ks, s => (sitStandBranch c i k s).bind (sitStandSeq c i ks)

/-- Lines 227-272: the four motion branches of one iteration. -/
def sitStandBody (c : SitStandCfg) (i : PollIn) (s : SitStandState) : Option SitStandState :=
  sitStandSeq c i branchOrder s

/-- Lines 275-281: if button 3 is pressed, set the motors to preop, close the
socket and end the process.  Yields the final log when it does. -/
def sitStandAbort (i : PollIn) (s : SitStandState) : Option (List Call) :=
  if i.button3Status = 0 then some (canFeastDown (stopExo s.sent)) else none

/-- Line 284: the condition of the `break`. -/
def sitStandExit (c : SitStandCfg) (i : PollIn) (s : SitStandState) : Bool :=
  decide (i.button4Status = 0 ∧
    ((s.sitstate = c.arrSize - 1 ∧ c.initState = STANDING) ∨
     (s.sitstate = 0 ∧ c.initState = SITTING)))

/-- Lines 275-287: what follows the motion branches in an iteration. -/
def sitStandTail (c : SitStandCfg) (i : PollIn) (s : SitStandState) : Outcome SitStandState :=
  match sitStandAbort i s with
  | some sent => Outcome.exited sent
  | none => if sitStandExit c i s then Outcome.returned s else Outcome.next s

/-- One iteration of the loop of `sitStand` (lines 203-288). -/
def sitStandPoll (c : SitStandCfg) (i : PollIn) (s : SitStandState) :
    Option (Outcome SitStandState) :=
  (sitStandBody c i s).map (sitStandTail c i)

/-- The loop of `sitStand` over the inputs of successive iterations.  When the
inputs run out with the loop still going the result is `next`. -/
def sitStandLoop (c : SitStandCfg) : List PollIn → SitStandState → Option (Outcome SitStandState)
  | [], s => some (Outcome.next s)
  | i :: is, s =>
    match sitStandPoll c i s with
    | some (Outcome.next s') => sitStandLoop c is s'
    | r => r

/-- Runs `sitStand` from its entry on a link with log `sent`. -/
def sitStand (c : SitStandCfg) (sent : List Call) (ins : List PollIn) :
    Option (Outcome SitStandState) :=
  sitStandLoop c ins (sitStandInit c sent)

/-! ## walkMode (lines 293-557) -/

/-- The converted trajectory of `walkMode`: one array per joint, all declared
with `arrSize` elements in the source. -/
structure WalkCfg where
  walkArrLHip : List Int
  walkArrLKnee : List Int
  walkArrRHip : List Int
  walkArrRKnee : List Int
  deriving DecidableEq, Repr

/-- Number of waypoints (line 435). -/
def WalkCfg.arrSize (c : WalkCfg) : Int := c.walkArrLHip.length

/-- All four arrays have `arrSize` elements (lines 437-440). -/
@[reducible] def WalkCfg.sized (c : WalkCfg) : Prop :=
  c.walkArrLKnee.length = c.walkArrLHip.length ∧
  c.walkArrRHip.length = c.walkArrLHip.length ∧
  c.walkArrRKnee.length = c.walkArrLHip.length

/-- The locals of `walkMode` that persist across iterations, and the link. -/
structure WalkState where
  walkstate : Int
  movestate : Int
  sent : List Call
  deriving DecidableEq, Repr

/-- State at loop entry (lines 450-454). -/
def walkModeInit (sent : List Call) : WalkState :=
  { walkstate := -1, movestate := STATEIMMOBILE, sent := sent }

/-- Lines 496-504: button 1 pressed, exo not moving, array not at end. -/
def walkModeAdvanceStart (c : WalkCfg) (i : PollIn) (s : WalkState) : Option WalkState :=
  if i.button1Status = 0 ∧ s.movestate = STATEIMMOBILE ∧ s.walkstate < c.arrSize - 1 then
    (arrAt c.walkArrLHip (s.walkstate + 1)).bind fun lhip =>
    (arrAt c.walkArrLKnee (s.walkstate + 1)).bind fun lknee =>
    (arrAt c.walkArrRHip (s.walkstate + 1)).bind fun rhip =>
    (arrAt c.walkArrRKnee (s.walkstate + 1)).bind fun rknee =>
    let sent := setAbsPosSmart s.sent LHIP lhip
    let sent := setAbsPosSmart sent LKNEE lknee
    let sent := setAbsPosSmart sent RHIP rhip
    let sent := setAbsPosSmart sent RKNEE rknee
    some { walkstate := s.walkstate, movestate := WALKINGFORWARD, sent := sent }
  else some s

/-- Lines 507-517: if the target position is reached, increment `walkstate`
and set `movestate` to 0. -/
def walkModeAdvanceCheck (c : WalkCfg) (i : PollIn) (s : WalkState) : Option WalkState :=
  if s.walkstate < c.arrSize - 1 ∧ s.movestate = WALKINGFORWARD then
    (arrAt c.walkArrLHip (s.walkstate + 1)).bind fun lhip =>
    (arrAt c.walkArrLKnee (s.walkstate + 1)).bind fun lknee =>
    (arrAt c.walkArrRHip (s.walkstate + 1)).bind fun rhip =>
    (arrAt c.walkArrRKnee (s.walkstate + 1)).bind fun rknee =>
    let r := checkPos s.sent i.fwd lhip lknee rhip rknee
    if r.1 = 1 then
      some { walkstate := s.walkstate + 1, movestate := STATEIMMOBILE, sent := r.2 }
    else some { walkstate := s.walkstate, movestate := s.movestate, sent := r.2 }
  else some s

/-- Lines 520-528: button 2 pressed, exo not moving, array not at start. -/
def walkModeRetreatStart (c : WalkCfg) (i : PollIn) (s : WalkState) : Option WalkState :=
  if i.button2Status = 0 ∧ s.movestate = STATEIMMOBILE ∧ s.walkstate > 0 then
    (arrAt c.walkArrLHip (s.walkstate - 1)).bind fun lhip =>
    (arrAt c.walkArrLKnee (s.walkstate - 1)).bind fun lknee =>
    (arrAt c.walkArrRHip (s.walkstate - 1)).bind fun rhip =>
    (arrAt c.walkArrRKnee (s.walkstate - 1)).bind fun rknee =>
    let sent := setAbsPosSmart s.sent LHIP lhip
    let sent := setAbsPosSmart sent LKNEE lknee
    let sent := setAbsPosSmart sent RHIP rhip
    let sent := setAbsPosSmart sent RKNEE rknee
    some { walkstate := s.walkstate, movestate := WALKINGBACK, sent := sent }
  else some s

/-- Lines 531-541: if the target position is reached, decrease `walkstate` and
set `movestate` to 0. -/
def walkModeRetreatCheck (c : WalkCfg) (i : PollIn) (s : WalkState) : Option WalkState :=
  if s.walkstate > 0 ∧ s.movestate = WALKINGBACK then
    (arrAt c.walkArrLHip (s.walkstate - 1)).bind fun lhip =>
    (arrAt c.walkArrLKnee (s.walkstate - 1)).bind fun lknee =>
    (arrAt c.walkArrRHip (s.walkstate - 1)).bind fun rhip =>
    (arrAt c.walkArrRKnee (s.walkstate - 1)).bind fun rknee =>
    let r := checkPos s.sent i.back lhip lknee rhip rknee
    if r.1 = 1 then
      some { walkstate := s.walkstate - 1, movestate := STATEIMMOBILE, sent := r.2 }
    else some { walkstate := s.walkstate, movestate := s.movestate, sent := r.2 }
  else some s

/-- One motion branch of the loop body of `walkMode`. -/
def walkModeBranch (c : WalkCfg) (i : PollIn) : Branch → WalkState → Option WalkState
  | Branch.advanceStart => walkModeAdvanceStart c i
  | Branch.advanceCheck => walkModeAdvanceCheck c i
  | Branch.retreatStart => walkModeRetreatStart c i
  | Branch.retreatCheck => walkModeRetreatCheck c i

/-- Runs the listed motion branches one after the other. -/
def walkModeSeq (c : WalkCfg) (i : PollIn) : List Branch → WalkState → Option WalkState
  | [], s => some s
  | k :: ks, s => (walkModeBranch c i k s).bind (walkModeSeq c i ks)

/-- Lines 496-541: the four motion branches of one iteration. -/
def walkModeBody (c : WalkCfg) (i : PollIn) (s : WalkState) : Option WalkState :=
  walkModeSeq c i branchOrder s

/-- Lines 544-550: if button 3 is pressed, set the motors to preop, close the
socket and end the process.  Yields the final log when it does. -/
def walkModeAbort (i : PollIn) (s : WalkState) : Option (List Call) :=
  if i.button3Status = 0 then some (canFeastDown (stopExo s.sent)) else none

/-- Line 553: the condition of the `break`. -/
def walkModeExit (c : WalkCfg) (i : PollIn) (s : WalkState) : Bool :=
  decide (i.button4Status = 0 ∧ s.walkstate = c.arrSize - 1)

/-- Lines 544-555: what follows the motion branches in an iteration. -/
def walkModeTail (c : WalkCfg) (i : PollIn) (s : WalkState) : Outcome WalkState :=
  match walkModeAbort i s with
  | some sent => Outcome.exited sent
  | none => if walkModeExit c i s then Outcome.returned s else Outcome.next s

/-- One iteration of the loop of `walkMode` (lines 477-556). -/
def walkModePoll (c : WalkCfg) (i : PollIn) (s : WalkState) : Option (Outcome WalkState) :=
  (walkModeBody c i s).map (walkModeTail c i)

/-- The loop of `walkMode` over the inputs of successive iterations.  When the
inputs run out with the loop still going the result is `next`. -/
def walkModeLoop (c : WalkCfg) : List PollIn → WalkState → Option (Outcome WalkState)
  | [], s => some (Outcome.next s)
  | i :: is, s =>
    match walkModePoll c i s with
    | some (Outcome.next s') => walkModeLoop c is s'
    | r => r

/-- Runs `walkMode` from its entry on a link with log `sent`. -/
def walkMode (c : WalkCfg) (sent : List Call) (ins : List PollIn) :
    Option (Outcome WalkState) :=
  walkModeLoop c ins (walkModeInit sent)

/-! ## Points of a run -/

/-- The states at the branch boundaries of the runs of `sitStand` entered on a
link with log `sent`: the state after some whole iterations (inputs `ins`)
followed by the first `n` motion branches of one more iteration (inputs `i`). -/
def SitStandPoint (c : SitStandCfg) (sent : List Call) (s : SitStandState) : Prop :=
  ∃ ins i n s0, sitStand c sent ins = some (Outcome.next s0) ∧
    sitStandSeq c i (branchOrder.take n) s0 = some s

/-- The states at the branch boundaries of the runs of `walkMode` entered on a
link with log `sent`. -/
def WalkPoint (c : WalkCfg) (sent : List Call) (s : WalkState) : Prop :=
  ∃ ins i n s0, walkMode c sent ins = some (Outcome.next s0) ∧
    walkModeSeq c i (branchOrder.take n) s0 = some s

/-! ## Sample data -/

/-- A sit-stand trajectory of two waypoints in raw motor units, entered with
STANDING. -/
def demoSitStand : SitStandCfg :=
  { sitStandArrayHip := [0, 233513], sitStandArrayKnee := [0, 235325], initState := STANDING }

/-- A walk trajectory of three waypoints in raw motor units. -/
def demoWalk : WalkCfg :=
  { walkArrLHip := [27875, 27708, 33422], walkArrLKnee := [0, 13631, 75291],
    walkArrRHip := [27875, 28906, 32586], walkArrRKnee := [0, 0, 0] }

/-- Readings of drives that stand still at the given positions. -/
def readsAt (lhip lknee rhip rknee : Int) : Reads :=
  { lhip1 := lhip, lhip2 := lhip, rhip1 := rhip, rhip2 := rhip,
    lknee1 := lknee, lknee2 := lknee, rknee1 := rknee, rknee2 := rknee }

/-- An iteration with no button pressed and all drives at position 0. -/
def idleIn : PollIn :=
  { button1Status := 1, button2Status := 1, button3Status := 1, button4Status := 1,
    fwd := readsAt 0 0 0 0, back := readsAt 0 0 0 0 }

/-- Readings in which the left hip answers 20000 counts above its target
233513 to the first query and 20000 counts below it to the second, while the
other three joints stand on their targets (right hip 233513, knees 235325). -/
def splitReads : Reads :=
  { lhip1 := 253513, lhip2 := 213513, rhip1 := 233513, rhip2 := 233513,
    lknee1 := 235325, lknee2 := 235325, rknee1 := 235325, rknee2 := 235325 }

/-- An iteration in which the advance button and the abort button both read
pressed, with all drives at position 0. -/
def abortAdvanceIn : PollIn :=
  { idleIn with button1Status := 0, button3Status := 0 }

/-- Two iterations of `sitStand` on the two-waypoint trajectory: in the first
the advance button is pressed and the drives stand at waypoint 0; in the second
the advance, retreat and confirm-exit buttons are pressed and the drives stand
at waypoint 1. -/
def exitInFlightIns : List PollIn :=
  [ { idleIn with button1Status := 0 },
    { button1Status := 0, button2Status := 0, button3Status := 1, button4Status := 0,
      fwd := readsAt 233513 235325 233513 235325,
      back := readsAt 233513 235325 233513 235325 } ]

/-- An iteration in which only the advance button reads pressed. -/
def pressAdvance : PollIn := { idleIn with button1Status := 0 }

/-- An iteration in which only the retreat button reads pressed. -/
def pressRetreat : PollIn := { idleIn with button2Status := 0 }

/-- An iteration in which only the abort button reads pressed. -/
def pressAbort : PollIn := { idleIn with button3Status := 0 }

/-- An iteration in which only the confirm-exit button reads pressed. -/
def pressExit : PollIn := { idleIn with button4Status := 0 }

/-- An iteration with no button pressed and the drives standing on waypoint 1
of the two-waypoint trajectory. -/
def onWaypoint1 : PollIn :=
  { idleIn with fwd := readsAt 233513 235325 233513 235325 }

/-- Sit-stand state at waypoint 0 with the move to waypoint 1 in flight. -/
def demoAdvancing : SitStandState :=
  { sitstate := 0, movestate := STATESITTING, sent := [] }

/-- Sit-stand state at rest on waypoint 0. -/
def demoAtZero : SitStandState :=
  { sitstate := 0, movestate := STATEIMMOBILE, sent := [] }

/-- Sit-stand state at rest on waypoint 1, the last one. -/
def demoAtOne : SitStandState :=
  { sitstate := 1, movestate := STATEIMMOBILE, sent := [] }

/-- Sit-stand state after one iteration from the entry state (STANDING) in
which the advance button is pressed and the drives stand on waypoint 0. -/
def demoAfterAdvance : SitStandState :=
  { sitstate := 0, movestate := STATEIMMOBILE,
    sent := [Call.setAbsPosSmart 1 0, Call.setAbsPosSmart 2 0,
             Call.setAbsPosSmart 3 0, Call.setAbsPosSmart 4 0,
             Call.getPos 1, Call.getPos 1, Call.getPos 3, Call.getPos 3,
             Call.getPos 2, Call.getPos 2, Call.getPos 4, Call.getPos 4] }

/-- An iteration in which the advance and the retreat button both read pressed,
with all drives at position 0. -/
def pressBoth : PollIn :=
  { idleIn with button1Status := 0, button2Status := 0 }

/-- Walk state at rest on waypoint 1, the middle one of the three-waypoint
trajectory. -/
def demoWalkAtOne : WalkState :=
  { walkstate := 1, movestate := STATEIMMOBILE, sent := [] }

/-- Walk state at rest on waypoint 0. -/
def demoWalkAtZero : WalkState :=
  { walkstate := 0, movestate := STATEIMMOBILE, sent := [] }

/-! ## The walk sequencer as the spec describes it -/

/-- The direction label of `sitStand` that stands for a direction label of
`walkMode`: STATESITTING for WALKINGFORWARD, STATESTANDING for WALKINGBACK,
any other value for itself. -/
def sitLabel (movestate : Int) : Int :=
  if movestate = WALKINGFORWARD then STATESITTING
  else if movestate = WALKINGBACK then STATESTANDING
  else movestate

/-- A `walkMode` state read as a `sitStand` state: same index, same log, the
direction label translated. -/
def asSitStand (t : WalkState) : SitStandState :=
  { sitstate := t.walkstate, movestate := sitLabel t.movestate, sent := t.sent }

/-- The walk sequencer in the words of section 4.3 of the spec: the state
machine of section 4.2 (sit-stand) over a trajectory with one array per joint.
This is one motion branch of the loop body of `sitStand` (lines 227-272) with
`sitStandArrayHip` replaced by the left and right hip arrays and
`sitStandArrayKnee` by the left and right knee arrays of the trajectory. -/
def sitStandFourBranch (c : WalkCfg) (i : PollIn) :
    Branch → SitStandState → Option SitStandState
  | Branch.advanceStart => fun s =>
    if i.button1Status = 0 ∧ s.movestate = STATEIMMOBILE ∧ s.sitstate < c.arrSize - 1 then
      (arrAt c.walkArrLHip (s.sitstate + 1)).bind fun lhip =>
      (arrAt c.walkArrLKnee (s.sitstate + 1)).bind fun lknee =>
      (arrAt c.walkArrRHip (s.sitstate + 1)).bind fun rhip =>
      (arrAt c.walkArrRKnee (s.sitstate + 1)).bind fun rknee =>
      let sent := setAbsPosSmart s.sent LHIP lhip
      let sent := setAbsPosSmart sent LKNEE lknee
      let sent := setAbsPosSmart sent RHIP rhip
      let sent := setAbsPosSmart sent RKNEE rknee
      some { sitstate := s.sitstate, movestate := STATESITTING, sent := sent }
    else some s
  | Branch.advanceCheck => fun s =>
    if s.sitstate < c.arrSize - 1 ∧ s.movestate = STATESITTING then
      (arrAt c.walkArrLHip (s.sitstate + 1)).bind fun lhip =>
      (arrAt c.walkArrLKnee (s.sitstate + 1)).bind fun lknee =>
      (arrAt c.walkArrRHip (s.sitstate + 1)).bind fun rhip =>
      (arrAt c.walkArrRKnee (s.sitstate + 1)).bind fun rknee =>
      let r := checkPos s.sent i.fwd lhip lknee rhip rknee
      if r.1 = 1 then
        some { sitstate := s.sitstate + 1, movestate := STATEIMMOBILE, sent := r.2 }
      else some { sitstate := s.sitstate, movestate := s.movestate, sent := r.2 }
    else some s
  | Branch.retreatStart => fun s =>
    if i.button2Status = 0 ∧ s.movestate = STATEIMMOBILE ∧ s.sitstate > 0 then
      (arrAt c.walkArrLHip (s.sitstate - 1)).bind fun lhip =>
      (arrAt c.walkArrLKnee (s.sitstate - 1)).bind fun lknee =>
      (arrAt c.walkArrRHip (s.sitstate - 1)).bind fun rhip =>
      (arrAt c.walkArrRKnee (s.sitstate - 1)).bind fun rknee =>
      let sent := setAbsPosSmart s.sent LHIP lhip
      let sent := setAbsPosSmart sent LKNEE lknee
      let sent := setAbsPosSmart sent RHIP rhip
      let sent := setAbsPosSmart sent RKNEE rknee
      some { sitstate := s.sitstate, movestate := STATESTANDING, sent := sent }
    else some s
  | Branch.retreatCheck => fun s =>
    if s.sitstate > 0 ∧ s.movestate = STATESTANDING then
      (arrAt c.walkArrLHip (s.sitstate - 1)).bind fun lhip =>
      (arrAt c.walkArrLKnee (s.sitstate - 1)).bind fun lknee =>
      (arrAt c.walkArrRHip (s.sitstate - 1)).bind fun rhip =>
      (arrAt c.walkArrRKnee (s.sitstate - 1)).bind fun rknee =>
      let r := checkPos s.sent i.back lhip lknee rhip rknee
      if r.1 = 1 then
        some { sitstate := s.sitstate - 1, movestate := STATEIMMOBILE, sent := r.2 }
      else some { sitstate := s.sitstate, movestate := s.movestate, sent := r.2 }
    else some s

/-- Runs the listed branches of the four-array sit-stand body one after the
other. -/
def sitStandFourSeq (c : WalkCfg) (i : PollIn) :
    List Branch → SitStandState → Option SitStandState
  | [], s => some s
  | k :: ks, s => (sitStandFourBranch c i k s).bind (sitStandFourSeq c i ks)

/-- The four motion branches of one iteration of the four-array sit-stand
body. -/
def sitStandFourBody (c : WalkCfg) (i : PollIn) (s : SitStandState) : Option SitStandState :=
  sitStandFourSeq c i branchOrder s

/-! ## Calibration (lines 40-49 and 963-988) -/

def KNEE_MOTOR_POS1 : Int := 250880
def KNEE_MOTOR_DEG1 : Int := 90
def KNEE_MOTOR_POS2 : Int := 0
def KNEE_MOTOR_DEG2 : Int := 0
def HIP_MOTOR_POS1 : Int := 250880
def HIP_MOTOR_DEG1 : Int := 90
def HIP_MOTOR_POS2 : Int := 0
def HIP_MOTOR_DEG2 : Int := 180

/-- A C `double` without its rounding: a finite value is an exact rational, and
`nonFinite` stands for an infinity or a NaN.  Rounding error and the overflow
of finite values are left out. -/
inductive Dbl where
  | finite (q : ℚ)
  | nonFinite
  deriving DecidableEq

/-- Product of two doubles; a non-finite operand gives a non-finite result. -/
def Dbl.mul : Dbl → Dbl → Dbl
  | Dbl.finite a, Dbl.finite b => Dbl.finite (a * b)
  | _, _ => Dbl.nonFinite

/-- Sum of two doubles; a non-finite operand gives a non-finite result. -/
def Dbl.add : Dbl → Dbl → Dbl
  | Dbl.finite a, Dbl.finite b => Dbl.finite (a + b)
  | _, _ => Dbl.nonFinite

/-- The C expression `1.0 * n / d` for `long` values `n` and `d`: the division
is a double division, which does not trap; with `d` equal to 0 its result is
an infinity (or NaN when `n` is 0 too). -/
def Dbl.ratio (n d : Int) : Dbl :=
  if d = 0 then Dbl.nonFinite else Dbl.finite ((n : ℚ) / (d : ℚ))

/-- The cast `(long)` of a double: a finite value is truncated toward zero; the
cast of a non-finite value has no defined result. -/
def Dbl.toLong : Dbl → Option Int
  | Dbl.finite q => some (Int.tdiv q.num q.den)
  | Dbl.nonFinite => none

/-- Calculates A and B in the formula y = Ax + B (lines 982-988).  There is
no test of `x2 - x1` and no failure path: the function always returns. -/
def calcAB (y1 x1 y2 x2 : Int) : Dbl × Dbl :=
  (Dbl.ratio (y2 - y1) (x2 - x1), Dbl.ratio (y1 * x2 - y2 * x1) (x2 - x1))

/-- The loop body of `motorPosArrayConverter` (line 977):
`(long)(A * origArr[i] + B)`. -/
def toMotorPos (A B : Dbl) (angle : ℚ) : Option Int :=
  ((A.mul (Dbl.finite angle)).add B).toLong

/-- Converts a position array from degrees to motor counts (lines 964-979).
An element is `none` when its cast to `long` has no defined result. -/
def motorPosArrayConverter (origArr : List ℚ) (nodeid : Int) : List (Option Int) :=
  let AB : Dbl × Dbl := (Dbl.finite 0, Dbl.finite 0)
  let AB := if nodeid = 1 ∨ nodeid = 3 then
      calcAB HIP_MOTOR_POS1 HIP_MOTOR_DEG1 HIP_MOTOR_POS2 HIP_MOTOR_DEG2 else AB
  let AB := if nodeid = 2 ∨ nodeid = 4 then
      calcAB KNEE_MOTOR_POS1 KNEE_MOTOR_DEG1 KNEE_MOTOR_POS2 KNEE_MOTOR_DEG2 else AB
  origArr.map (toMotorPos AB.1 AB.2)

/-- Trajectory of `sitStand` in degrees, hip (lines 157-160). -/
def sitStandArrHip_degrees : List ℚ := [180.00, 96.23]

/-- Trajectory of `sitStand` in degrees, knee (lines 161-164). -/
def sitStandArrKnee_degrees : List ℚ := [0.00, 84.42]

/-- The converted arrays of `sitStand` (lines 166-173) with its argument
`initState`; `none` when an element has no defined value. -/
def sitStandTrajectory (initState : Int) : Option SitStandCfg :=
  (motorPosArrayConverter sitStandArrHip_degrees LHIP).allSome.bind fun hip =>
  (motorPosArrayConverter sitStandArrKnee_degrees LKNEE).allSome.bind fun knee =>
  some { sitStandArrayHip := hip, sitStandArrayKnee := knee, initState := initState }

/-- The converted trajectory of `sitStand` called with SITTING. -/
def sittingCfg : SitStandCfg :=
  { sitStandArrayHip := [0, 233513], sitStandArrayKnee := [0, 235325],
    initState := SITTING }

/-- Readings of drives standing on waypoint 1 of the sit-stand trajectory. -/
def atWaypoint1 : Reads := readsAt 233513 235325 233513 235325

/-- An iteration in which only the advance button reads pressed, the drives
standing on waypoint 1. -/
def advanceAtWaypoint1 : PollIn :=
  { pressAdvance with fwd := atWaypoint1, back := atWaypoint1 }

/-- An iteration in which only the retreat button reads pressed, the drives
standing on waypoint 1. -/
def retreatAtWaypoint1 : PollIn :=
  { pressRetreat with fwd := atWaypoint1, back := atWaypoint1 }

/-! ## Parsing a position reply (lines 610-618, 807-839) -/

/-- A value of C type `int` after an operation that may overflow: wrap-around
in 32 bits. -/
def wrapInt (n : Int) : Int := (n + 2147483648) % 4294967296 - 2147483648

/-- A value of C type `long` after an operation that may overflow: on the
32-bit target `long` has 32 bits, and overflow is taken to wrap around. -/
def wrapLong (n : Int) : Int := (n + 2147483648) % 4294967296 - 2147483648

/-- The delimiters of `stringExtract` (line 810): space, newline, carriage
return. -/
def isDelim (c : Char) : Bool :=
  c = Char.ofNat 32 || c = Char.ofNat 10 || c = Char.ofNat 13

/-- The tokens `strtok` finds in a string: the maximal runs of characters that
are not delimiters, in order.  `cur` holds the characters of the token being
read, last first. -/
def tokensFrom : List Char → List Char → List (List Char)
  | cur, [] => if cur = [] then [] else [cur.reverse]
  | cur, c :: cs =>
    if isDelim c then
      if cur = [] then tokensFrom [] cs else cur.reverse :: tokensFrom [] cs
    else tokensFrom (c :: cur) cs

/-- The tokens of a string. -/
def tokens (s : List Char) : List (List Char) := tokensFrom [] s

/-- The loop of `stringExtract` (lines 814-818): while there is a token and
`i < pos`, the output is set to the token and the next token is fetched.
`left` is `pos - i`. -/
def stringExtractLoop : List (List Char) → Nat → Option (List Char) → Option (List Char)
  | [], _, out => out
  | _ :: _, 0, out => out
  | tok :: rest, left + 1, _ => stringExtractLoop rest left (some tok)

/-- Extracts the string at position `pos` of `origStr` (lines 807-819).
`extractStr` is what the output pointer holds before the call, `none` when it
is uninitialised; the result is what it holds after the call. -/
def stringExtract (origStr : List Char) (extractStr : Option (List Char)) (pos : Int) :
    Option (List Char) :=
  stringExtractLoop (tokens origStr) pos.toNat extractStr

/-- The two loops of `strToInt` (lines 830-831 and 836-837) over the characters
in the order they are read, last character first: `j` is the `int` multiplier,
`num` the `long` sum.  A character counts for its code minus the code of the
digit 0, whatever it is. -/
def strToIntLoop : List Char → Int → Int → Int
  | [], _, num => num
  | ch :: rest, j, num =>
    strToIntLoop rest (wrapInt (j * 10))
      (wrapLong (num + wrapInt (((ch.toNat : Int) - 48) * j)))

/-- Converts a string to an integer (lines 822-839).  There is no test that the
characters are digits and no failure path. -/
def strToInt (str : List Char) : Int :=
  if str.head? = some (Char.ofNat 45) then
    wrapLong (- strToIntLoop (str.drop 1).reverse 1 0)
  else strToIntLoop str.reverse 1 0

/-- The position `getPos` returns for a reply `positionMessage` (lines 610-618):
the second token, or whatever `stringExtract` leaves, converted by `strToInt`.
`positionStr` is uninitialised before the call, so a reply without any token
gives no defined result. -/
def positionOf (positionMessage : List Char) : Option Int :=
  (stringExtract positionMessage none 2).map strToInt

/-- The replies of the daemon to the eight position queries one `checkPos` call
can make, in the order of the calls. -/
structure Replies where
  lhip1 : List Char
  lhip2 : List Char
  rhip1 : List Char
  rhip2 : List Char
  lknee1 : List Char
  lknee2 : List Char
  rknee1 : List Char
  rknee2 : List Char
  deriving DecidableEq

/-- The positions `getPos` makes of eight replies; `none` when one of them has
no defined result. -/
def Replies.reads (p : Replies) : Option Reads :=
  (positionOf p.lhip1).bind fun a1 => (positionOf p.lhip2).bind fun a2 =>
  (positionOf p.rhip1).bind fun b1 => (positionOf p.rhip2).bind fun b2 =>
  (positionOf p.lknee1).bind fun c1 => (positionOf p.lknee2).bind fun c2 =>
  (positionOf p.rknee1).bind fun d1 => (positionOf p.rknee2).bind fun d2 =>
  some { lhip1 := a1, lhip2 := a2, rhip1 := b1, rhip2 := b2,
         lknee1 := c1, lknee2 := c2, rknee1 := d1, rknee2 := d2 }

/-- The same reply to all eight queries. -/
def Replies.all (reply : List Char) : Replies :=
  { lhip1 := reply, lhip2 := reply, rhip1 := reply, rhip2 := reply,
    lknee1 := reply, lknee2 := reply, rknee1 := reply, rknee2 := reply }

/-- A reply that holds the bus prefix and no second token: `[1]`. -/
def replyNoValue : List Char := ['[', '1', ']']

/-- A reply whose second token is not a decimal integer: `[1] 0x1F`, ended by
a carriage return. -/
def replyHex : List Char := ['[', '1', ']', ' ', '0', 'x', '1', 'F', Char.ofNat 13]

/-- A well-formed reply: `[1] 233513`, ended by a carriage return. -/
def replyGood : List Char :=
  ['[', '1', ']', ' ', '2', '3', '3', '5', '1', '3', Char.ofNat 13]

/-- A reply whose second token is an error word: `[1] ERROR`, ended by a
carriage return. -/
def replyError : List Char :=
  ['[', '1', ']', ' ', 'E', 'R', 'R', 'O', 'R', Char.ofNat 13]

/-- An iteration in which only the advance button reads pressed and every
position query is answered by a reply that `getPos` reads as 4355. -/
def advanceNoValue : PollIn :=
  { pressAdvance with fwd := readsAt 4355 4355 4355 4355 }

/-! ## The socket exchange (lines 691-758) -/

/-- One operation on the socket, as the program performs it. -/
inductive SockOp where
  | write (command : List Char)
  | read
  | close
  | connect
  deriving DecidableEq

/-- How the socket behaves in one exchange of `canFeast`: whether the write
succeeds, whether the read succeeds, and the reply read. -/
structure Xfer where
  writeOk : Bool
  readOk : Bool
  reply : List Char
  deriving DecidableEq

/-- How a call on the Device Link ends: the reply is stored and the function
returns, or the process is ended by `exit(EXIT_FAILURE)`. -/
inductive Feast where
  | replied (reply : List Char)
  | exitFailure
  deriving DecidableEq

/-- Sends one command and reads the reply (lines 698-719).  The result holds
the socket operations performed, in order. -/
def canFeast (command : List Char) (x : Xfer) : List SockOp × Feast :=
  if x.writeOk = false then ([SockOp.write command], Feast.exitFailure)
  else if x.readOk = false then
    ([SockOp.write command, SockOp.read, SockOp.close], Feast.exitFailure)
  else ([SockOp.write command, SockOp.read], Feast.replied x.reply)

/-- The sending loop of `setAbsPosSmart` (lines 660-663) over the commands of
`commList`, each paired with the behaviour of the socket in its exchange.  The
result holds the socket operations performed and whether the process was ended
inside `canFeast`. -/
def sendCommList : List (List Char × Xfer) → List SockOp × Bool
  | [] => ([], false)
  | (command, x) :: rest =>
    match canFeast command x with
    | (ops, Feast.exitFailure) => (ops, true)
    | (ops, Feast.replied _) => (ops ++ (sendCommList rest).1, (sendCommList rest).2)

/-- The commands written on the socket, in order, among a list of socket
operations. -/
def written : List SockOp → List (List Char)
  | [] => []
  | SockOp.write command :: ops => command :: written ops
  | _ :: ops => written ops

/-- The position query of node 1, `[1] 1 read 0x6063 0 i32` (line 596). -/
def queryNode1 : List Char :=
  ['[', '1', ']', ' ', '1', ' ', 'r', 'e', 'a', 'd', ' ',
   '0', 'x', '6', '0', '6', '3', ' ', '0', ' ', 'i', '3', '2']

/-- The preop command of node 1, `[1] 1 preop` (line 847). -/
def preopNode1 : List Char :=
  ['[', '1', ']', ' ', '1', ' ', 'p', 'r', 'e', 'o', 'p']

/-- First command of a `setAbsPosSmart` burst for node 1 and position 0, the
target position `[1] 1 write 0x607A 0 i32 0` (line 627). -/
def moveNode1 : List Char :=
  ['[', '1', ']', ' ', '1', ' ', 'w', 'r', 'i', 't', 'e', ' ',
   '0', 'x', '6', '0', '7', 'A', ' ', '0', ' ', 'i', '3', '2', ' ', '0']

/-- Second command of the burst, control word low
`[1] 1 write 0x6040 0 i16 47` (line 639). -/
def controlLowNode1 : List Char :=
  ['[', '1', ']', ' ', '1', ' ', 'w', 'r', 'i', 't', 'e', ' ',
   '0', 'x', '6', '0', '4', '0', ' ', '0', ' ', 'i', '1', '6', ' ', '4', '7']

/-- Third command of the burst, control word high
`[1] 1 write 0x6040 0 i16 63` (line 646). -/
def controlHighNode1 : List Char :=
  ['[', '1', ']', ' ', '1', ' ', 'w', 'r', 'i', 't', 'e', ' ',
   '0', 'x', '6', '0', '4', '0', ' ', '0', ' ', 'i', '1', '6', ' ', '6', '3']

/-- An exchange that succeeds with the reply `[1] OK`. -/
def xferOk : Xfer :=
  { writeOk := true, readOk := true, reply := ['[', '1', ']', ' ', 'O', 'K'] }

/-- An exchange whose write fails. -/
def xferWriteFails : Xfer := { writeOk := false, readOk := true, reply := [] }

/-- An exchange whose read fails. -/
def xferReadFails : Xfer := { writeOk := true, readOk := false, reply := [] }

/-! ## The reconnecting exchange (lines 721-758) -/

def MAX_RECONNECTS : Int := 10

/-- Behaviour of the socket during one call of `canFeastErrorHandler`: whether
the write, the read and the connection attempt number `k` (from 0, each kind
counted on its own) succeed. -/
structure Net where
  writeOk : Nat → Bool
  readOk : Nat → Bool
  connectOk : Nat → Bool

/-- Progress of a call of `canFeastErrorHandler`: the numbers of writes, reads
and connection attempts made so far, the local counter `recconects`, and the
socket operations performed, oldest first. -/
structure Handler where
  writes : Nat
  reads : Nat
  connects : Nat
  recconects : Int
  ops : List SockOp
  deriving DecidableEq

/-- How a call of `canFeastErrorHandler` ends: it returns with the reply
stored, the process is ended by `exit(EXIT_FAILURE)`, or the `while` loop is
still running when the allowance of iterations is used up. -/
inductive Ended where
  | returned
  | exitFailure
  | looping
  deriving DecidableEq

/-- One `write` of the command. -/
def Handler.write (n : Net) (command : List Char) (h : Handler) : Bool × Handler :=
  (n.writeOk h.writes,
    { h with writes := h.writes + 1, ops := h.ops ++ [SockOp.write command] })

/-- One `read`. -/
def Handler.read (n : Net) (h : Handler) : Bool × Handler :=
  (n.readOk h.reads, { h with reads := h.reads + 1, ops := h.ops ++ [SockOp.read] })

/-- The call `canFeastDown` (lines 691-697): the socket is closed. -/
def Handler.down (h : Handler) : Handler := { h with ops := h.ops ++ [SockOp.close] }

/-- The call `canFeastUp` (lines 668-690): a socket is created and connected;
on failure the process is ended. -/
def Handler.up (n : Net) (h : Handler) : Bool × Handler :=
  (n.connectOk h.connects,
    { h with connects := h.connects + 1, ops := h.ops ++ [SockOp.connect] })

/-- The call `canFeast` inside the handler (lines 698-719). -/
def Handler.canFeast (n : Net) (command : List Char) (h : Handler) : Bool × Handler :=
  let w := h.write n command
  if w.1 = false then (false, w.2)
  else
    let r := w.2.read n
    if r.1 = false then (false, r.2.down) else (true, r.2)

/-- Lines 744-757: the read that follows the `while` loop. -/
def handlerRead (n : Net) (command : List Char) (h : Handler) : Handler × Ended :=
  let r := h.read n
  if r.1 = false then
    let u := r.2.down.up n
    if u.1 = false then (u.2, Ended.exitFailure)
    else ((u.2.canFeast n command).2, Ended.exitFailure)
  else (r.2, Ended.returned)

/-- Lines 733-742: the `while` loop, then the read.  Each evaluation of the
loop condition writes the command once; the loop goes on while that write
fails and `recconects` differs from MAX_RECONNECTS.  `fuel` bounds the number
of evaluations of the condition. -/
def handlerLoop (n : Net) (command : List Char) : Nat → Handler → Handler × Ended
  | 0, h => (h, Ended.looping)
  | fuel + 1, h =>
    let w := h.write n command
    if w.1 = false ∧ w.2.recconects ≠ MAX_RECONNECTS then
      let u := w.2.down.up n
      if u.1 = false then (u.2, Ended.exitFailure)
      else handlerLoop n command fuel { u.2 with recconects := wrapInt (u.2.recconects + 1) }
    else handlerRead n command w.2

/-- Error handling exchange (lines 721-758).  `recconects` is what the
uninitialised local counter holds at entry. -/
def canFeastErrorHandler (n : Net) (command : List Char) (recconects : Int) (fuel : Nat) :
    Handler × Ended :=
  let h : Handler := { writes := 0, reads := 0, connects := 0, recconects := recconects,
                       ops := [] }
  let w := h.write n command
  if w.1 = false then
    let f := w.2.canFeast n command
    if f.1 = false then (f.2, Ended.exitFailure)
    else handlerLoop n command fuel f.2
  else handlerLoop n command fuel w.2

/-- A socket on which the first write succeeds and every later write fails,
while reads and connection attempts succeed. -/
def netWritesFailAfterFirst : Net :=
  { writeOk := fun k => k == 0, readOk := fun _ => true, connectOk := fun _ => true }

/-- A socket on which every write fails, while reads and connection attempts
succeed. -/
def netWritesFail : Net :=
  { writeOk := fun _ => false, readOk := fun _ => true, connectOk := fun _ => true }

/-! ## Integer to string (lines 760-802) -/

/-- Smallest value of a C `int` on the target. -/
def INT_MIN : Int := -2147483648

/-- Largest value of a C `int` on the target. -/
def INT_MAX : Int := 2147483647

/-- Base for int to string conversion (line 24). -/
def DECIMAL : Int := 10

/-- The character that ends a C string. -/
def NUL : Char := Char.ofNat 0

/-- The string held in a character array: the cells before the first NUL. -/
def cstr (cells : List Char) : List Char :=
  cells.takeWhile fun c => decide (c ≠ NUL)

/-- The string `strcpy` stores in its destination: the string held in `src`. -/
def strcpy (src : List Char) : List Char := cstr src

/-- The string `strcat` leaves in its destination, which held the string `dst`
before the call. -/
def strcat (dst src : List Char) : List Char := dst ++ cstr src

/-- The digit table of `itoa` (line 767). -/
def num : List Char := "0123456789abcdefghijklmnopqrstuvwxyz".toList

/-- The cell `num[k]`; cell 36 is the terminator of the table.  `itoa` reads
only cells below `base`. -/
def numAt (k : Nat) : Char := num.getD k NUL

/-- The conversion loop of `itoa` (lines 783-785),
`do *wstr++ = num[value % base]; while (value /= base);` for a `value` that is
not negative: the cells written, in the order they are written.  `fuel` bounds
the number of iterations. -/
def itoaLoop (base : Nat) : Nat → Nat → List Char
  | 0, _ => []
  | fuel + 1, value =>
    numAt (value % base) ::
      (if value / base ≠ 0 then itoaLoop base fuel (value / base) else [])

/-- The loop of `strreverse` (lines 800-801) on the cells from `begin` to `end`:
while `end > begin` the two outer cells are exchanged and both pointers move
inwards.  `fuel` bounds the number of iterations. -/
def strreverseLoop : Nat → List Char → List Char
  | 0, cells => cells
  | fuel + 1, cells =>
    match cells with
    | c :: d :: rest =>
      (d :: rest).getLast (List.cons_ne_nil d rest) ::
        strreverseLoop fuel (d :: rest).dropLast ++ [c]
    | cells => cells

/-- Reverses a string (lines 797-802): `cells` are the cells from `begin` to
`end`, both included. -/
def strreverse (cells : List Char) : List Char := strreverseLoop cells.length cells

/-- Converts an integer to a string (lines 765-794; the same text is at lines
397-424 and 167-194 of the two canFeast programs).  The result holds the cells
stored in `str`, the terminating NUL included.  `value` is a C `int`: for
INT_MIN the negation of line 780 overflows and nothing is defined from there
on, which is `none` here.  The loop divides `value` at least by 2 in each
iteration, so `value + 1` iterations are enough. -/
def itoa (value base : Int) : Option (List Char) :=
  if base < 2 ∨ base > 35 then some [NUL]
  else if value = INT_MIN then none
  else
    let sign := value
    let value := if sign < 0 then -value else value
    let wstr := itoaLoop base.toNat (value.toNat + 1) value.toNat
    let wstr := if sign < 0 then wstr ++ ['-'] else wstr
    some (strreverse wstr ++ [NUL])

/-! ## Numerals and tokens in the words of the spec -/

/-- The character of a digit in the notation 0-9a-z: 0 to 9 for the digits
below ten, a to z from ten on. -/
def digit09az (d : Nat) : Char :=
  if d < 10 then Char.ofNat (48 + d) else Char.ofNat (87 + d)

/-- The numeral of an integer in base `b`: the digits of its absolute value,
most significant first and without leading zeros (the single digit 0 for
zero), preceded by a minus sign when the integer is negative. -/
def numeralOf (b : Nat) (v : Int) : List Char :=
  (if v < 0 then ['-'] else []) ++
    (if v = 0 then ['0'] else (Nat.digits b v.natAbs).reverse.map digit09az)

/-- The tokens of a string in the words of the spec: the pieces between
delimiters that are not empty, a run of delimiters separating two tokens like a
single delimiter does. -/
def tokenList (s : List Char) : List (List Char) :=
  (s.splitOnP isDelim).filter fun w => decide (w ≠ [])

/-! ## The commands as handed to canFeast (lines 588-664) -/

namespace Wire

/-- Sets the target position of a node and moves it there (lines 622-664), at
the level of the strings: the result holds the commands of `commList` in the
order the loop of lines 662-663 hands them to `canFeast`, every exchange taken
to succeed.  The buffers have 50 cells, more than the longest command built
from two `int` values needs.  `none` when a call of `itoa` has no defined
result. -/
def setAbsPosSmart (nodeid position : Int) : Option (List (List Char)) :=
  let movePos := strcpy "[1] ".toList
  (itoa nodeid DECIMAL).bind fun buffer =>
  let nodeStr := strcpy buffer
  let movePos := strcat movePos nodeStr
  let movePos := strcat movePos " write 0x607A 0 i32 ".toList
  (itoa position DECIMAL).bind fun buffer =>
  let pos := strcpy buffer
  let movePos := strcat movePos pos
  let cntrWordL := strcpy "[1] ".toList
  let cntrWordL := strcat cntrWordL nodeStr
  let cntrWordL := strcat cntrWordL " write 0x6040 0 i16 47".toList
  let cntrWordH := strcpy "[1] ".toList
  let cntrWordH := strcat cntrWordH nodeStr
  let cntrWordH := strcat cntrWordH " write 0x6040 0 i16 63".toList
  let commList := [movePos, cntrWordL, cntrWordH]
  some commList

/-- Reads the position of a node (lines 589-619), at the level of the strings:
the commands handed to `canFeast` and the value returned when the exchange
succeeds and leaves `positionMessage` as the reply.  The value is `none` when
the reply has no token, `positionStr` being uninitialised then. -/
def getPos (nodeid : Int) (positionMessage : List Char) :
    Option (List (List Char) × Option Int) :=
  (itoa nodeid DECIMAL).bind fun buffer =>
  let getpos := strcpy "[1] ".toList
  let node := strcpy buffer
  let dataType := strcpy " read 0x6063 0 i32".toList
  let getpos := strcat getpos node
  let getpos := strcat getpos dataType
  let position := positionOf positionMessage
  some ([getpos], position)

end Wire

/-! ## The sit-stand program of canFeast

The program of 603 lines under `canOpenBeagle/canFeast`, whose heading reads
"Program for sit stand mode on the Fourier X2 exoskeleton" (in the source tree
its file is named `CanFeast_CloseSocket.c`).  Its `itoa`, `strreverse`,
`stringExtract`, `strToInt`, `calcAB` and `motorPosArrayConverter` (lines
392-464 and 581-603) have the text of the walk program, and the definitions
above stand for them.  Line numbers in this section are those of this
program. -/

namespace SitStandMode

/-- Clearance used in point to point motion (line 32). -/
def POSCLEARANCE : Int := 5000

/-- Arguments of `sitStand` (lines 48-49). -/
def STANDING : Int := 1

/-- The argument `main` passes to `sitStand` (lines 49 and 96). -/
def SITTING : Int := 2

/-- Checks that the four joints are within the clearance of the hip target and
the knee target (lines 512-526).  The conjunctions are evaluated left to right
and stop at the first false test. -/
def checkPos (sent : List Call) (r : Reads) (hipTarget kneeTarget : Int) : Int × List Call :=
  let (p, sent) := Walk.getPos sent LHIP r.lhip1
  if p > hipTarget - POSCLEARANCE then
    let (p, sent) := Walk.getPos sent LHIP r.lhip2
    if p < hipTarget + POSCLEARANCE then
      let (p, sent) := Walk.getPos sent RHIP r.rhip1
      if p > hipTarget - POSCLEARANCE then
        let (p, sent) := Walk.getPos sent RHIP r.rhip2
        if p < hipTarget + POSCLEARANCE then
          let (p, sent) := Walk.getPos sent LKNEE r.lknee1
          if p > kneeTarget - POSCLEARANCE then
            let (p, sent) := Walk.getPos sent LKNEE r.lknee2
            if p < kneeTarget + POSCLEARANCE then
              let (p, sent) := Walk.getPos sent RKNEE r.rknee1
              if p > kneeTarget - POSCLEARANCE then
                let (p, sent) := Walk.getPos sent RKNEE r.rknee2
                if p < kneeTarget + POSCLEARANCE then (1, sent)
                else (0, sent)
              else (0, sent)
            else (0, sent)
          else (0, sent)
        else (0, sent)
      else (0, sent)
    else (0, sent)
  else (0, sent)

/-- Trajectory in degrees, hip (lines 106-118). -/
def sitStandArrHip_degrees : List ℚ :=
  [171.5932928, 170.6247195, 165.4071417, 155.2170037, 141.6186214, 126.7503007,
   111.8500781, 98.17421981, 87.90148218, 82.63339525, 81.65449369]

/-- Trajectory in degrees, knee (lines 119-131). -/
def sitStandArrKnee_degrees : List ℚ :=
  [18.18910485, 19.56831896, 26.67960225, 39.57206594, 54.74348215, 68.05336053,
   77.4266519, 83.03778535, 85.73771647, 86.61634762, 86.7210792]

/-- The converted arrays of `sitStand` (lines 133-140) with its argument
`state`; `none` when an element has no defined value. -/
def sitStandTrajectory (state : Int) : Option SitStandCfg :=
  (motorPosArrayConverter sitStandArrHip_degrees LHIP).allSome.bind fun hip =>
  (motorPosArrayConverter sitStandArrKnee_degrees LKNEE).allSome.bind fun knee =>
  some { sitStandArrayHip := hip, sitStandArrayKnee := knee, initState := state }

/-- State at loop entry (lines 143-147 and 177), on a link with log `sent`. -/
def sitStandInit (c : SitStandCfg) (sent : List Call) : SitStandState :=
  let sitstate : Int := 1
  let sitstate := if c.initState = SITTING then c.arrSize else sitstate
  let sitstate := if c.initState = STANDING then -1 else sitstate
  { sitstate := sitstate, movestate := 0, sent := sent }

/-- Lines 196-203: button 1 pressed, exo not moving, array not at end.  In this
program `getButton` returns 1 for a pressed button. -/
def sitStandAdvanceStart (c : SitStandCfg) (i : PollIn) (s : SitStandState) :
    Option SitStandState :=
  if i.button1Status = 1 ∧ s.movestate = 0 ∧ s.sitstate < c.arrSize - 1 then
    (arrAt c.sitStandArrayHip (s.sitstate + 1)).bind fun hip =>
    (arrAt c.sitStandArrayKnee (s.sitstate + 1)).bind fun knee =>
    let sent := Walk.setAbsPosSmart s.sent LHIP hip
    let sent := Walk.setAbsPosSmart sent LKNEE knee
    let sent := Walk.setAbsPosSmart sent RHIP hip
    let sent := Walk.setAbsPosSmart sent RKNEE knee
    some { sitstate := s.sitstate, movestate := 1, sent := sent }
  else some s

/-- Lines 206-212: if the target position is reached, increment `sitstate` and
set `movestate` to 0. -/
def sitStandAdvanceCheck (c : SitStandCfg) (i : PollIn) (s : SitStandState) :
    Option SitStandState :=
  if s.sitstate < 10 ∧ s.movestate = 1 then
    (arrAt c.sitStandArrayHip (s.sitstate + 1)).bind fun hip =>
    (arrAt c.sitStandArrayKnee (s.sitstate + 1)).bind fun knee =>
    let r := checkPos s.sent i.fwd hip knee
    if r.1 = 1 then
      some { sitstate := s.sitstate + 1, movestate := 0, sent := r.2 }
    else some { sitstate := s.sitstate, movestate := s.movestate, sent := r.2 }
  else some s

/-- Lines 215-222: button 2 pressed, exo not moving, array not at start. -/
def sitStandRetreatStart (c : SitStandCfg) (i : PollIn) (s : SitStandState) :
    Option SitStandState :=
  if i.button2Status = 1 ∧ s.movestate = 0 ∧ s.sitstate > 0 then
    (arrAt c.sitStandArrayHip (s.sitstate - 1)).bind fun hip =>
    (arrAt c.sitStandArrayKnee (s.sitstate - 1)).bind fun knee =>
    let sent := Walk.setAbsPosSmart s.sent LHIP hip
    let sent := Walk.setAbsPosSmart sent LKNEE knee
    let sent := Walk.setAbsPosSmart sent RHIP hip
    let sent := Walk.setAbsPosSmart sent RKNEE knee
    some { sitstate := s.sitstate, movestate := 1, sent := sent }
  else some s

/-- Lines 225-231: if the target position is reached, decrease `sitstate` and
set `movestate` to 0. -/
def sitStandRetreatCheck (c : SitStandCfg) (i : PollIn) (s : SitStandState) :
    Option SitStandState :=
  if s.sitstate > 0 ∧ s.movestate = 1 then
    (arrAt c.sitStandArrayHip (s.sitstate - 1)).bind fun hip =>
    (arrAt c.sitStandArrayKnee (s.sitstate - 1)).bind fun knee =>
    let r := checkPos s.sent i.back hip knee
    if r.1 = 1 then
      some { sitstate := s.sitstate - 1, movestate := 0, sent := r.2 }
    else some { sitstate := s.sitstate, movestate := s.movestate, sent := r.2 }
  else some s

/-- One motion branch of the loop body. -/
def sitStandBranch (c : SitStandCfg) (i : PollIn) : Branch → SitStandState → Option SitStandState
  | Branch.advanceStart => sitStandAdvanceStart c i
  | Branch.advanceCheck => sitStandAdvanceCheck c i
  | Branch.retreatStart => sitStandRetreatStart c i
  | Branch.retreatCheck => sitStandRetreatCheck c i

/-- Runs the listed motion branches one after the other. -/
def sitStandSeq (c : SitStandCfg) (i : PollIn) : List Branch → SitStandState → Option SitStandState
  | [], s => some s
  | k :: ks, s => (sitStandBranch c i k s).bind (sitStandSeq c i ks)

/-- Lines 234-240: if button 3 is pressed, the four nodes are set to preop and
the loop is left. -/
def sitStandTail (i : PollIn) (s : SitStandState) : Outcome SitStandState :=
  if i.button3Status = 1 then
    Outcome.returned { s with sent := preop (preop (preop (preop s.sent 1) 2) 3) 4 }
  else Outcome.next s

/-- One iteration of the loop of `sitStand` (lines 188-241). -/
def sitStandPoll (c : SitStandCfg) (i : PollIn) (s : SitStandState) :
    Option (Outcome SitStandState) :=
  (sitStandSeq c i branchOrder s).map (sitStandTail i)

/-- The loop of `sitStand` over the inputs of successive iterations.  When the
inputs run out with the loop still going the result is `next`. -/
def sitStandLoop (c : SitStandCfg) : List PollIn → SitStandState → Option (Outcome SitStandState)
  | [], s => some (Outcome.next s)
  | i :: is, s =>
    match sitStandPoll c i s with
    | some (Outcome.next s') => sitStandLoop c is s'
    | r => r

/-- Runs the loop of `sitStand` from its entry on a link with log `sent`. -/
def sitStand (c : SitStandCfg) (sent : List Call) (ins : List PollIn) :
    Option (Outcome SitStandState) :=
  sitStandLoop c ins (sitStandInit c sent)

/-- What a run has led to: the index, the move state and the position commands
sent so far; `none` when the run did not end in the loop. -/
def progress : Option (Outcome SitStandState) → Option (Int × Int × List Call)
  | some (Outcome.next s) => some (s.sitstate, s.movestate, s.sent.filter Call.isMove)
  | _ => none

/-- The converted trajectory of `sitStand` called with SITTING, as `main` does
(line 96). -/
def sittingCfg : SitStandCfg :=
  { sitStandArrayHip :=
      [23434, 26134, 40678, 69083, 106990, 148436, 189971, 228093, 256729, 271414, 274143],
    sitStandArrayKnee :=
      [50703, 54547, 74370, 110309, 152600, 189702, 215831, 231472, 238998, 241447, 241739],
    initState := SITTING }

/-- Readings of drives that stand on the last waypoint, the sitting posture. -/
def seated : Reads := readsAt 274143 241739 274143 241739

/-- An iteration in which only button 2 (stand more) reads pressed, the drives
standing on the last waypoint. -/
def standMoreSeated : PollIn :=
  { button1Status := 0, button2Status := 1, button3Status := 0, button4Status := 0,
    fwd := seated, back := seated }

/-- An iteration in which no button reads pressed, the drives standing on the
last waypoint. -/
def idleSeated : PollIn :=
  { button1Status := 0, button2Status := 0, button3Status := 0, button4Status := 0,
    fwd := seated, back := seated }

namespace Wire

/-- Sets the target position of a node and moves it there (lines 305-346), at
the level of the strings: the commands of `commList` in the order the loop of
lines 344-345 hands them to `canFeast`. -/
def setAbsPosSmart (nodeid position : Int) : Option (List (List Char)) :=
  let movePos := strcpy "[1] ".toList
  (itoa nodeid DECIMAL).bind fun buffer =>
  let nodeStr := strcpy buffer
  let movePos := strcat movePos nodeStr
  let movePos := strcat movePos " write 0x607A 0 i32 ".toList
  (itoa position DECIMAL).bind fun buffer =>
  let pos := strcpy buffer
  let movePos := strcat movePos pos
  let cntrWordL := strcpy "[1] ".toList
  let cntrWordL := strcat cntrWordL nodeStr
  let cntrWordL := strcat cntrWordL " write 0x6040 0 i16 47".toList
  let cntrWordH := strcpy "[1] ".toList
  let cntrWordH := strcat cntrWordH nodeStr
  let cntrWordH := strcat cntrWordH " write 0x6040 0 i16 63".toList
  let commList := [movePos, cntrWordL, cntrWordH]
  some commList

/-- Reads the position of a node (lines 272-302), at the level of the strings:
the commands handed to `canFeast` and the value returned when the exchange
leaves `positionMessage` as the reply. -/
def getPos (nodeid : Int) (positionMessage : List Char) :
    Option (List (List Char) × Option Int) :=
  (itoa nodeid DECIMAL).bind fun buffer =>
  let getpos := strcpy "[1] ".toList
  let node := strcpy buffer
  let dataType := strcpy " read 0x6063 0 i32".toList
  let getpos := strcat getpos node
  let getpos := strcat getpos dataType
  let position := positionOf positionMessage
  some ([getpos], position)

end Wire

end SitStandMode

/-! ## The socket test program of canFeast

The program of 397 lines under `canOpenBeagle/canFeast`, which opens and closes
a socket for each command and has no trajectory (in the source tree its file
is named `CanFeast_SitStandMode.c`).  Its `itoa` (lines 167-194) has the
text of the walk program.  Line numbers in this section are those of this
program. -/

namespace CloseSocket

/-- Sets the target position of a node and moves it there (lines 94-116), at
the level of the strings: the commands of `commList` in the order the loop of
lines 114-115 hands them to `canFeast`.  The two control words are string
constants of the source (lines 109-110). -/
def setAbsPosSmart (nodeid position : Int) : Option (List (List Char)) :=
  let movePos := strcpy "[1] ".toList
  (itoa nodeid DECIMAL).bind fun buffer =>
  let nodeStr := strcpy buffer
  let movePos := strcat movePos nodeStr
  let movePos := strcat movePos " write 0x607A 0 i32 ".toList
  (itoa position DECIMAL).bind fun buffer =>
  let pos := strcpy buffer
  let movePos := strcat movePos pos
  let commList :=
    [movePos, "[1] 2 write 0x6040 0 i16 47".toList, "[1] 2 write 0x6040 0 i16 63".toList]
  some commList

end CloseSocket

/-! ## Button reads over the CAN bus (lines 560-586) -/

namespace Wire

/-- Reads the status of a button (lines 561-586), at the level of the strings:
the command handed to `canFeast` and the value returned when the exchange
leaves `canReturnMessage` as the reply.  `buttons[button - 1]` is a read of an
array of four strings, `none` outside it.  The value is `none` when the reply
has no token, `buttonMessage` being uninitialised then; `strcmp` gives 0 exactly
when the two strings are equal. -/
def getButton (button : Int) (canReturnMessage : List Char) :
    Option (List (List Char) × Option Int) :=
  let buttonPressed := "0x3F800000".toList
  let buttons :=
    ["[1] 9 read 0x0101 1 u32".toList, "[1] 9 read 0x0102 1 u32".toList,
     "[1] 9 read 0x0103 1 u32".toList, "[1] 9 read 0x0104 1 u32".toList]
  (if 0 ≤ button - 1 then buttons.get? (button - 1).toNat else none).bind fun command =>
  let buttonMessage := stringExtract canReturnMessage none 2
  some ([command], buttonMessage.map fun m => if m = buttonPressed then 1 else 0)

end Wire

namespace SitStandMode

namespace Wire

/-- Reads the status of a button in the sit-stand program of canFeast (lines
245-269 of that program), at the level of the strings. -/
def getButton (button : Int) (canReturnMessage : List Char) :
    Option (List (List Char) × Option Int) :=
  let buttonPressed := "0x3F800000".toList
  let buttons :=
    ["[1] 9 read 0x0101 1 u32".toList, "[1] 9 read 0x0102 1 u32".toList,
     "[1] 9 read 0x0103 1 u32".toList, "[1] 9 read 0x0104 1 u32".toList]
  (if 0 ≤ button - 1 then buttons.get? (button - 1).toNat else none).bind fun command =>
  let buttonMessage := stringExtract canReturnMessage none 2
  some ([command], buttonMessage.map fun m => if m = buttonPressed then 1 else 0)

end Wire

end SitStandMode

/-! ## The walk trajectory (lines 301-333) -/

/-- Trajectory of `walkMode` in degrees, left hip (lines 301-333). -/
def walkArrLHip_degrees : List ℚ :=
  [170.00, 170.06, 168.01, 157.19, 130.26, 110.86, 155.61, 156.20, 159.09, 164.12, 170.00,
   177.14, 184.39, 183.49, 177.24, 160.69, 130.26, 110.86, 155.61, 156.20, 159.09, 164.12,
   170.00, 177.14, 184.39, 181.84, 169.71, 150.11, 130.26, 130.26, 170.00]

/-- A sit-stand trajectory of two waypoints entered with an argument that is
neither SITTING nor STANDING. -/
def demoUnknownStart : SitStandCfg :=
  { sitStandArrayHip := [0, 233513], sitStandArrayKnee := [0, 235325], initState := 0 }

/-- Sit-stand state right after the first advance command of a run entered with
STANDING: the index still at -1, the move to waypoint 0 in flight. -/
def demoFirstAdvance : SitStandState :=
  { sitstate := -1, movestate := STATESITTING,
    sent := [Call.setAbsPosSmart 1 0, Call.setAbsPosSmart 2 0,
             Call.setAbsPosSmart 3 0, Call.setAbsPosSmart 4 0] }

end Walk

/-! # Theorems -/

namespace Walk

/-! ## Helper lemmas -/

theorem checkPos_fst (sent : List Call) (r : Reads) (a b c d : Int) :
    (checkPos sent r a b c d).1 =
      if (a - POSCLEARANCE < r.lhip1 ∧ r.lhip2 < a + POSCLEARANCE ∧
          c - POSCLEARANCE < r.rhip1 ∧ r.rhip2 < c + POSCLEARANCE ∧
          b - POSCLEARANCE < r.lknee1 ∧ r.lknee2 < b + POSCLEARANCE ∧
          d - POSCLEARANCE < r.rknee1 ∧ r.rknee2 < d + POSCLEARANCE) then 1 else 0 := by
  unfold checkPos getPos
  simp only [gt_iff_lt]
  split_ifs <;> simp_all

theorem checkPos_snd (sent : List Call) (r : Reads) (a b c d : Int) :
    ∃ q, (checkPos sent r a b c d).2 = sent ++ q ∧ ∀ x ∈ q, x.isMove = false := by
  unfold checkPos getPos
  simp only [gt_iff_lt]
  split_ifs <;> simp only [List.append_assoc] <;>
    exact ⟨_, rfl, by simp [Call.isMove]⟩

theorem arrAt_eq_some (a : List Int) (i v : Int) (h : arrAt a i = some v) :
    0 ≤ i ∧ i < a.length := by
  unfold arrAt at h
  split_ifs at h with h0
  refine ⟨h0, ?_⟩
  have := List.get?_eq_some.1 h
  obtain ⟨hlt, -⟩ := this
  omega

theorem arrAt_isSome (a : List Int) (i : Int) (h0 : 0 ≤ i) (h1 : i < a.length) :
    ∃ v, arrAt a i = some v := by
  unfold arrAt
  rw [if_pos h0]
  have : i.toNat < a.length := by omega
  exact ⟨a.get ⟨i.toNat, this⟩, List.get?_eq_get this⟩

/-! ## Invariants of the two loops -/

theorem sitStandBranch_bounds (c : SitStandCfg) (i : PollIn) (k : Branch) (s : SitStandState)
    (hc : c.sized) (h1 : -1 ≤ s.sitstate) (h2 : s.sitstate ≤ c.arrSize) :
    ∃ s', sitStandBranch c i k s = some s' ∧
      (s'.sitstate = s.sitstate ∨ (0 ≤ s'.sitstate ∧ s'.sitstate ≤ c.arrSize - 1)) ∧
      (s.sitstate = c.arrSize - 1 →
        (k = Branch.advanceStart ∨ k = Branch.advanceCheck) → s' = s) ∧
      (s.sitstate = 0 → (k = Branch.retreatStart ∨ k = Branch.retreatCheck) → s' = s) := by
  have hsz : c.arrSize = c.sitStandArrayHip.length := rfl
  have hkn : (c.sitStandArrayKnee.length : Int) = c.sitStandArrayHip.length := by
    rw [hc]
  cases k
  · simp only [sitStandBranch, sitStandAdvanceStart]
    split_ifs with hg
    · obtain ⟨hip, hh⟩ := arrAt_isSome c.sitStandArrayHip (s.sitstate + 1) (by omega) (by omega)
      obtain ⟨knee, hk⟩ := arrAt_isSome c.sitStandArrayKnee (s.sitstate + 1) (by omega) (by omega)
      rw [hh, hk]
      simp only [Option.some_bind]
      refine ⟨_, rfl, Or.inl rfl, ?_, ?_⟩
      · intro h; omega
      · intro _ h; simp at h
    · exact ⟨s, rfl, Or.inl rfl, fun _ _ => rfl, fun _ _ => rfl⟩
  · simp only [sitStandBranch, sitStandAdvanceCheck]
    split_ifs with hg
    · obtain ⟨hip, hh⟩ := arrAt_isSome c.sitStandArrayHip (s.sitstate + 1) (by omega) (by omega)
      obtain ⟨knee, hk⟩ := arrAt_isSome c.sitStandArrayKnee (s.sitstate + 1) (by omega) (by omega)
      rw [hh, hk]
      simp only [Option.some_bind]
      split_ifs with hr
      · refine ⟨_, rfl, Or.inr ⟨by simp; omega, by simp; omega⟩, ?_, ?_⟩
        · intro h; omega
        · intro _ h; simp at h
      · refine ⟨_, rfl, Or.inl rfl, ?_, ?_⟩
        · intro h; omega
        · intro _ h; simp at h
    · exact ⟨s, rfl, Or.inl rfl, fun _ _ => rfl, fun _ _ => rfl⟩
  · simp only [sitStandBranch, sitStandRetreatStart]
    split_ifs with hg
    · obtain ⟨hip, hh⟩ := arrAt_isSome c.sitStandArrayHip (s.sitstate - 1) (by omega) (by omega)
      obtain ⟨knee, hk⟩ := arrAt_isSome c.sitStandArrayKnee (s.sitstate - 1) (by omega) (by omega)
      rw [hh, hk]
      simp only [Option.some_bind]
      refine ⟨_, rfl, Or.inl rfl, ?_, ?_⟩
      · intro _ h; simp at h
      · intro h; omega
    · exact ⟨s, rfl, Or.inl rfl, fun _ _ => rfl, fun _ _ => rfl⟩
  · simp only [sitStandBranch, sitStandRetreatCheck]
    split_ifs with hg
    · obtain ⟨hip, hh⟩ := arrAt_isSome c.sitStandArrayHip (s.sitstate - 1) (by omega) (by omega)
      obtain ⟨knee, hk⟩ := arrAt_isSome c.sitStandArrayKnee (s.sitstate - 1) (by omega) (by omega)
      rw [hh, hk]
      simp only [Option.some_bind]
      split_ifs with hr
      · refine ⟨_, rfl, Or.inr ⟨by simp; omega, by simp; omega⟩, ?_, ?_⟩
        · intro _ h; simp at h
        · intro h; omega
      · refine ⟨_, rfl, Or.inl rfl, ?_, ?_⟩
        · intro _ h; simp at h
        · intro h; omega
    · exact ⟨s, rfl, Or.inl rfl, fun _ _ => rfl, fun _ _ => rfl⟩

theorem walkModeBranch_bounds (c : WalkCfg) (i : PollIn) (k : Branch) (s : WalkState)
    (hc : c.sized) (h1 : -1 ≤ s.walkstate) (h2 : s.walkstate ≤ c.arrSize) :
    ∃ s', walkModeBranch c i k s = some s' ∧
      (s'.walkstate = s.walkstate ∨ (0 ≤ s'.walkstate ∧ s'.walkstate ≤ c.arrSize - 1)) ∧
      (s.walkstate = c.arrSize - 1 →
        (k = Branch.advanceStart ∨ k = Branch.advanceCheck) → s' = s) ∧
      (s.walkstate = 0 → (k = Branch.retreatStart ∨ k = Branch.retreatCheck) → s' = s) := by
  have hsz : c.arrSize = c.walkArrLHip.length := rfl
  obtain ⟨e1, e2, e3⟩ := hc
  have hl1 : (c.walkArrLKnee.length : Int) = c.walkArrLHip.length := by rw [e1]
  have hl2 : (c.walkArrRHip.length : Int) = c.walkArrLHip.length := by rw [e2]
  have hl3 : (c.walkArrRKnee.length : Int) = c.walkArrLHip.length := by rw [e3]
  cases k
  · simp only [walkModeBranch, walkModeAdvanceStart]
    split_ifs with hg
    · obtain ⟨a, ha⟩ := arrAt_isSome c.walkArrLHip (s.walkstate + 1) (by omega) (by omega)
      obtain ⟨b, hb⟩ := arrAt_isSome c.walkArrLKnee (s.walkstate + 1) (by omega) (by omega)
      obtain ⟨d, hd⟩ := arrAt_isSome c.walkArrRHip (s.walkstate + 1) (by omega) (by omega)
      obtain ⟨e, he⟩ := arrAt_isSome c.walkArrRKnee (s.walkstate + 1) (by omega) (by omega)
      rw [ha, hb, hd, he]
      simp only [Option.some_bind]
      refine ⟨_, rfl, Or.inl rfl, ?_, ?_⟩
      · intro h; omega
      · intro _ h; simp at h
    · exact ⟨s, rfl, Or.inl rfl, fun _ _ => rfl, fun _ _ => rfl⟩
  · simp only [walkModeBranch, walkModeAdvanceCheck]
    split_ifs with hg
    · obtain ⟨a, ha⟩ := arrAt_isSome c.walkArrLHip (s.walkstate + 1) (by omega) (by omega)
      obtain ⟨b, hb⟩ := arrAt_isSome c.walkArrLKnee (s.walkstate + 1) (by omega) (by omega)
      obtain ⟨d, hd⟩ := arrAt_isSome c.walkArrRHip (s.walkstate + 1) (by omega) (by omega)
      obtain ⟨e, he⟩ := arrAt_isSome c.walkArrRKnee (s.walkstate + 1) (by omega) (by omega)
      rw [ha, hb, hd, he]
      simp only [Option.some_bind]
      split_ifs with hr
      · refine ⟨_, rfl, Or.inr ⟨by simp; omega, by simp; omega⟩, ?_, ?_⟩
        · intro h; omega
        · intro _ h; simp at h
      · refine ⟨_, rfl, Or.inl rfl, ?_, ?_⟩
        · intro h; omega
        · intro _ h; simp at h
    · exact ⟨s, rfl, Or.inl rfl, fun _ _ => rfl, fun _ _ => rfl⟩
  · simp only [walkModeBranch, walkModeRetreatStart]
    split_ifs with hg
    · obtain ⟨a, ha⟩ := arrAt_isSome c.walkArrLHip (s.walkstate - 1) (by omega) (by omega)
      obtain ⟨b, hb⟩ := arrAt_isSome c.walkArrLKnee (s.walkstate - 1) (by omega) (by omega)
      obtain ⟨d, hd⟩ := arrAt_isSome c.walkArrRHip (s.walkstate - 1) (by omega) (by omega)
      obtain ⟨e, he⟩ := arrAt_isSome c.walkArrRKnee (s.walkstate - 1) (by omega) (by omega)
      rw [ha, hb, hd, he]
      simp only [Option.some_bind]
      refine ⟨_, rfl, Or.inl rfl, ?_, ?_⟩
      · intro _ h; simp at h
      · intro h; omega
    · exact ⟨s, rfl, Or.inl rfl, fun _ _ => rfl, fun _ _ => rfl⟩
  · simp only [walkModeBranch, walkModeRetreatCheck]
    split_ifs with hg
    · obtain ⟨a, ha⟩ := arrAt_isSome c.walkArrLHip (s.walkstate - 1) (by omega) (by omega)
      obtain ⟨b, hb⟩ := arrAt_isSome c.walkArrLKnee (s.walkstate - 1) (by omega) (by omega)
      obtain ⟨d, hd⟩ := arrAt_isSome c.walkArrRHip (s.walkstate - 1) (by omega) (by omega)
      obtain ⟨e, he⟩ := arrAt_isSome c.walkArrRKnee (s.walkstate - 1) (by omega) (by omega)
      rw [ha, hb, hd, he]
      simp only [Option.some_bind]
      split_ifs with hr
      · refine ⟨_, rfl, Or.inr ⟨by simp; omega, by simp; omega⟩, ?_, ?_⟩
        · intro _ h; simp at h
        · intro h; omega
      · refine ⟨_, rfl, Or.inl rfl, ?_, ?_⟩
        · intro _ h; simp at h
        · intro h; omega
    · exact ⟨s, rfl, Or.inl rfl, fun _ _ => rfl, fun _ _ => rfl⟩

theorem sitStandSeq_induct (c : SitStandCfg) (P : SitStandState → Prop)
    (hstep : ∀ i k s s', P s → sitStandBranch c i k s = some s' → P s')
    (i : PollIn) (ks : List Branch) :
    ∀ s s', P s → sitStandSeq c i ks s = some s' → P s' := by
  induction ks with
  | nil =>
    intro s s' hs h
    simp only [sitStandSeq, Option.some.injEq] at h
    exact h ▸ hs
  | cons k ks ih =>
    intro s s' hs h
    simp only [sitStandSeq, Option.bind_eq_some] at h
    obtain ⟨s1, h1, h2⟩ := h
    exact ih s1 s' (hstep i k s s1 hs h1) h2

theorem sitStandPoll_induct (c : SitStandCfg) (P : SitStandState → Prop)
    (hstep : ∀ i k s s', P s → sitStandBranch c i k s = some s' → P s')
    (i : PollIn) (s : SitStandState) (r : Outcome SitStandState)
    (hs : P s) (h : sitStandPoll c i s = some r) :
    ∃ s', sitStandBody c i s = some s' ∧ P s' ∧ r = sitStandTail c i s' := by
  simp only [sitStandPoll, Option.map_eq_some'] at h
  obtain ⟨s', hb, ht⟩ := h
  exact ⟨s', hb, sitStandSeq_induct c P hstep i branchOrder s s' hs hb, ht.symm⟩

theorem sitStandTail_state (c : SitStandCfg) (i : PollIn) (s s' : SitStandState)
    (h : sitStandTail c i s = Outcome.next s' ∨ sitStandTail c i s = Outcome.returned s') :
    s' = s := by
  unfold sitStandTail at h
  split at h
  · simp at h
  · split_ifs at h <;> simp at h <;> exact h.symm

theorem sitStandLoop_induct (c : SitStandCfg) (P : SitStandState → Prop)
    (hstep : ∀ i k s s', P s → sitStandBranch c i k s = some s' → P s')
    (ins : List PollIn) :
    ∀ s s', P s →
      (sitStandLoop c ins s = some (Outcome.next s') ∨
        sitStandLoop c ins s = some (Outcome.returned s')) → P s' := by
  induction ins with
  | nil =>
    intro s s' hs h
    simp only [sitStandLoop, Option.some.injEq, Outcome.next.injEq, reduceCtorEq, or_false] at h
    exact h ▸ hs
  | cons i ins ih =>
    intro s s' hs h
    unfold sitStandLoop at h
    split at h
    · rename_i s1 hp
      obtain ⟨s2, -, h2, ht⟩ := sitStandPoll_induct c P hstep i s _ hs hp
      have := sitStandTail_state c i s2 s1 (Or.inl ht.symm)
      exact ih s1 s' (this ▸ h2) h
    · rename_i r hne
      rcases h with h | h
      · exact absurd h (hne s')
      · obtain ⟨s2, -, h2, ht⟩ := sitStandPoll_induct c P hstep i s _ hs h
        have := sitStandTail_state c i s2 s' (Or.inr ht.symm)
        exact this ▸ h2

theorem sitStandPoint_induct (c : SitStandCfg) (sent : List Call) (P : SitStandState → Prop)
    (h0 : P (sitStandInit c sent))
    (hstep : ∀ i k s s', P s → sitStandBranch c i k s = some s' → P s')
    (s : SitStandState) (h : SitStandPoint c sent s) : P s := by
  obtain ⟨ins, i, n, s0, hrun, hseq⟩ := h
  have h1 : P s0 := sitStandLoop_induct c P hstep ins _ s0 h0 (Or.inl hrun)
  exact sitStandSeq_induct c P hstep i _ s0 s h1 hseq

theorem walkModeSeq_induct (c : WalkCfg) (P : WalkState → Prop)
    (hstep : ∀ i k s s', P s → walkModeBranch c i k s = some s' → P s')
    (i : PollIn) (ks : List Branch) :
    ∀ s s', P s → walkModeSeq c i ks s = some s' → P s' := by
  induction ks with
  | nil =>
    intro s s' hs h
    simp only [walkModeSeq, Option.some.injEq] at h
    exact h ▸ hs
  | cons k ks ih =>
    intro s s' hs h
    simp only [walkModeSeq, Option.bind_eq_some] at h
    obtain ⟨s1, h1, h2⟩ := h
    exact ih s1 s' (hstep i k s s1 hs h1) h2

theorem walkModePoll_induct (c : WalkCfg) (P : WalkState → Prop)
    (hstep : ∀ i k s s', P s → walkModeBranch c i k s = some s' → P s')
    (i : PollIn) (s : WalkState) (r : Outcome WalkState)
    (hs : P s) (h : walkModePoll c i s = some r) :
    ∃ s', walkModeBody c i s = some s' ∧ P s' ∧ r = walkModeTail c i s' := by
  simp only [walkModePoll, Option.map_eq_some'] at h
  obtain ⟨s', hb, ht⟩ := h
  exact ⟨s', hb, walkModeSeq_induct c P hstep i branchOrder s s' hs hb, ht.symm⟩

theorem walkModeTail_state (c : WalkCfg) (i : PollIn) (s s' : WalkState)
    (h : walkModeTail c i s = Outcome.next s' ∨ walkModeTail c i s = Outcome.returned s') :
    s' = s := by
  unfold walkModeTail at h
  split at h
  · simp at h
  · split_ifs at h <;> simp at h <;> exact h.symm

theorem walkModeLoop_induct (c : WalkCfg) (P : WalkState → Prop)
    (hstep : ∀ i k s s', P s → walkModeBranch c i k s = some s' → P s')
    (ins : List PollIn) :
    ∀ s s', P s →
      (walkModeLoop c ins s = some (Outcome.next s') ∨
        walkModeLoop c ins s = some (Outcome.returned s')) → P s' := by
  induction ins with
  | nil =>
    intro s s' hs h
    simp only [walkModeLoop, Option.some.injEq, Outcome.next.injEq, reduceCtorEq, or_false] at h
    exact h ▸ hs
  | cons i ins ih =>
    intro s s' hs h
    unfold walkModeLoop at h
    split at h
    · rename_i s1 hp
      obtain ⟨s2, -, h2, ht⟩ := walkModePoll_induct c P hstep i s _ hs hp
      have := walkModeTail_state c i s2 s1 (Or.inl ht.symm)
      exact ih s1 s' (this ▸ h2) h
    · rename_i r hne
      rcases h with h | h
      · exact absurd h (hne s')
      · obtain ⟨s2, -, h2, ht⟩ := walkModePoll_induct c P hstep i s _ hs h
        have := walkModeTail_state c i s2 s' (Or.inr ht.symm)
        exact this ▸ h2

theorem walkModePoint_induct (c : WalkCfg) (sent : List Call) (P : WalkState → Prop)
    (h0 : P (walkModeInit sent))
    (hstep : ∀ i k s s', P s → walkModeBranch c i k s = some s' → P s')
    (s : WalkState) (h : WalkPoint c sent s) : P s := by
  obtain ⟨ins, i, n, s0, hrun, hseq⟩ := h
  have h1 : P s0 := walkModeLoop_induct c P hstep ins _ s0 h0 (Or.inl hrun)
  exact walkModeSeq_induct c P hstep i _ s0 s h1 hseq

theorem sitStandBranch_sent (c : SitStandCfg) (i : PollIn) (k : Branch)
    (s s' : SitStandState) (h : sitStandBranch c i k s = some s') :
    ∃ q, s'.sent = s.sent ++ q ∧
      ((∃ x ∈ q, x.isMove = true) →
        s.movestate = STATEIMMOBILE ∧
        ((k = Branch.advanceStart ∧ i.button1Status = 0) ∨
          (k = Branch.retreatStart ∧ i.button2Status = 0))) ∧
      (s.movestate ≠ STATEIMMOBILE →
        (k = Branch.advanceStart ∨ k = Branch.retreatStart) → s' = s) := by
  cases k
  · simp only [sitStandBranch, sitStandAdvanceStart] at h
    split_ifs at h with hg
    · simp only [Option.bind_eq_some] at h
      obtain ⟨hip, hh, knee, hk, h⟩ := h
      cases h
      refine ⟨_, by simp only [setAbsPosSmart, List.append_assoc]; rfl, ?_, ?_⟩
      · intro _; exact ⟨hg.2.1, Or.inl ⟨rfl, hg.1⟩⟩
      · intro hne; exact absurd hg.2.1 hne
    · cases h
      exact ⟨[], by simp, by simp, fun _ _ => rfl⟩
  · simp only [sitStandBranch, sitStandAdvanceCheck] at h
    split_ifs at h with hg
    · simp only [Option.bind_eq_some] at h
      obtain ⟨hip, hh, knee, hk, h⟩ := h
      obtain ⟨q, hq, hm⟩ := checkPos_snd s.sent i.fwd hip knee hip knee
      split_ifs at h with hr <;> cases h <;>
        exact ⟨q, hq, fun ⟨x, hx, hx'⟩ => by simp [hm x hx] at hx', by simp⟩
    · cases h
      exact ⟨[], by simp, by simp, fun _ _ => rfl⟩
  · simp only [sitStandBranch, sitStandRetreatStart] at h
    split_ifs at h with hg
    · simp only [Option.bind_eq_some] at h
      obtain ⟨hip, hh, knee, hk, h⟩ := h
      cases h
      refine ⟨_, by simp only [setAbsPosSmart, List.append_assoc]; rfl, ?_, ?_⟩
      · intro _; exact ⟨hg.2.1, Or.inr ⟨rfl, hg.1⟩⟩
      · intro hne; exact absurd hg.2.1 hne
    · cases h
      exact ⟨[], by simp, by simp, fun _ _ => rfl⟩
  · simp only [sitStandBranch, sitStandRetreatCheck] at h
    split_ifs at h with hg
    · simp only [Option.bind_eq_some] at h
      obtain ⟨hip, hh, knee, hk, h⟩ := h
      obtain ⟨q, hq, hm⟩ := checkPos_snd s.sent i.back hip knee hip knee
      split_ifs at h with hr <;> cases h <;>
        exact ⟨q, hq, fun ⟨x, hx, hx'⟩ => by simp [hm x hx] at hx', by simp⟩
    · cases h
      exact ⟨[], by simp, by simp, fun _ _ => rfl⟩

theorem sitStandAbort_sent (i : PollIn) (s : SitStandState) (sent' : List Call)
    (h : sitStandAbort i s = some sent') :
    ∃ q, sent' = s.sent ++ q ∧ ∀ x ∈ q, x.isMove = false := by
  simp only [sitStandAbort] at h
  split_ifs at h
  cases h
  exact ⟨_, by simp only [canFeastDown, stopExo, preop, List.append_assoc]; rfl,
    by simp [Call.isMove]⟩

theorem walkModeBranch_sent (c : WalkCfg) (i : PollIn) (k : Branch)
    (s s' : WalkState) (h : walkModeBranch c i k s = some s') :
    ∃ q, s'.sent = s.sent ++ q ∧
      ((∃ x ∈ q, x.isMove = true) →
        s.movestate = STATEIMMOBILE ∧
        ((k = Branch.advanceStart ∧ i.button1Status = 0) ∨
          (k = Branch.retreatStart ∧ i.button2Status = 0))) ∧
      (s.movestate ≠ STATEIMMOBILE →
        (k = Branch.advanceStart ∨ k = Branch.retreatStart) → s' = s) := by
  cases k
  · simp only [walkModeBranch, walkModeAdvanceStart] at h
    split_ifs at h with hg
    · simp only [Option.bind_eq_some] at h
      obtain ⟨a, ha, b, hb, d, hd, e, he, h⟩ := h
      cases h
      refine ⟨_, by simp only [setAbsPosSmart, List.append_assoc]; rfl, ?_, ?_⟩
      · intro _; exact ⟨hg.2.1, Or.inl ⟨rfl, hg.1⟩⟩
      · intro hne; exact absurd hg.2.1 hne
    · cases h
      exact ⟨[], by simp, by simp, fun _ _ => rfl⟩
  · simp only [walkModeBranch, walkModeAdvanceCheck] at h
    split_ifs at h with hg
    · simp only [Option.bind_eq_some] at h
      obtain ⟨a, ha, b, hb, d, hd, e, he, h⟩ := h
      obtain ⟨q, hq, hm⟩ := checkPos_snd s.sent i.fwd a b d e
      split_ifs at h with hr <;> cases h <;>
        exact ⟨q, hq, fun ⟨x, hx, hx'⟩ => by simp [hm x hx] at hx', by simp⟩
    · cases h
      exact ⟨[], by simp, by simp, fun _ _ => rfl⟩
  · simp only [walkModeBranch, walkModeRetreatStart] at h
    split_ifs at h with hg
    · simp only [Option.bind_eq_some] at h
      obtain ⟨a, ha, b, hb, d, hd, e, he, h⟩ := h
      cases h
      refine ⟨_, by simp only [setAbsPosSmart, List.append_assoc]; rfl, ?_, ?_⟩
      · intro _; exact ⟨hg.2.1, Or.inr ⟨rfl, hg.1⟩⟩
      · intro hne; exact absurd hg.2.1 hne
    · cases h
      exact ⟨[], by simp, by simp, fun _ _ => rfl⟩
  · simp only [walkModeBranch, walkModeRetreatCheck] at h
    split_ifs at h with hg
    · simp only [Option.bind_eq_some] at h
      obtain ⟨a, ha, b, hb, d, hd, e, he, h⟩ := h
      obtain ⟨q, hq, hm⟩ := checkPos_snd s.sent i.back a b d e
      split_ifs at h with hr <;> cases h <;>
        exact ⟨q, hq, fun ⟨x, hx, hx'⟩ => by simp [hm x hx] at hx', by simp⟩
    · cases h
      exact ⟨[], by simp, by simp, fun _ _ => rfl⟩

theorem walkModeAbort_sent (i : PollIn) (s : WalkState) (sent' : List Call)
    (h : walkModeAbort i s = some sent') :
    ∃ q, sent' = s.sent ++ q ∧ ∀ x ∈ q, x.isMove = false := by
  simp only [walkModeAbort] at h
  split_ifs at h
  cases h
  exact ⟨_, by simp only [canFeastDown, stopExo, preop, List.append_assoc]; rfl,
    by simp [Call.isMove]⟩

theorem sitStandSeq_total (c : SitStandCfg) (i : PollIn) (hc : c.sized) (ks : List Branch) :
    ∀ s, -1 ≤ s.sitstate → s.sitstate ≤ c.arrSize →
      ∃ s', sitStandSeq c i ks s = some s' ∧ -1 ≤ s'.sitstate ∧ s'.sitstate ≤ c.arrSize := by
  induction ks with
  | nil => intro s h1 h2; exact ⟨s, rfl, h1, h2⟩
  | cons k ks ih =>
    intro s h1 h2
    obtain ⟨s1, hb, hidx, -, -⟩ := sitStandBranch_bounds c i k s hc h1 h2
    obtain ⟨s', hs, hb'⟩ := ih s1 (by omega) (by omega)
    exact ⟨s', by simp only [sitStandSeq, hb, Option.some_bind, hs], hb'⟩

theorem walkModeSeq_total (c : WalkCfg) (i : PollIn) (hc : c.sized) (ks : List Branch) :
    ∀ s, -1 ≤ s.walkstate → s.walkstate ≤ c.arrSize →
      ∃ s', walkModeSeq c i ks s = some s' ∧ -1 ≤ s'.walkstate ∧ s'.walkstate ≤ c.arrSize := by
  induction ks with
  | nil => intro s h1 h2; exact ⟨s, rfl, h1, h2⟩
  | cons k ks ih =>
    intro s h1 h2
    obtain ⟨s1, hb, hidx, -, -⟩ := walkModeBranch_bounds c i k s hc h1 h2
    obtain ⟨s', hs, hb'⟩ := ih s1 (by omega) (by omega)
    exact ⟨s', by simp only [walkModeSeq, hb, Option.some_bind, hs], hb'⟩

theorem sitStandSeq_quiet (c : SitStandCfg) (i : PollIn)
    (h1 : i.button1Status ≠ 0) (h2 : i.button2Status ≠ 0) (ks : List Branch) :
    ∀ s s', sitStandSeq c i ks s = some s' →
      ∃ q, s'.sent = s.sent ++ q ∧ ∀ x ∈ q, x.isMove = false := by
  induction ks with
  | nil =>
    intro s s' h
    simp only [sitStandSeq, Option.some.injEq] at h
    exact ⟨[], by simp [h], by simp⟩
  | cons k ks ih =>
    intro s s' h
    simp only [sitStandSeq, Option.bind_eq_some] at h
    obtain ⟨s1, hb, hs⟩ := h
    obtain ⟨q1, e1, m1, -⟩ := sitStandBranch_sent c i k s s1 hb
    obtain ⟨q2, e2, m2⟩ := ih s1 s' hs
    refine ⟨q1 ++ q2, by rw [e2, e1, List.append_assoc], ?_⟩
    intro x hx
    rcases List.mem_append.1 hx with hx | hx
    · cases hm : x.isMove
      · rfl
      · rcases (m1 ⟨x, hx, hm⟩).2 with ⟨-, hb1⟩ | ⟨-, hb2⟩
        · exact absurd hb1 h1
        · exact absurd hb2 h2
    · exact m2 x hx

theorem walkModeSeq_quiet (c : WalkCfg) (i : PollIn)
    (h1 : i.button1Status ≠ 0) (h2 : i.button2Status ≠ 0) (ks : List Branch) :
    ∀ s s', walkModeSeq c i ks s = some s' →
      ∃ q, s'.sent = s.sent ++ q ∧ ∀ x ∈ q, x.isMove = false := by
  induction ks with
  | nil =>
    intro s s' h
    simp only [walkModeSeq, Option.some.injEq] at h
    exact ⟨[], by simp [h], by simp⟩
  | cons k ks ih =>
    intro s s' h
    simp only [walkModeSeq, Option.bind_eq_some] at h
    obtain ⟨s1, hb, hs⟩ := h
    obtain ⟨q1, e1, m1, -⟩ := walkModeBranch_sent c i k s s1 hb
    obtain ⟨q2, e2, m2⟩ := ih s1 s' hs
    refine ⟨q1 ++ q2, by rw [e2, e1, List.append_assoc], ?_⟩
    intro x hx
    rcases List.mem_append.1 hx with hx | hx
    · cases hm : x.isMove
      · rfl
      · rcases (m1 ⟨x, hx, hm⟩).2 with ⟨-, hb1⟩ | ⟨-, hb2⟩
        · exact absurd hb1 h1
        · exact absurd hb2 h2
    · exact m2 x hx

theorem sitStandBody_idle (c : SitStandCfg) (i : PollIn) (s : SitStandState)
    (h1 : i.button1Status ≠ 0) (h2 : i.button2Status ≠ 0)
    (hm : s.movestate = STATEIMMOBILE) : sitStandBody c i s = some s := by
  simp [sitStandBody, branchOrder, sitStandSeq, sitStandBranch, sitStandAdvanceStart,
    sitStandAdvanceCheck, sitStandRetreatStart, sitStandRetreatCheck, h1, h2, hm,
    STATEIMMOBILE, STATESITTING, STATESTANDING]

theorem walkModeBody_idle (c : WalkCfg) (i : PollIn) (s : WalkState)
    (h1 : i.button1Status ≠ 0) (h2 : i.button2Status ≠ 0)
    (hm : s.movestate = STATEIMMOBILE) : walkModeBody c i s = some s := by
  simp [walkModeBody, branchOrder, walkModeSeq, walkModeBranch, walkModeAdvanceStart,
    walkModeAdvanceCheck, walkModeRetreatStart, walkModeRetreatCheck, h1, h2, hm,
    STATEIMMOBILE, WALKINGFORWARD, WALKINGBACK]

theorem sitStandPoll_abort (c : SitStandCfg) (i : PollIn) (s s' : SitStandState)
    (h3 : i.button3Status = 0) (hb : sitStandBody c i s = some s') :
    sitStandPoll c i s = some (Outcome.exited
      (s'.sent ++ [Call.preop 1, Call.preop 2, Call.preop 3, Call.preop 4,
        Call.canFeastDown])) := by
  simp [sitStandPoll, hb, sitStandTail, sitStandAbort, h3, canFeastDown,
    stopExo, preop, LHIP, LKNEE, RHIP, RKNEE]

theorem walkModePoll_abort (c : WalkCfg) (i : PollIn) (s s' : WalkState)
    (h3 : i.button3Status = 0) (hb : walkModeBody c i s = some s') :
    walkModePoll c i s = some (Outcome.exited
      (s'.sent ++ [Call.preop 1, Call.preop 2, Call.preop 3, Call.preop 4,
        Call.canFeastDown])) := by
  simp [walkModePoll, hb, walkModeTail, walkModeAbort, h3, canFeastDown,
    stopExo, preop, LHIP, LKNEE, RHIP, RKNEE]

theorem sitStandBranch_flight (c : SitStandCfg) (i : PollIn) (k : Branch)
    (s s' : SitStandState)
    (hs : s.movestate = STATEIMMOBILE ∨
      (s.movestate = STATESITTING ∧ s.sitstate < c.arrSize - 1) ∨
      (s.movestate = STATESTANDING ∧ 0 < s.sitstate))
    (h : sitStandBranch c i k s = some s') :
    s'.movestate = STATEIMMOBILE ∨
      (s'.movestate = STATESITTING ∧ s'.sitstate < c.arrSize - 1) ∨
      (s'.movestate = STATESTANDING ∧ 0 < s'.sitstate) := by
  cases k
  · simp only [sitStandBranch, sitStandAdvanceStart] at h
    split_ifs at h with hg
    · simp only [Option.bind_eq_some] at h
      obtain ⟨hip, hh, knee, hk, h⟩ := h
      cases h
      exact Or.inr (Or.inl ⟨rfl, hg.2.2⟩)
    · cases h; exact hs
  · simp only [sitStandBranch, sitStandAdvanceCheck] at h
    split_ifs at h with hg
    · simp only [Option.bind_eq_some] at h
      obtain ⟨hip, hh, knee, hk, h⟩ := h
      split_ifs at h with hr
      · cases h; exact Or.inl rfl
      · cases h; exact hs
    · cases h; exact hs
  · simp only [sitStandBranch, sitStandRetreatStart] at h
    split_ifs at h with hg
    · simp only [Option.bind_eq_some] at h
      obtain ⟨hip, hh, knee, hk, h⟩ := h
      cases h
      exact Or.inr (Or.inr ⟨rfl, hg.2.2⟩)
    · cases h; exact hs
  · simp only [sitStandBranch, sitStandRetreatCheck] at h
    split_ifs at h with hg
    · simp only [Option.bind_eq_some] at h
      obtain ⟨hip, hh, knee, hk, h⟩ := h
      split_ifs at h with hr
      · cases h; exact Or.inl rfl
      · cases h; exact hs
    · cases h; exact hs

theorem walkModeBranch_flight (c : WalkCfg) (i : PollIn) (k : Branch)
    (s s' : WalkState)
    (hs : s.movestate = STATEIMMOBILE ∨
      (s.movestate = WALKINGFORWARD ∧ s.walkstate < c.arrSize - 1) ∨
      (s.movestate = WALKINGBACK ∧ 0 < s.walkstate))
    (h : walkModeBranch c i k s = some s') :
    s'.movestate = STATEIMMOBILE ∨
      (s'.movestate = WALKINGFORWARD ∧ s'.walkstate < c.arrSize - 1) ∨
      (s'.movestate = WALKINGBACK ∧ 0 < s'.walkstate) := by
  cases k
  · simp only [walkModeBranch, walkModeAdvanceStart] at h
    split_ifs at h with hg
    · simp only [Option.bind_eq_some] at h
      obtain ⟨a, ha, b, hb, d, hd, e, he, h⟩ := h
      cases h
      exact Or.inr (Or.inl ⟨rfl, hg.2.2⟩)
    · cases h; exact hs
  · simp only [walkModeBranch, walkModeAdvanceCheck] at h
    split_ifs at h with hg
    · simp only [Option.bind_eq_some] at h
      obtain ⟨a, ha, b, hb, d, hd, e, he, h⟩ := h
      split_ifs at h with hr
      · cases h; exact Or.inl rfl
      · cases h; exact hs
    · cases h; exact hs
  · simp only [walkModeBranch, walkModeRetreatStart] at h
    split_ifs at h with hg
    · simp only [Option.bind_eq_some] at h
      obtain ⟨a, ha, b, hb, d, hd, e, he, h⟩ := h
      cases h
      exact Or.inr (Or.inr ⟨rfl, hg.2.2⟩)
    · cases h; exact hs
  · simp only [walkModeBranch, walkModeRetreatCheck] at h
    split_ifs at h with hg
    · simp only [Option.bind_eq_some] at h
      obtain ⟨a, ha, b, hb, d, hd, e, he, h⟩ := h
      split_ifs at h with hr
      · cases h; exact Or.inl rfl
      · cases h; exact hs
    · cases h; exact hs

theorem sitStandLoop_returned (c : SitStandCfg) (ins : List PollIn) :
    ∀ s s', sitStandLoop c ins s = some (Outcome.returned s') →
      ∃ i, i ∈ ins ∧ sitStandExit c i s' = true := by
  induction ins with
  | nil =>
    intro s s' h
    simp [sitStandLoop] at h
  | cons i ins ih =>
    intro s s' h
    unfold sitStandLoop at h
    split at h
    · rename_i s1 hp
      obtain ⟨j, hj, hx⟩ := ih s1 s' h
      exact ⟨j, List.mem_cons_of_mem _ hj, hx⟩
    · simp only [sitStandPoll, Option.map_eq_some'] at h
      obtain ⟨s1, hb, ht⟩ := h
      have hs : s' = s1 := sitStandTail_state c i s1 s' (Or.inr ht)
      subst hs
      refine ⟨i, List.mem_cons_self _ _, ?_⟩
      unfold sitStandTail at ht
      split at ht
      · simp at ht
      · split_ifs at ht with he
        exact he

theorem walkModeLoop_returned (c : WalkCfg) (ins : List PollIn) :
    ∀ s s', walkModeLoop c ins s = some (Outcome.returned s') →
      ∃ i, i ∈ ins ∧ walkModeExit c i s' = true := by
  induction ins with
  | nil =>
    intro s s' h
    simp [walkModeLoop] at h
  | cons i ins ih =>
    intro s s' h
    unfold walkModeLoop at h
    split at h
    · rename_i s1 hp
      obtain ⟨j, hj, hx⟩ := ih s1 s' h
      exact ⟨j, List.mem_cons_of_mem _ hj, hx⟩
    · simp only [walkModePoll, Option.map_eq_some'] at h
      obtain ⟨s1, hb, ht⟩ := h
      have hs : s' = s1 := walkModeTail_state c i s1 s' (Or.inr ht)
      subst hs
      refine ⟨i, List.mem_cons_self _ _, ?_⟩
      unfold walkModeTail at ht
      split at ht
      · simp at ht
      · split_ifs at ht with he
        exact he

theorem sitStandBranch_shape (c : SitStandCfg) (i : PollIn) (k : Branch)
    (s s' : SitStandState) (h : sitStandBranch c i k s = some s') :
    (s'.sitstate = s.sitstate ∧ s'.movestate = s.movestate ∧
      ∃ q, s'.sent = s.sent ++ q ∧ ∀ x ∈ q, x.isMove = false) ∨
    (k = Branch.advanceStart ∧ s.movestate = STATEIMMOBILE ∧ s'.movestate = STATESITTING) ∨
    (k = Branch.advanceCheck ∧ s.movestate = STATESITTING ∧ s'.movestate = STATEIMMOBILE) ∨
    (k = Branch.retreatStart ∧ s.movestate = STATEIMMOBILE ∧ s'.movestate = STATESTANDING) ∨
    (k = Branch.retreatCheck ∧ s.movestate = STATESTANDING ∧ s'.movestate = STATEIMMOBILE) := by
  cases k
  · simp only [sitStandBranch, sitStandAdvanceStart] at h
    split_ifs at h with hg
    · simp only [Option.bind_eq_some] at h
      obtain ⟨hip, hh, knee, hk, h⟩ := h
      cases h
      exact Or.inr (Or.inl ⟨rfl, hg.2.1, rfl⟩)
    · cases h
      exact Or.inl ⟨rfl, rfl, [], by simp, by simp⟩
  · simp only [sitStandBranch, sitStandAdvanceCheck] at h
    split_ifs at h with hg
    · simp only [Option.bind_eq_some] at h
      obtain ⟨hip, hh, knee, hk, h⟩ := h
      split_ifs at h with hr
      · cases h
        exact Or.inr (Or.inr (Or.inl ⟨rfl, hg.2, rfl⟩))
      · cases h
        exact Or.inl ⟨rfl, rfl, checkPos_snd s.sent i.fwd hip knee hip knee⟩
    · cases h
      exact Or.inl ⟨rfl, rfl, [], by simp, by simp⟩
  · simp only [sitStandBranch, sitStandRetreatStart] at h
    split_ifs at h with hg
    · simp only [Option.bind_eq_some] at h
      obtain ⟨hip, hh, knee, hk, h⟩ := h
      cases h
      exact Or.inr (Or.inr (Or.inr (Or.inl ⟨rfl, hg.2.1, rfl⟩)))
    · cases h
      exact Or.inl ⟨rfl, rfl, [], by simp, by simp⟩
  · simp only [sitStandBranch, sitStandRetreatCheck] at h
    split_ifs at h with hg
    · simp only [Option.bind_eq_some] at h
      obtain ⟨hip, hh, knee, hk, h⟩ := h
      split_ifs at h with hr
      · cases h
        exact Or.inr (Or.inr (Or.inr (Or.inr ⟨rfl, hg.2, rfl⟩)))
      · cases h
        exact Or.inl ⟨rfl, rfl, checkPos_snd s.sent i.back hip knee hip knee⟩
    · cases h
      exact Or.inl ⟨rfl, rfl, [], by simp, by simp⟩

theorem sitStandBody_in_flight (c : SitStandCfg) (i : PollIn) (s s' : SitStandState)
    (hm : s.movestate ≠ STATEIMMOBILE) (hb : sitStandBody c i s = some s')
    (he : s'.movestate = s.movestate) :
    s'.sitstate = s.sitstate ∧ ∃ q, s'.sent = s.sent ++ q ∧ ∀ x ∈ q, x.isMove = false := by
  simp only [sitStandBody, branchOrder, sitStandSeq, Option.bind_eq_some] at hb
  obtain ⟨s1, h1, s2, h2, s3, h3, s4, h4, h5⟩ := hb
  cases h5
  have f1 := sitStandBranch_shape c i _ s s1 h1
  have f2 := sitStandBranch_shape c i _ s1 s2 h2
  have f3 := sitStandBranch_shape c i _ s2 s3 h3
  have f4 := sitStandBranch_shape c i _ s3 s' h4
  simp only [reduceCtorEq, false_and, true_and, or_false, false_or,
    STATEIMMOBILE, STATESITTING, STATESTANDING] at f1 f2 f3 f4 hm he
  rcases f1 with ⟨a1, b1, q1, e1, m1⟩ | f1
  swap
  · omega
  rcases f2 with ⟨a2, b2, q2, e2, m2⟩ | f2
  swap
  · rcases f3 with ⟨a3, b3, q3, e3, m3⟩ | f3
    · rcases f4 with ⟨a4, b4, q4, e4, m4⟩ | f4 <;> omega
    · rcases f4 with ⟨a4, b4, q4, e4, m4⟩ | f4 <;> omega
  rcases f3 with ⟨a3, b3, q3, e3, m3⟩ | f3
  swap
  · omega
  rcases f4 with ⟨a4, b4, q4, e4, m4⟩ | f4
  swap
  · omega
  refine ⟨by omega, q1 ++ (q2 ++ (q3 ++ q4)), ?_, ?_⟩
  · rw [e4, e3, e2, e1]
    simp only [List.append_assoc]
  · intro x hx
    simp only [List.mem_append] at hx
    rcases hx with hx | hx | hx | hx
    · exact m1 x hx
    · exact m2 x hx
    · exact m3 x hx
    · exact m4 x hx

theorem walkModeBranch_shape (c : WalkCfg) (i : PollIn) (k : Branch)
    (s s' : WalkState) (h : walkModeBranch c i k s = some s') :
    (s'.walkstate = s.walkstate ∧ s'.movestate = s.movestate ∧
      ∃ q, s'.sent = s.sent ++ q ∧ ∀ x ∈ q, x.isMove = false) ∨
    (k = Branch.advanceStart ∧ s.movestate = STATEIMMOBILE ∧ s'.movestate = WALKINGFORWARD) ∨
    (k = Branch.advanceCheck ∧ s.movestate = WALKINGFORWARD ∧ s'.movestate = STATEIMMOBILE) ∨
    (k = Branch.retreatStart ∧ s.movestate = STATEIMMOBILE ∧ s'.movestate = WALKINGBACK) ∨
    (k = Branch.retreatCheck ∧ s.movestate = WALKINGBACK ∧ s'.movestate = STATEIMMOBILE) := by
  cases k
  · simp only [walkModeBranch, walkModeAdvanceStart] at h
    split_ifs at h with hg
    · simp only [Option.bind_eq_some] at h
      obtain ⟨a, ha, b, hb, d, hd, e, he, h⟩ := h
      cases h
      exact Or.inr (Or.inl ⟨rfl, hg.2.1, rfl⟩)
    · cases h
      exact Or.inl ⟨rfl, rfl, [], by simp, by simp⟩
  · simp only [walkModeBranch, walkModeAdvanceCheck] at h
    split_ifs at h with hg
    · simp only [Option.bind_eq_some] at h
      obtain ⟨a, ha, b, hb, d, hd, e, he, h⟩ := h
      split_ifs at h with hr
      · cases h
        exact Or.inr (Or.inr (Or.inl ⟨rfl, hg.2, rfl⟩))
      · cases h
        exact Or.inl ⟨rfl, rfl, checkPos_snd s.sent i.fwd a b d e⟩
    · cases h
      exact Or.inl ⟨rfl, rfl, [], by simp, by simp⟩
  · simp only [walkModeBranch, walkModeRetreatStart] at h
    split_ifs at h with hg
    · simp only [Option.bind_eq_some] at h
      obtain ⟨a, ha, b, hb, d, hd, e, he, h⟩ := h
      cases h
      exact Or.inr (Or.inr (Or.inr (Or.inl ⟨rfl, hg.2.1, rfl⟩)))
    · cases h
      exact Or.inl ⟨rfl, rfl, [], by simp, by simp⟩
  · simp only [walkModeBranch, walkModeRetreatCheck] at h
    split_ifs at h with hg
    · simp only [Option.bind_eq_some] at h
      obtain ⟨a, ha, b, hb, d, hd, e, he, h⟩ := h
      split_ifs at h with hr
      · cases h
        exact Or.inr (Or.inr (Or.inr (Or.inr ⟨rfl, hg.2, rfl⟩)))
      · cases h
        exact Or.inl ⟨rfl, rfl, checkPos_snd s.sent i.back a b d e⟩
    · cases h
      exact Or.inl ⟨rfl, rfl, [], by simp, by simp⟩

theorem walkModeBody_in_flight (c : WalkCfg) (i : PollIn) (s s' : WalkState)
    (hm : s.movestate ≠ STATEIMMOBILE) (hb : walkModeBody c i s = some s')
    (he : s'.movestate = s.movestate) :
    s'.walkstate = s.walkstate ∧ ∃ q, s'.sent = s.sent ++ q ∧ ∀ x ∈ q, x.isMove = false := by
  simp only [walkModeBody, branchOrder, walkModeSeq, Option.bind_eq_some] at hb
  obtain ⟨s1, h1, s2, h2, s3, h3, s4, h4, h5⟩ := hb
  cases h5
  have f1 := walkModeBranch_shape c i _ s s1 h1
  have f2 := walkModeBranch_shape c i _ s1 s2 h2
  have f3 := walkModeBranch_shape c i _ s2 s3 h3
  have f4 := walkModeBranch_shape c i _ s3 s' h4
  simp only [reduceCtorEq, false_and, true_and, or_false, false_or,
    STATEIMMOBILE, WALKINGFORWARD, WALKINGBACK] at f1 f2 f3 f4 hm he
  rcases f1 with ⟨a1, b1, q1, e1, m1⟩ | f1
  swap
  · omega
  rcases f2 with ⟨a2, b2, q2, e2, m2⟩ | f2
  swap
  · rcases f3 with ⟨a3, b3, q3, e3, m3⟩ | f3
    · rcases f4 with ⟨a4, b4, q4, e4, m4⟩ | f4 <;> omega
    · rcases f4 with ⟨a4, b4, q4, e4, m4⟩ | f4 <;> omega
  rcases f3 with ⟨a3, b3, q3, e3, m3⟩ | f3
  swap
  · omega
  rcases f4 with ⟨a4, b4, q4, e4, m4⟩ | f4
  swap
  · omega
  refine ⟨by omega, q1 ++ (q2 ++ (q3 ++ q4)), ?_, ?_⟩
  · rw [e4, e3, e2, e1]
    simp only [List.append_assoc]
  · intro x hx
    simp only [List.mem_append] at hx
    rcases hx with hx | hx | hx | hx
    · exact m1 x hx
    · exact m2 x hx
    · exact m3 x hx
    · exact m4 x hx

theorem checkPos_fst_sent (sent sent' : List Call) (r : Reads) (a b c d : Int) :
    (checkPos sent r a b c d).1 = (checkPos sent' r a b c d).1 := by
  rw [checkPos_fst, checkPos_fst]

theorem sitStandSeq_sent (c : SitStandCfg) (i : PollIn) (ks : List Branch) :
    ∀ s s', sitStandSeq c i ks s = some s' → ∃ q, s'.sent = s.sent ++ q := by
  induction ks with
  | nil =>
    intro s s' h
    simp only [sitStandSeq, Option.some.injEq] at h
    exact ⟨[], by simp [h]⟩
  | cons k ks ih =>
    intro s s' h
    simp only [sitStandSeq, Option.bind_eq_some] at h
    obtain ⟨s1, hb, hs⟩ := h
    obtain ⟨q1, e1, -⟩ := sitStandBranch_sent c i k s s1 hb
    obtain ⟨q2, e2⟩ := ih s1 s' hs
    exact ⟨q1 ++ q2, by rw [e2, e1, List.append_assoc]⟩

theorem walkModeSeq_sent (c : WalkCfg) (i : PollIn) (ks : List Branch) :
    ∀ s s', walkModeSeq c i ks s = some s' → ∃ q, s'.sent = s.sent ++ q := by
  induction ks with
  | nil =>
    intro s s' h
    simp only [walkModeSeq, Option.some.injEq] at h
    exact ⟨[], by simp [h]⟩
  | cons k ks ih =>
    intro s s' h
    simp only [walkModeSeq, Option.bind_eq_some] at h
    obtain ⟨s1, hb, hs⟩ := h
    obtain ⟨q1, e1, -⟩ := walkModeBranch_sent c i k s s1 hb
    obtain ⟨q2, e2⟩ := ih s1 s' hs
    exact ⟨q1 ++ q2, by rw [e2, e1, List.append_assoc]⟩

theorem sitStandBody_tie (c : SitStandCfg) (i : PollIn) (s : SitStandState)
    (hc : c.sized) (h1 : i.button1Status = 0)
    (hm : s.movestate = STATEIMMOBILE) (hlo : -1 ≤ s.sitstate)
    (hhi : s.sitstate < c.arrSize - 1) :
    ∃ hip knee s', arrAt c.sitStandArrayHip (s.sitstate + 1) = some hip ∧
      arrAt c.sitStandArrayKnee (s.sitstate + 1) = some knee ∧
      sitStandBody c i s = some s' ∧
      ∃ rest, s'.sent = s.sent ++
          [Call.setAbsPosSmart LHIP hip, Call.setAbsPosSmart LKNEE knee,
           Call.setAbsPosSmart RHIP hip, Call.setAbsPosSmart RKNEE knee] ++ rest ∧
        ((checkPos s.sent i.fwd hip knee hip knee).1 ≠ 1 →
          s'.sitstate = s.sitstate ∧ s'.movestate = STATESITTING ∧
          ∀ x ∈ rest, x.isMove = false) := by
  have hsz : c.arrSize = c.sitStandArrayHip.length := rfl
  have hkn : (c.sitStandArrayKnee.length : Int) = c.sitStandArrayHip.length := by
    rw [hc]
  obtain ⟨hip, hh⟩ := arrAt_isSome c.sitStandArrayHip (s.sitstate + 1) (by omega) (by omega)
  obtain ⟨knee, hk⟩ := arrAt_isSome c.sitStandArrayKnee (s.sitstate + 1) (by omega) (by omega)
  refine ⟨hip, knee, ?_⟩
  have e1 : sitStandBranch c i Branch.advanceStart s =
      some { sitstate := s.sitstate, movestate := STATESITTING,
             sent := s.sent ++ [Call.setAbsPosSmart LHIP hip, Call.setAbsPosSmart LKNEE knee,
               Call.setAbsPosSmart RHIP hip, Call.setAbsPosSmart RKNEE knee] } := by
    simp only [sitStandBranch, sitStandAdvanceStart, h1, hm, hhi, and_self, if_true, hh, hk,
      Option.some_bind, setAbsPosSmart, List.append_assoc]
    rfl
  by_cases hr : (checkPos s.sent i.fwd hip knee hip knee).1 = 1
  · -- the advance converges in this iteration
    have hr' := hr
    rw [checkPos_fst_sent s.sent (s.sent ++ [Call.setAbsPosSmart LHIP hip,
      Call.setAbsPosSmart LKNEE knee, Call.setAbsPosSmart RHIP hip,
      Call.setAbsPosSmart RKNEE knee])] at hr'
    obtain ⟨q, hq, -⟩ := checkPos_snd (s.sent ++ [Call.setAbsPosSmart LHIP hip,
      Call.setAbsPosSmart LKNEE knee, Call.setAbsPosSmart RHIP hip,
      Call.setAbsPosSmart RKNEE knee]) i.fwd hip knee hip knee
    have e2 : sitStandBranch c i Branch.advanceCheck
        { sitstate := s.sitstate, movestate := STATESITTING,
          sent := s.sent ++ [Call.setAbsPosSmart LHIP hip, Call.setAbsPosSmart LKNEE knee,
            Call.setAbsPosSmart RHIP hip, Call.setAbsPosSmart RKNEE knee] } =
        some { sitstate := s.sitstate + 1, movestate := STATEIMMOBILE,
               sent := s.sent ++ [Call.setAbsPosSmart LHIP hip, Call.setAbsPosSmart LKNEE knee,
                 Call.setAbsPosSmart RHIP hip, Call.setAbsPosSmart RKNEE knee] ++ q } := by
      simp only [sitStandBranch, sitStandAdvanceCheck, hhi, and_self, if_true, hh, hk,
        Option.some_bind, hr', hq]
    obtain ⟨s', hs', -, -⟩ := sitStandSeq_total c i hc
      [Branch.retreatStart, Branch.retreatCheck]
      { sitstate := s.sitstate + 1, movestate := STATEIMMOBILE,
        sent := s.sent ++ [Call.setAbsPosSmart LHIP hip, Call.setAbsPosSmart LKNEE knee,
          Call.setAbsPosSmart RHIP hip, Call.setAbsPosSmart RKNEE knee] ++ q }
      (by simp only; omega) (by simp only; omega)
    obtain ⟨q', hq'⟩ := sitStandSeq_sent c i _ _ s' hs'
    refine ⟨s', hh, hk, ?_, q ++ q', ?_, fun h => absurd hr h⟩
    · simp only [sitStandBody, branchOrder, sitStandSeq, e1, Option.some_bind, e2]
      exact hs'
    · rw [hq']
      simp only [List.append_assoc]
  · -- the advance does not converge: nothing else happens
    have hr' := hr
    rw [checkPos_fst_sent s.sent (s.sent ++ [Call.setAbsPosSmart LHIP hip,
      Call.setAbsPosSmart LKNEE knee, Call.setAbsPosSmart RHIP hip,
      Call.setAbsPosSmart RKNEE knee])] at hr'
    obtain ⟨q, hq, hqm⟩ := checkPos_snd (s.sent ++ [Call.setAbsPosSmart LHIP hip,
      Call.setAbsPosSmart LKNEE knee, Call.setAbsPosSmart RHIP hip,
      Call.setAbsPosSmart RKNEE knee]) i.fwd hip knee hip knee
    have e2 : sitStandBranch c i Branch.advanceCheck
        { sitstate := s.sitstate, movestate := STATESITTING,
          sent := s.sent ++ [Call.setAbsPosSmart LHIP hip, Call.setAbsPosSmart LKNEE knee,
            Call.setAbsPosSmart RHIP hip, Call.setAbsPosSmart RKNEE knee] } =
        some { sitstate := s.sitstate, movestate := STATESITTING,
               sent := s.sent ++ [Call.setAbsPosSmart LHIP hip, Call.setAbsPosSmart LKNEE knee,
                 Call.setAbsPosSmart RHIP hip, Call.setAbsPosSmart RKNEE knee] ++ q } := by
      simp only [sitStandBranch, sitStandAdvanceCheck, hhi, and_self, if_true, hh, hk,
        Option.some_bind, hr', if_false, hq]
    refine ⟨{ sitstate := s.sitstate, movestate := STATESITTING,
               sent := s.sent ++ [Call.setAbsPosSmart LHIP hip, Call.setAbsPosSmart LKNEE knee,
                 Call.setAbsPosSmart RHIP hip, Call.setAbsPosSmart RKNEE knee] ++ q },
      hh, hk, ?_, q, rfl, fun _ => ⟨rfl, rfl, hqm⟩⟩
    simp only [sitStandBody, branchOrder, sitStandSeq, e1, Option.some_bind, e2]
    simp [sitStandBranch, sitStandRetreatStart, sitStandRetreatCheck, STATESITTING,
      STATEIMMOBILE, STATESTANDING]

theorem walkModeBody_tie (c : WalkCfg) (i : PollIn) (s : WalkState)
    (hc : c.sized) (h1 : i.button1Status = 0)
    (hm : s.movestate = STATEIMMOBILE) (hlo : -1 ≤ s.walkstate)
    (hhi : s.walkstate < c.arrSize - 1) :
    ∃ lhip lknee rhip rknee s', arrAt c.walkArrLHip (s.walkstate + 1) = some lhip ∧
      arrAt c.walkArrLKnee (s.walkstate + 1) = some lknee ∧
      arrAt c.walkArrRHip (s.walkstate + 1) = some rhip ∧
      arrAt c.walkArrRKnee (s.walkstate + 1) = some rknee ∧
      walkModeBody c i s = some s' ∧
      ∃ rest, s'.sent = s.sent ++
          [Call.setAbsPosSmart LHIP lhip, Call.setAbsPosSmart LKNEE lknee,
           Call.setAbsPosSmart RHIP rhip, Call.setAbsPosSmart RKNEE rknee] ++ rest ∧
        ((checkPos s.sent i.fwd lhip lknee rhip rknee).1 ≠ 1 →
          s'.walkstate = s.walkstate ∧ s'.movestate = WALKINGFORWARD ∧
          ∀ x ∈ rest, x.isMove = false) := by
  have hsz : c.arrSize = c.walkArrLHip.length := rfl
  obtain ⟨l1, l2, l3⟩ := id hc
  have hl1 : (c.walkArrLKnee.length : Int) = c.walkArrLHip.length := by rw [l1]
  have hl2 : (c.walkArrRHip.length : Int) = c.walkArrLHip.length := by rw [l2]
  have hl3 : (c.walkArrRKnee.length : Int) = c.walkArrLHip.length := by rw [l3]
  obtain ⟨lhip, hh⟩ := arrAt_isSome c.walkArrLHip (s.walkstate + 1) (by omega) (by omega)
  obtain ⟨lknee, hk⟩ := arrAt_isSome c.walkArrLKnee (s.walkstate + 1) (by omega) (by omega)
  obtain ⟨rhip, hh2⟩ := arrAt_isSome c.walkArrRHip (s.walkstate + 1) (by omega) (by omega)
  obtain ⟨rknee, hk2⟩ := arrAt_isSome c.walkArrRKnee (s.walkstate + 1) (by omega) (by omega)
  refine ⟨lhip, lknee, rhip, rknee, ?_⟩
  have e1 : walkModeBranch c i Branch.advanceStart s =
      some { walkstate := s.walkstate, movestate := WALKINGFORWARD,
             sent := s.sent ++ [Call.setAbsPosSmart LHIP lhip, Call.setAbsPosSmart LKNEE lknee,
               Call.setAbsPosSmart RHIP rhip, Call.setAbsPosSmart RKNEE rknee] } := by
    simp only [walkModeBranch, walkModeAdvanceStart, h1, hm, hhi, and_self, if_true, hh, hk, hh2, hk2,
      Option.some_bind, setAbsPosSmart, List.append_assoc]
    rfl
  by_cases hr : (checkPos s.sent i.fwd lhip lknee rhip rknee).1 = 1
  · -- the advance converges in this iteration
    have hr' := hr
    rw [checkPos_fst_sent s.sent (s.sent ++ [Call.setAbsPosSmart LHIP lhip,
      Call.setAbsPosSmart LKNEE lknee, Call.setAbsPosSmart RHIP rhip,
      Call.setAbsPosSmart RKNEE rknee])] at hr'
    obtain ⟨q, hq, -⟩ := checkPos_snd (s.sent ++ [Call.setAbsPosSmart LHIP lhip,
      Call.setAbsPosSmart LKNEE lknee, Call.setAbsPosSmart RHIP rhip,
      Call.setAbsPosSmart RKNEE rknee]) i.fwd lhip lknee rhip rknee
    have e2 : walkModeBranch c i Branch.advanceCheck
        { walkstate := s.walkstate, movestate := WALKINGFORWARD,
          sent := s.sent ++ [Call.setAbsPosSmart LHIP lhip, Call.setAbsPosSmart LKNEE lknee,
            Call.setAbsPosSmart RHIP rhip, Call.setAbsPosSmart RKNEE rknee] } =
        some { walkstate := s.walkstate + 1, movestate := STATEIMMOBILE,
               sent := s.sent ++ [Call.setAbsPosSmart LHIP lhip, Call.setAbsPosSmart LKNEE lknee,
                 Call.setAbsPosSmart RHIP rhip, Call.setAbsPosSmart RKNEE rknee] ++ q } := by
      simp only [walkModeBranch, walkModeAdvanceCheck, hhi, and_self, if_true, hh, hk, hh2, hk2,
        Option.some_bind, hr', hq]
    obtain ⟨s', hs', -, -⟩ := walkModeSeq_total c i hc
      [Branch.retreatStart, Branch.retreatCheck]
      { walkstate := s.walkstate + 1, movestate := STATEIMMOBILE,
        sent := s.sent ++ [Call.setAbsPosSmart LHIP lhip, Call.setAbsPosSmart LKNEE lknee,
          Call.setAbsPosSmart RHIP rhip, Call.setAbsPosSmart RKNEE rknee] ++ q }
      (by simp only; omega) (by simp only; omega)
    obtain ⟨q', hq'⟩ := walkModeSeq_sent c i _ _ s' hs'
    refine ⟨s', hh, hk, hh2, hk2, ?_, q ++ q', ?_, fun h => absurd hr h⟩
    · simp only [walkModeBody, branchOrder, walkModeSeq, e1, Option.some_bind, e2]
      exact hs'
    · rw [hq']
      simp only [List.append_assoc]
  · -- the advance does not converge: nothing else happens
    have hr' := hr
    rw [checkPos_fst_sent s.sent (s.sent ++ [Call.setAbsPosSmart LHIP lhip,
      Call.setAbsPosSmart LKNEE lknee, Call.setAbsPosSmart RHIP rhip,
      Call.setAbsPosSmart RKNEE rknee])] at hr'
    obtain ⟨q, hq, hqm⟩ := checkPos_snd (s.sent ++ [Call.setAbsPosSmart LHIP lhip,
      Call.setAbsPosSmart LKNEE lknee, Call.setAbsPosSmart RHIP rhip,
      Call.setAbsPosSmart RKNEE rknee]) i.fwd lhip lknee rhip rknee
    have e2 : walkModeBranch c i Branch.advanceCheck
        { walkstate := s.walkstate, movestate := WALKINGFORWARD,
          sent := s.sent ++ [Call.setAbsPosSmart LHIP lhip, Call.setAbsPosSmart LKNEE lknee,
            Call.setAbsPosSmart RHIP rhip, Call.setAbsPosSmart RKNEE rknee] } =
        some { walkstate := s.walkstate, movestate := WALKINGFORWARD,
               sent := s.sent ++ [Call.setAbsPosSmart LHIP lhip, Call.setAbsPosSmart LKNEE lknee,
                 Call.setAbsPosSmart RHIP rhip, Call.setAbsPosSmart RKNEE rknee] ++ q } := by
      simp only [walkModeBranch, walkModeAdvanceCheck, hhi, and_self, if_true, hh, hk, hh2, hk2,
        Option.some_bind, hr', if_false, hq]
    refine ⟨{ walkstate := s.walkstate, movestate := WALKINGFORWARD,
               sent := s.sent ++ [Call.setAbsPosSmart LHIP lhip, Call.setAbsPosSmart LKNEE lknee,
                 Call.setAbsPosSmart RHIP rhip, Call.setAbsPosSmart RKNEE rknee] ++ q },
      hh, hk, hh2, hk2, ?_, q, rfl, fun _ => ⟨rfl, rfl, hqm⟩⟩
    simp only [walkModeBody, branchOrder, walkModeSeq, e1, Option.some_bind, e2]
    simp [walkModeBranch, walkModeRetreatStart, walkModeRetreatCheck, WALKINGFORWARD,
      STATEIMMOBILE, WALKINGBACK]

theorem sitLabel_idle (m : Int) : sitLabel m = STATEIMMOBILE ↔ m = STATEIMMOBILE := by
  simp only [sitLabel, WALKINGFORWARD, WALKINGBACK, STATESITTING, STATESTANDING, STATEIMMOBILE]
  split_ifs <;> omega

theorem sitLabel_forward (m : Int) : sitLabel m = STATESITTING ↔ m = WALKINGFORWARD := by
  simp only [sitLabel, WALKINGFORWARD, WALKINGBACK, STATESITTING, STATESTANDING]
  split_ifs <;> omega

theorem sitLabel_back (m : Int) : sitLabel m = STATESTANDING ↔ m = WALKINGBACK := by
  simp only [sitLabel, WALKINGFORWARD, WALKINGBACK, STATESITTING, STATESTANDING]
  split_ifs <;> omega

theorem walkModeBranch_asSitStand (c : WalkCfg) (i : PollIn) (k : Branch) (t : WalkState) :
    (walkModeBranch c i k t).map asSitStand = sitStandFourBranch c i k (asSitStand t) := by
  cases k
  · simp only [walkModeBranch, walkModeAdvanceStart, sitStandFourBranch, asSitStand,
      sitLabel_idle]
    split_ifs with hg
    · cases arrAt c.walkArrLHip (t.walkstate + 1) <;>
      cases arrAt c.walkArrLKnee (t.walkstate + 1) <;>
      cases arrAt c.walkArrRHip (t.walkstate + 1) <;>
      cases arrAt c.walkArrRKnee (t.walkstate + 1) <;>
      simp [asSitStand, sitLabel, WALKINGFORWARD, STATESITTING]
    · rfl
  · simp only [walkModeBranch, walkModeAdvanceCheck, sitStandFourBranch, asSitStand,
      sitLabel_forward]
    split_ifs with hg
    · cases arrAt c.walkArrLHip (t.walkstate + 1) <;>
      cases arrAt c.walkArrLKnee (t.walkstate + 1) <;>
      cases arrAt c.walkArrRHip (t.walkstate + 1) <;>
      cases arrAt c.walkArrRKnee (t.walkstate + 1) <;>
      simp only [Option.none_bind, Option.some_bind, Option.map_none']
      split_ifs <;> simp [asSitStand, sitLabel, STATEIMMOBILE, WALKINGFORWARD, WALKINGBACK]
    · rfl
  · simp only [walkModeBranch, walkModeRetreatStart, sitStandFourBranch, asSitStand,
      sitLabel_idle]
    split_ifs with hg
    · cases arrAt c.walkArrLHip (t.walkstate - 1) <;>
      cases arrAt c.walkArrLKnee (t.walkstate - 1) <;>
      cases arrAt c.walkArrRHip (t.walkstate - 1) <;>
      cases arrAt c.walkArrRKnee (t.walkstate - 1) <;>
      simp [asSitStand, sitLabel, WALKINGFORWARD, WALKINGBACK, STATESTANDING]
    · rfl
  · simp only [walkModeBranch, walkModeRetreatCheck, sitStandFourBranch, asSitStand,
      sitLabel_back]
    split_ifs with hg
    · cases arrAt c.walkArrLHip (t.walkstate - 1) <;>
      cases arrAt c.walkArrLKnee (t.walkstate - 1) <;>
      cases arrAt c.walkArrRHip (t.walkstate - 1) <;>
      cases arrAt c.walkArrRKnee (t.walkstate - 1) <;>
      simp only [Option.none_bind, Option.some_bind, Option.map_none']
      split_ifs <;> simp [asSitStand, sitLabel, STATEIMMOBILE, WALKINGFORWARD, WALKINGBACK]
    · rfl

theorem walkModeSeq_asSitStand (c : WalkCfg) (i : PollIn) (ks : List Branch) :
    ∀ t, (walkModeSeq c i ks t).map asSitStand = sitStandFourSeq c i ks (asSitStand t) := by
  induction ks with
  | nil => intro t; rfl
  | cons k ks ih =>
    intro t
    simp only [walkModeSeq, sitStandFourSeq, ← walkModeBranch_asSitStand]
    cases walkModeBranch c i k t with
    | none => rfl
    | some t1 => simpa using ih t1

theorem sitStandFourBranch_two (c : WalkCfg) (initState : Int) (i : PollIn) (k : Branch)
    (s : SitStandState) (hh : c.walkArrRHip = c.walkArrLHip)
    (hk : c.walkArrRKnee = c.walkArrLKnee) :
    sitStandFourBranch c i k s =
      sitStandBranch { sitStandArrayHip := c.walkArrLHip, sitStandArrayKnee := c.walkArrLKnee,
                       initState := initState } i k s := by
  have hsz : (SitStandCfg.arrSize
      { sitStandArrayHip := c.walkArrLHip, sitStandArrayKnee := c.walkArrLKnee,
        initState := initState }) = c.arrSize := rfl
  cases k
  · simp only [sitStandFourBranch, sitStandBranch, sitStandAdvanceStart, hh, hk, hsz]
    split_ifs
    · cases arrAt c.walkArrLHip (s.sitstate + 1) <;>
      cases arrAt c.walkArrLKnee (s.sitstate + 1) <;> rfl
    · rfl
  · simp only [sitStandFourBranch, sitStandBranch, sitStandAdvanceCheck, hh, hk, hsz]
    split_ifs
    · cases arrAt c.walkArrLHip (s.sitstate + 1) <;>
      cases arrAt c.walkArrLKnee (s.sitstate + 1) <;> rfl
    · rfl
  · simp only [sitStandFourBranch, sitStandBranch, sitStandRetreatStart, hh, hk, hsz]
    split_ifs
    · cases arrAt c.walkArrLHip (s.sitstate - 1) <;>
      cases arrAt c.walkArrLKnee (s.sitstate - 1) <;> rfl
    · rfl
  · simp only [sitStandFourBranch, sitStandBranch, sitStandRetreatCheck, hh, hk, hsz]
    split_ifs
    · cases arrAt c.walkArrLHip (s.sitstate - 1) <;>
      cases arrAt c.walkArrLKnee (s.sitstate - 1) <;> rfl
    · rfl

theorem sitStandFourSeq_two (c : WalkCfg) (initState : Int) (i : PollIn) (ks : List Branch)
    (hh : c.walkArrRHip = c.walkArrLHip) (hk : c.walkArrRKnee = c.walkArrLKnee) :
    ∀ s, sitStandFourSeq c i ks s =
      sitStandSeq { sitStandArrayHip := c.walkArrLHip, sitStandArrayKnee := c.walkArrLKnee,
                    initState := initState } i ks s := by
  induction ks with
  | nil => intro s; rfl
  | cons k ks ih =>
    intro s
    simp only [sitStandFourSeq, sitStandSeq, sitStandFourBranch_two c initState i k s hh hk]
    congr 1
    funext s1
    exact ih s1

theorem written_append (a b : List SockOp) : written (a ++ b) = written a ++ written b := by
  induction a with
  | nil => rfl
  | cons op a ih => cases op <;> simp [written, ih]

theorem canFeast_cases (command : List Char) (x : Xfer) :
    ((x.writeOk = false ∨ x.readOk = false) ∧
      (canFeast command x).2 = Feast.exitFailure ∧
      written (canFeast command x).1 = [command]) ∨
    ((canFeast command x).2 = Feast.replied x.reply ∧
      written (canFeast command x).1 = [command]) := by
  unfold canFeast
  by_cases hw : x.writeOk = false
  · left; simp [hw, written]
  · by_cases hr : x.readOk = false
    · left; simp [hw, hr, written]
    · right; simp [hw, hr, written]

theorem sendCommList_exit (l : List (List Char × Xfer)) :
    (sendCommList l).2 = true →
      ∃ done failing rest, l = done ++ failing :: rest ∧
        (failing.2.writeOk = false ∨ failing.2.readOk = false) ∧
        written (sendCommList l).1 = (done ++ [failing]).map Prod.fst := by
  induction l with
  | nil => intro h; simp [sendCommList] at h
  | cons cx l ih =>
    obtain ⟨command, x⟩ := cx
    intro h
    rcases canFeast_cases command x with ⟨hf, he, hw⟩ | ⟨he, hw⟩
    · refine ⟨[], (command, x), l, rfl, hf, ?_⟩
      have : sendCommList ((command, x) :: l) = ((canFeast command x).1, true) := by
        rw [sendCommList]
        generalize canFeast command x = r at he
        obtain ⟨ops, f⟩ := r
        simp only at he
        subst he
        rfl
      rw [this]
      simpa using hw
    · have e : sendCommList ((command, x) :: l) =
          ((canFeast command x).1 ++ (sendCommList l).1, (sendCommList l).2) := by
        rw [sendCommList]
        generalize canFeast command x = r at he
        obtain ⟨ops, f⟩ := r
        simp only at he
        subst he
        rfl
      rw [e] at h
      obtain ⟨done, failing, rest, hl, hf, hw'⟩ := ih h
      refine ⟨(command, x) :: done, failing, rest, by rw [hl]; rfl, hf, ?_⟩
      rw [e]
      simp only [written_append, hw, hw']
      simp

theorem sendCommList_done (l : List (List Char × Xfer)) :
    (sendCommList l).2 = false → written (sendCommList l).1 = l.map Prod.fst := by
  induction l with
  | nil => intro _; rfl
  | cons cx l ih =>
    obtain ⟨command, x⟩ := cx
    intro h
    rcases canFeast_cases command x with ⟨hf, he, hw⟩ | ⟨he, hw⟩
    · have : sendCommList ((command, x) :: l) = ((canFeast command x).1, true) := by
        rw [sendCommList]
        generalize canFeast command x = r at he
        obtain ⟨ops, f⟩ := r
        simp only at he
        subst he
        rfl
      rw [this] at h
      simp at h
    · have e : sendCommList ((command, x) :: l) =
          ((canFeast command x).1 ++ (sendCommList l).1, (sendCommList l).2) := by
        rw [sendCommList]
        generalize canFeast command x = r at he
        obtain ⟨ops, f⟩ := r
        simp only at he
        subst he
        rfl
      rw [e] at h
      rw [e]
      simp only [written_append, hw, ih h]
      simp

/-! ## Strings and numerals -/

theorem cstr_append_NUL (xs rest : List Char) (h : ∀ c ∈ xs, c ≠ NUL) :
    cstr (xs ++ NUL :: rest) = xs := by
  induction xs with
  | nil => simp [cstr]
  | cons x xs ih =>
    have hx : x ≠ NUL := h x (List.mem_cons_self _ _)
    have ih := ih fun c hc => h c (List.mem_cons_of_mem _ hc)
    simp only [cstr] at ih ⊢
    rw [List.cons_append, List.takeWhile_cons_of_pos (by simpa using hx), ih]

theorem cstr_of_no_NUL (xs : List Char) (h : ∀ c ∈ xs, c ≠ NUL) : cstr xs = xs := by
  induction xs with
  | nil => simp [cstr]
  | cons x xs ih =>
    have hx : x ≠ NUL := h x (List.mem_cons_self _ _)
    have ih := ih fun c hc => h c (List.mem_cons_of_mem _ hc)
    simp only [cstr] at ih ⊢
    rw [List.takeWhile_cons_of_pos (by simpa using hx), ih]

theorem strreverseLoop_eq (fuel : Nat) :
    ∀ cells : List Char, cells.length ≤ fuel → strreverseLoop fuel cells = cells.reverse := by
  induction fuel with
  | zero =>
    intro cells h
    have : cells = [] := List.length_eq_zero.mp (Nat.le_zero.mp h)
    subst this; rfl
  | succ fuel ih =>
    intro cells h
    match cells, h with
    | [], _ => rfl
    | [c], _ => rfl
    | c :: d :: rest, h =>
      simp only [strreverseLoop]
      have hl : ((d :: rest).dropLast).length ≤ fuel := by
        simp only [List.length_dropLast, List.length_cons] at h ⊢
        omega
      rw [ih _ hl]
      have hsplit := List.dropLast_append_getLast (List.cons_ne_nil d rest)
      have hrev : (c :: d :: rest).reverse
          = (c :: ((d :: rest).dropLast ++ [(d :: rest).getLast (List.cons_ne_nil d rest)])).reverse := by
        rw [hsplit]
      rw [hrev]
      simp

theorem strreverse_eq (cells : List Char) : strreverse cells = cells.reverse :=
  strreverseLoop_eq _ _ (Nat.le_refl _)

theorem numAt_eq (d : Nat) (h : d < 36) : numAt d = digit09az d := by
  interval_cases d <;> rfl

theorem digit09az_ne_NUL (d : Nat) (h : d < 36) : digit09az d ≠ NUL := by
  interval_cases d <;> decide

theorem digit09az_ne_minus (d : Nat) (h : d < 36) : digit09az d ≠ '-' := by
  interval_cases d <;> decide

theorem digit09az_not_delim (d : Nat) (h : d < 36) : isDelim (digit09az d) = false := by
  interval_cases d <;> decide

theorem digit09az_value (d : Nat) (h : d < 10) : (((digit09az d).toNat : Int) - 48) = d := by
  interval_cases d <;> rfl

theorem itoaLoop_eq (base : Nat) (hb : 2 ≤ base) (hb36 : base ≤ 36) (fuel : Nat) :
    ∀ value : Nat, value < fuel →
      itoaLoop base fuel value
        = if value = 0 then ['0'] else (Nat.digits base value).map digit09az := by
  induction fuel with
  | zero => intro value h; omega
  | succ fuel ih =>
    intro value h
    have hmod : value % base < 36 := lt_of_lt_of_le (Nat.mod_lt _ (by omega)) hb36
    simp only [itoaLoop]
    by_cases hv : value = 0
    · subst hv
      simp [numAt_eq]
      rfl
    · have hpos : 0 < value := Nat.pos_of_ne_zero hv
      rw [if_neg hv, Nat.digits_def' hb hpos, List.map_cons, numAt_eq _ hmod]
      by_cases hq : value / base = 0
      · simp [hq]
      · have hlt : value / base < fuel := by
          have := Nat.div_lt_self hpos hb
          omega
        rw [if_pos hq, ih _ hlt, if_neg hq]

theorem numeralOf_no_NUL (b : Nat) (hb2 : 2 ≤ b) (hb36 : b ≤ 36) (v : Int) :
    ∀ c ∈ numeralOf b v, c ≠ NUL := by
  intro c hc
  simp only [numeralOf, List.mem_append] at hc
  rcases hc with hc | hc
  · split_ifs at hc
    · simp at hc; subst hc; decide
    · simp at hc
  · split_ifs at hc
    · simp at hc; subst hc; decide
    · simp only [List.mem_map, List.mem_reverse] at hc
      obtain ⟨d, hd, rfl⟩ := hc
      exact digit09az_ne_NUL d (lt_of_lt_of_le (Nat.digits_lt_base hb2 hd) hb36)

theorem itoa_eq (v b : Int) (hv : v ≠ INT_MIN) (hb2 : 2 ≤ b) (hb35 : b ≤ 35) :
    itoa v b = some (numeralOf b.toNat v ++ [NUL]) := by
  have hb : ¬ (b < 2 ∨ b > 35) := by omega
  have hbn2 : 2 ≤ b.toNat := by omega
  have hbn36 : b.toNat ≤ 36 := by omega
  simp only [itoa, if_neg hb, if_neg hv, strreverse_eq, numeralOf]
  by_cases hneg : v < 0
  · have hv0 : v ≠ 0 := by omega
    have hnat : (-v).toNat = v.natAbs := by omega
    simp only [if_pos hneg, if_neg hv0, hnat]
    rw [itoaLoop_eq _ hbn2 hbn36 _ _ (Nat.lt_succ_self _)]
    have : v.natAbs ≠ 0 := by omega
    simp [this]
  · have hnat : v.toNat = v.natAbs := by omega
    simp only [if_neg hneg, hnat]
    rw [itoaLoop_eq _ hbn2 hbn36 _ _ (Nat.lt_succ_self _)]
    by_cases hv0 : v = 0
    · subst hv0; rfl
    · have : v.natAbs ≠ 0 := by omega
      simp [this, hv0]

theorem wrapInt_eq (x : Int) (h0 : -2147483648 ≤ x) (h1 : x ≤ 2147483647) : wrapInt x = x := by
  simp only [wrapInt]; omega

theorem wrapLong_eq (x : Int) (h0 : -2147483648 ≤ x) (h1 : x ≤ 2147483647) : wrapLong x = x := by
  simp only [wrapLong]; omega

theorem strToIntLoop_digits (ds : List Nat) :
    ∀ j acc : Int, (∀ d ∈ ds, d < 10) → (∀ h : ds ≠ [], ds.getLast h ≠ 0) →
      0 < j → 0 ≤ acc → acc + j * ((Nat.ofDigits 10 ds : Nat) : Int) ≤ 2147483647 →
      strToIntLoop (ds.map digit09az) j acc = acc + j * ((Nat.ofDigits 10 ds : Nat) : Int) := by
  induction ds with
  | nil => intro j acc _ _ _ _ _; simp [strToIntLoop]
  | cons d rest ih =>
    intro j acc hd hlast hj hacc hbound
    have hd10 : d < 10 := hd d (List.mem_cons_self _ _)
    rw [Nat.ofDigits_cons] at hbound ⊢
    simp only [Nat.cast_add, Nat.cast_mul, Nat.cast_ofNat] at hbound ⊢
    have hq0 : 0 ≤ (d : Int) * j := mul_nonneg (Int.ofNat_nonneg d) (le_of_lt hj)
    have hp0 : 0 ≤ j * ((Nat.ofDigits 10 rest : Nat) : Int) :=
      mul_nonneg (le_of_lt hj) (Int.ofNat_nonneg _)
    have hexp : j * ((d : Int) + 10 * ((Nat.ofDigits 10 rest : Nat) : Int))
        = (d : Int) * j + 10 * (j * ((Nat.ofDigits 10 rest : Nat) : Int)) := by ring
    rw [hexp] at hbound ⊢
    simp only [List.map_cons, strToIntLoop, digit09az_value d hd10]
    have e1 : wrapInt ((d : Int) * j) = (d : Int) * j := wrapInt_eq _ (by linarith) (by linarith)
    have e2 : wrapLong (acc + (d : Int) * j) = acc + (d : Int) * j :=
      wrapLong_eq _ (by linarith) (by linarith)
    rw [e1, e2]
    by_cases hrest : rest = []
    · subst hrest
      simp [strToIntLoop]
    · have hlast' : ∀ h : rest ≠ [], rest.getLast h ≠ 0 := by
        intro h
        have := hlast (List.cons_ne_nil d rest)
        rwa [List.getLast_cons h] at this
      have hR : (Nat.ofDigits 10 rest : Nat) ≠ 0 := by
        intro h0
        have hz := Nat.digits_zero_of_eq_zero (by norm_num : (10 : ℕ) ≠ 0) h0
        exact hlast' hrest (hz _ (List.getLast_mem hrest))
      have hR1 : (1 : Int) ≤ ((Nat.ofDigits 10 rest : Nat) : Int) := by
        have : 1 ≤ (Nat.ofDigits 10 rest : Nat) := Nat.one_le_iff_ne_zero.mpr hR
        exact_mod_cast this
      have hjp : j ≤ j * ((Nat.ofDigits 10 rest : Nat) : Int) :=
        le_mul_of_one_le_right (le_of_lt hj) hR1
      have e3 : wrapInt (j * 10) = j * 10 := wrapInt_eq _ (by linarith) (by linarith)
      rw [e3]
      rw [ih (j * 10) _ (fun x hx => hd x (List.mem_cons_of_mem _ hx)) hlast' (by linarith)
        (by linarith) (by linarith)]
      ring

theorem strToIntLoop_numeral (n : Nat) (hn : (n : Int) ≤ 2147483647) :
    strToIntLoop ((Nat.digits 10 n).map digit09az) 1 0 = n := by
  have h := strToIntLoop_digits (Nat.digits 10 n) 1 0
    (fun d hd => Nat.digits_lt_base (by norm_num) hd)
    (fun h => Nat.getLast_digit_ne_zero 10 (Nat.digits_ne_nil_iff_ne_zero.mp h))
    (by norm_num) (le_refl _) (by rw [Nat.ofDigits_digits]; simpa using hn)
  rw [h, Nat.ofDigits_digits]; simp

theorem strToInt_numeralOf (v : Int) (h0 : INT_MIN ≤ v) (h1 : v ≤ INT_MAX) :
    strToInt (numeralOf 10 v) = v := by
  simp only [INT_MIN, INT_MAX] at h0 h1
  by_cases hmin : v = -2147483648
  · subst hmin
    have hd : Nat.digits 10 2147483648 = [8, 4, 6, 3, 8, 4, 7, 4, 1, 2] := by norm_num
    have hs : numeralOf 10 (-2147483648)
        = ['-', '2', '1', '4', '7', '4', '8', '3', '6', '4', '8'] := by
      have ha : Int.natAbs (-2147483648) = 2147483648 := by decide
      simp only [numeralOf, ha, hd]
      decide
    rw [hs]
    decide
  by_cases hneg : v < 0
  · have hv0 : v ≠ 0 := by omega
    have hstr : numeralOf 10 v = '-' :: (Nat.digits 10 v.natAbs).reverse.map digit09az := by
      simp [numeralOf, hneg, hv0]
    rw [hstr]
    have hhead : ('-' :: (Nat.digits 10 v.natAbs).reverse.map digit09az).head?
        = some (Char.ofNat 45) := rfl
    simp only [strToInt, if_pos hhead, List.drop_one, List.tail_cons]
    rw [← List.map_reverse, List.reverse_reverse, strToIntLoop_numeral _ (by omega)]
    rw [wrapLong_eq _ (by omega) (by omega)]
    omega
  · by_cases hv0 : v = 0
    · subst hv0; decide
    · have hstr : numeralOf 10 v = (Nat.digits 10 v.natAbs).reverse.map digit09az := by
        simp [numeralOf, hneg, hv0]
      rw [hstr]
      have hhead : ¬ ((Nat.digits 10 v.natAbs).reverse.map digit09az).head?
          = some (Char.ofNat 45) := by
        intro h
        have hm := List.mem_of_mem_head? h
        simp only [List.mem_map, List.mem_reverse] at hm
        obtain ⟨d, hd, hc⟩ := hm
        have := Nat.digits_lt_base (by norm_num : 1 < 10) hd
        exact digit09az_ne_minus d (by omega) hc
      simp only [strToInt, if_neg hhead]
      rw [← List.map_reverse, List.reverse_reverse, strToIntLoop_numeral _ (by omega)]
      omega

theorem checkPos_fst_sitStandMode (sent : List Call) (r : Reads) (a b : Int) :
    (SitStandMode.checkPos sent r a b).1 =
      if (a - SitStandMode.POSCLEARANCE < r.lhip1 ∧ r.lhip2 < a + SitStandMode.POSCLEARANCE ∧
          a - SitStandMode.POSCLEARANCE < r.rhip1 ∧ r.rhip2 < a + SitStandMode.POSCLEARANCE ∧
          b - SitStandMode.POSCLEARANCE < r.lknee1 ∧ r.lknee2 < b + SitStandMode.POSCLEARANCE ∧
          b - SitStandMode.POSCLEARANCE < r.rknee1 ∧ r.rknee2 < b + SitStandMode.POSCLEARANCE)
      then 1 else 0 := by
  unfold SitStandMode.checkPos getPos
  simp only [gt_iff_lt]
  split_ifs <;> simp_all

theorem tokensFrom_word (w : List Char) (hw : ∀ c ∈ w, isDelim c = false) :
    ∀ cur s : List Char, tokensFrom cur (w ++ s) = tokensFrom (w.reverse ++ cur) s := by
  induction w with
  | nil => intro cur s; rfl
  | cons x w ih =>
    intro cur s
    have hx : isDelim x = false := hw x (List.mem_cons_self _ _)
    have ih := ih (fun c hc => hw c (List.mem_cons_of_mem _ hc)) (x :: cur) s
    have e : tokensFrom cur (x :: (w ++ s)) = tokensFrom (x :: cur) (w ++ s) := by
      simp only [tokensFrom, hx, Bool.false_eq_true, if_false]
    rw [List.cons_append, e, ih, List.reverse_cons, List.append_assoc]
    rfl

theorem tokensFrom_delim (cur : List Char) (hcur : cur ≠ []) (c : Char) (hc : isDelim c = true)
    (s : List Char) : tokensFrom cur (c :: s) = cur.reverse :: tokensFrom [] s := by
  simp only [tokensFrom, hc, if_true, if_neg hcur]

theorem tokensFrom_eq (s : List Char) :
    ∀ cur : List Char, tokensFrom cur s =
      ((s.splitOnP isDelim).modifyHead fun w => cur.reverse ++ w).filter
        fun w => decide (w ≠ []) := by
  induction s with
  | nil =>
    intro cur
    by_cases h : cur = []
    · subst h; simp [tokensFrom, List.splitOnP_nil]
    · simp [tokensFrom, List.splitOnP_nil, h]
  | cons c cs ih =>
    intro cur
    rw [List.splitOnP_cons]
    by_cases hc : isDelim c = true
    · have h0 := ih []
      simp only [List.reverse_nil, List.nil_append] at h0
      have hid : (List.splitOnP isDelim cs).modifyHead (fun w => w) = List.splitOnP isDelim cs := by
        cases List.splitOnP isDelim cs <;> rfl
      rw [hid] at h0
      by_cases h : cur = []
      · subst h
        simp [tokensFrom, hc, h0]
      · simp [tokensFrom, hc, h, h0]
    · have hc' : isDelim c = false := by simpa using hc
      have h1 := ih (c :: cur)
      simp only [tokensFrom, hc', Bool.false_eq_true, if_false, h1]
      congr 1
      cases List.splitOnP isDelim cs with
      | nil => rfl
      | cons a l => simp

theorem tokens_eq_tokenList (s : List Char) : tokens s = tokenList s := by
  have h := tokensFrom_eq s []
  have hid : (List.splitOnP isDelim s).modifyHead (fun w => ([] : List Char).reverse ++ w)
      = List.splitOnP isDelim s := by
    cases List.splitOnP isDelim s <;> rfl
  rw [hid] at h
  exact h

theorem stringExtractLoop_get (toks : List (List Char)) :
    ∀ (left : Nat) (out : Option (List Char)), 0 < left → left ≤ toks.length →
      stringExtractLoop toks left out = toks[left - 1]? := by
  induction toks with
  | nil => intro left out h0 h1; simp at h1; omega
  | cons t rest ih =>
    intro left out h0 h1
    match left, h0 with
    | 1, _ =>
      have : stringExtractLoop rest 0 (some t) = some t := by cases rest <;> rfl
      simp [stringExtractLoop, this]
    | k + 2, _ =>
      have h1' : k + 1 ≤ rest.length := by simpa using h1
      simp only [stringExtractLoop]
      rw [ih (k + 1) (some t) (Nat.succ_pos _) h1']
      simp

theorem numeralOf_ne_nil (b : Nat) (v : Int) : numeralOf b v ≠ [] := by
  simp only [numeralOf]
  by_cases h0 : v = 0
  · subst h0; simp
  · have : v.natAbs ≠ 0 := by omega
    simp [h0, Nat.digits_ne_nil_iff_ne_zero.mpr this]

theorem numeralOf_not_delim (b : Nat) (hb2 : 2 ≤ b) (hb36 : b ≤ 36) (v : Int) :
    ∀ c ∈ numeralOf b v, isDelim c = false := by
  intro c hc
  simp only [numeralOf, List.mem_append] at hc
  rcases hc with hc | hc
  · split_ifs at hc
    · simp at hc; subst hc; decide
    · simp at hc
  · split_ifs at hc
    · simp at hc; subst hc; decide
    · simp only [List.mem_map, List.mem_reverse] at hc
      obtain ⟨d, hd, rfl⟩ := hc
      exact digit09az_not_delim d (lt_of_lt_of_le (Nat.digits_lt_base hb2 hd) hb36)

theorem positionOf_reply (v : Int) (h0 : INT_MIN ≤ v) (h1 : v ≤ INT_MAX) (c : Char)
    (hc : c = Char.ofNat 13 ∨ c = Char.ofNat 10) (rest : List Char) :
    positionOf ("[1] ".toList ++ (numeralOf 10 v ++ c :: rest)) = some v := by
  have hdel : isDelim c = true := by rcases hc with rfl | rfl <;> decide
  have htok : tokens ("[1] ".toList ++ (numeralOf 10 v ++ c :: rest))
      = "[1]".toList :: numeralOf 10 v :: tokens rest := by
    have e1 : tokens ("[1] ".toList ++ (numeralOf 10 v ++ c :: rest))
        = "[1]".toList :: tokensFrom [] (numeralOf 10 v ++ c :: rest) := by
      simp [tokens, tokensFrom, isDelim]
    rw [e1, tokensFrom_word _ (numeralOf_not_delim 10 (by norm_num) (by norm_num) v),
      List.append_nil, tokensFrom_delim _ (by simpa using numeralOf_ne_nil 10 v) c hdel,
      List.reverse_reverse]
    rfl
  have hrest : stringExtractLoop (tokens rest) 0 (some (numeralOf 10 v))
      = some (numeralOf 10 v) := by cases tokens rest <;> rfl
  simp only [positionOf, stringExtract, htok]
  have : (2 : Int).toNat = 2 := rfl
  rw [this]
  simp only [stringExtractLoop, hrest, Option.map_some', strToInt_numeralOf v h0 h1]

theorem cstr_itoa (v b : Int) (hv : v ≠ INT_MIN) (hb2 : 2 ≤ b) (hb35 : b ≤ 35) :
    (itoa v b).map cstr = some (numeralOf b.toNat v) := by
  rw [itoa_eq v b hv hb2 hb35, Option.map_some',
    cstr_append_NUL _ [] (numeralOf_no_NUL b.toNat (by omega) (by omega) v)]

/-! ## Runs that never read outside the trajectory -/

theorem sitStandLoop_total (c : SitStandCfg) (hc : c.sized) (ins : List PollIn) :
    ∀ s, -1 ≤ s.sitstate → s.sitstate ≤ c.arrSize → ∃ o, sitStandLoop c ins s = some o := by
  induction ins with
  | nil => intro s _ _; exact ⟨_, rfl⟩
  | cons i ins ih =>
    intro s h1 h2
    obtain ⟨s', hb, h1', h2'⟩ := sitStandSeq_total c i hc branchOrder s h1 h2
    have hp : sitStandPoll c i s = some (sitStandTail c i s') := by
      simp [sitStandPoll, sitStandBody, hb]
    cases ht : sitStandTail c i s' with
    | next s'' =>
      have hs : s'' = s' := sitStandTail_state c i s' s'' (Or.inl ht)
      subst hs
      simp only [sitStandLoop, hp, ht]
      exact ih s'' h1' h2'
    | exited log => exact ⟨Outcome.exited log, by simp only [sitStandLoop, hp, ht]⟩
    | returned s'' => exact ⟨Outcome.returned s'', by simp only [sitStandLoop, hp, ht]⟩

theorem walkModeLoop_total (c : WalkCfg) (hc : c.sized) (ins : List PollIn) :
    ∀ s, -1 ≤ s.walkstate → s.walkstate ≤ c.arrSize → ∃ o, walkModeLoop c ins s = some o := by
  induction ins with
  | nil => intro s _ _; exact ⟨_, rfl⟩
  | cons i ins ih =>
    intro s h1 h2
    obtain ⟨s', hb, h1', h2'⟩ := walkModeSeq_total c i hc branchOrder s h1 h2
    have hp : walkModePoll c i s = some (walkModeTail c i s') := by
      simp [walkModePoll, walkModeBody, hb]
    cases ht : walkModeTail c i s' with
    | next s'' =>
      have hs : s'' = s' := walkModeTail_state c i s' s'' (Or.inl ht)
      subst hs
      simp only [walkModeLoop, hp, ht]
      exact ih s'' h1' h2'
    | exited log => exact ⟨Outcome.exited log, by simp only [walkModeLoop, hp, ht]⟩
    | returned s'' => exact ⟨Outcome.returned s'', by simp only [walkModeLoop, hp, ht]⟩

theorem sitStandLoop_exited (c : SitStandCfg) (ins : List PollIn) :
    ∀ s log, sitStandLoop c ins s = some (Outcome.exited log) →
      ∃ i, i ∈ ins ∧ i.button3Status = 0 := by
  induction ins with
  | nil =>
    intro s log h
    simp [sitStandLoop] at h
  | cons i ins ih =>
    intro s log h
    unfold sitStandLoop at h
    split at h
    · rename_i s1 hp
      obtain ⟨j, hj, hx⟩ := ih s1 log h
      exact ⟨j, List.mem_cons_of_mem _ hj, hx⟩
    · simp only [sitStandPoll, Option.map_eq_some'] at h
      obtain ⟨s1, hb, ht⟩ := h
      refine ⟨i, List.mem_cons_self _ _, ?_⟩
      unfold sitStandTail sitStandAbort at ht
      by_contra h3
      rw [if_neg h3] at ht
      simp only at ht
      split_ifs at ht

theorem sitStandLoop_goes_on (c : SitStandCfg) (hc : c.sized)
    (hx : ∀ i s, sitStandExit c i s = false) (ins : List PollIn) :
    ∀ s, (∀ i ∈ ins, i.button3Status ≠ 0) → -1 ≤ s.sitstate → s.sitstate ≤ c.arrSize →
      ∃ s', sitStandLoop c ins s = some (Outcome.next s') := by
  induction ins with
  | nil => intro s _ _ _; exact ⟨_, rfl⟩
  | cons i ins ih =>
    intro s h3 h1 h2
    obtain ⟨s', hb, h1', h2'⟩ := sitStandSeq_total c i hc branchOrder s h1 h2
    have hi3 : i.button3Status ≠ 0 := h3 i (List.mem_cons_self _ _)
    have ht : sitStandTail c i s' = Outcome.next s' := by
      simp [sitStandTail, sitStandAbort, hi3, hx]
    have hp : sitStandPoll c i s = some (Outcome.next s') := by
      simp [sitStandPoll, sitStandBody, hb, ht]
    simp only [sitStandLoop, hp]
    exact ih s' (fun j hj => h3 j (List.mem_cons_of_mem _ hj)) h1' h2'

theorem sitStandInit_bounds (c : SitStandCfg) (sent : List Call) (h1 : 1 ≤ c.arrSize) :
    -1 ≤ (sitStandInit c sent).sitstate ∧ (sitStandInit c sent).sitstate ≤ c.arrSize := by
  simp only [sitStandInit]
  split_ifs <;> omega

theorem sitStandPoint_bounds (c : SitStandCfg) (sent : List Call) (hc : c.sized)
    (h1 : 1 ≤ c.arrSize) (s : SitStandState) (h : SitStandPoint c sent s) :
    -1 ≤ s.sitstate ∧ s.sitstate ≤ c.arrSize := by
  refine sitStandPoint_induct c sent (fun s => -1 ≤ s.sitstate ∧ s.sitstate ≤ c.arrSize)
    (sitStandInit_bounds c sent h1) ?_ s h
  intro i k s s' hs hb
  obtain ⟨s1, hb1, hidx, -, -⟩ := sitStandBranch_bounds c i k s hc hs.1 hs.2
  rw [hb] at hb1
  cases hb1
  constructor <;> omega

theorem walkModePoint_bounds (c : WalkCfg) (sent : List Call) (hc : c.sized)
    (s : WalkState) (h : WalkPoint c sent s) :
    -1 ≤ s.walkstate ∧ s.walkstate ≤ c.arrSize := by
  refine walkModePoint_induct c sent (fun s => -1 ≤ s.walkstate ∧ s.walkstate ≤ c.arrSize)
    ?_ ?_ s h
  · simp only [walkModeInit, WalkCfg.arrSize]
    constructor <;> omega
  · intro i k s s' hs hb
    obtain ⟨s1, hb1, hidx, -, -⟩ := walkModeBranch_bounds c i k s hc hs.1 hs.2
    rw [hb] at hb1
    cases hb1
    constructor <;> omega

theorem sitStandPoint_flight (c : SitStandCfg) (sent : List Call) (s : SitStandState)
    (h : SitStandPoint c sent s) :
    s.movestate = STATEIMMOBILE ∨
      (s.movestate = STATESITTING ∧ s.sitstate < c.arrSize - 1) ∨
      (s.movestate = STATESTANDING ∧ 0 < s.sitstate) := by
  refine sitStandPoint_induct c sent
    (fun s => s.movestate = STATEIMMOBILE ∨
      (s.movestate = STATESITTING ∧ s.sitstate < c.arrSize - 1) ∨
      (s.movestate = STATESTANDING ∧ 0 < s.sitstate)) ?_ ?_ s h
  · left; simp [sitStandInit]
  · intro i k s s' hs hb
    exact sitStandBranch_flight c i k s s' hs hb

theorem walkModePoint_flight (c : WalkCfg) (sent : List Call) (s : WalkState)
    (h : WalkPoint c sent s) :
    s.movestate = STATEIMMOBILE ∨
      (s.movestate = WALKINGFORWARD ∧ s.walkstate < c.arrSize - 1) ∨
      (s.movestate = WALKINGBACK ∧ 0 < s.walkstate) := by
  refine walkModePoint_induct c sent
    (fun s => s.movestate = STATEIMMOBILE ∨
      (s.movestate = WALKINGFORWARD ∧ s.walkstate < c.arrSize - 1) ∨
      (s.movestate = WALKINGBACK ∧ 0 < s.walkstate)) ?_ ?_ s h
  · left; simp [walkModeInit]
  · intro i k s s' hs hb
    exact walkModeBranch_flight c i k s s' hs hb

theorem sitStand_reads (c : SitStandCfg) (hc : c.sized) (j : Int) (h0 : 0 ≤ j)
    (h1 : j ≤ c.arrSize - 1) :
    ∃ hip knee, arrAt c.sitStandArrayHip j = some hip ∧ arrAt c.sitStandArrayKnee j = some knee := by
  have hk : c.sitStandArrayKnee.length = c.sitStandArrayHip.length := hc
  simp only [SitStandCfg.arrSize] at h1
  obtain ⟨hip, hh⟩ := arrAt_isSome c.sitStandArrayHip j h0 (by omega)
  obtain ⟨knee, hkn⟩ := arrAt_isSome c.sitStandArrayKnee j h0 (by omega)
  exact ⟨hip, knee, hh, hkn⟩

theorem walkMode_reads (c : WalkCfg) (hc : c.sized) (j : Int) (h0 : 0 ≤ j)
    (h1 : j ≤ c.arrSize - 1) :
    ∃ lhip lknee rhip rknee, arrAt c.walkArrLHip j = some lhip ∧
      arrAt c.walkArrLKnee j = some lknee ∧ arrAt c.walkArrRHip j = some rhip ∧
      arrAt c.walkArrRKnee j = some rknee := by
  obtain ⟨e1, e2, e3⟩ := hc
  simp only [WalkCfg.arrSize] at h1
  obtain ⟨a, ha⟩ := arrAt_isSome c.walkArrLHip j h0 (by omega)
  obtain ⟨b, hb⟩ := arrAt_isSome c.walkArrLKnee j h0 (by omega)
  obtain ⟨d, hd⟩ := arrAt_isSome c.walkArrRHip j h0 (by omega)
  obtain ⟨e, he⟩ := arrAt_isSome c.walkArrRKnee j h0 (by omega)
  exact ⟨a, b, d, e, ha, hb, hd, he⟩

theorem filter_isMove_nil (q : List Call) (h : ∀ x ∈ q, x.isMove = false) :
    q.filter Call.isMove = [] := by
  rw [List.filter_eq_nil_iff]
  intro x hx
  simp [h x hx]

theorem sitStand_first_retreat (c : SitStandCfg) (sent : List Call)
    (h1 : 1 ≤ c.arrSize) (hinit : c.initState = SITTING) (hip knee : Int)
    (hh : arrAt c.sitStandArrayHip (c.arrSize - 1) = some hip)
    (hk : arrAt c.sitStandArrayKnee (c.arrSize - 1) = some knee)
    (s : SitStandState) (hs : SitStandPoint c sent s) :
    ∃ q, s.sent = sent ++ q ∧
      (((∀ x ∈ q, x.isMove = false) ∧ s.sitstate = c.arrSize ∧ s.movestate = STATEIMMOBILE) ∨
        ∃ rest, q.filter Call.isMove =
          [Call.setAbsPosSmart LHIP hip, Call.setAbsPosSmart LKNEE knee,
           Call.setAbsPosSmart RHIP hip, Call.setAbsPosSmart RKNEE knee] ++ rest) := by
  refine sitStandPoint_induct c sent
    (fun s => ∃ q, s.sent = sent ++ q ∧
      (((∀ x ∈ q, x.isMove = false) ∧ s.sitstate = c.arrSize ∧ s.movestate = STATEIMMOBILE) ∨
        ∃ rest, q.filter Call.isMove =
          [Call.setAbsPosSmart LHIP hip, Call.setAbsPosSmart LKNEE knee,
           Call.setAbsPosSmart RHIP hip, Call.setAbsPosSmart RKNEE knee] ++ rest)) ?_ ?_ s hs
  · refine ⟨[], by simp [sitStandInit], Or.inl ⟨by simp, ?_, by simp [sitStandInit]⟩⟩
    have hne : ¬ SITTING = STANDING := by decide
    simp [sitStandInit, hinit, hne]
  · intro i k s s' ⟨q, hq, hph⟩ hb
    rcases hph with ⟨hquiet, hidx, hidle⟩ | ⟨rest, hrest⟩
    · have hnolt : ¬ s.sitstate < c.arrSize - 1 := by omega
      have hnsit : ¬ s.movestate = STATESITTING := by rw [hidle]; decide
      have hnstand : ¬ s.movestate = STATESTANDING := by rw [hidle]; decide
      have hsame : s' = s → ∃ q, s'.sent = sent ++ q ∧
          (((∀ x ∈ q, x.isMove = false) ∧ s'.sitstate = c.arrSize ∧
              s'.movestate = STATEIMMOBILE) ∨
            ∃ rest, q.filter Call.isMove =
              [Call.setAbsPosSmart LHIP hip, Call.setAbsPosSmart LKNEE knee,
               Call.setAbsPosSmart RHIP hip, Call.setAbsPosSmart RKNEE knee] ++ rest) := by
        intro e; subst e
        exact ⟨q, hq, Or.inl ⟨hquiet, hidx, hidle⟩⟩
      cases k with
      | advanceStart =>
        simp only [sitStandBranch, sitStandAdvanceStart, hnolt, and_false, if_false] at hb
        exact hsame (Option.some.inj hb).symm
      | advanceCheck =>
        simp only [sitStandBranch, sitStandAdvanceCheck, hnolt, false_and, if_false] at hb
        exact hsame (Option.some.inj hb).symm
      | retreatStart =>
        by_cases h2 : i.button2Status = 0
        · have hgt : s.sitstate > 0 := by omega
          have hg : i.button2Status = 0 ∧ s.movestate = STATEIMMOBILE ∧ s.sitstate > 0 :=
            ⟨h2, hidle, hgt⟩
          simp only [sitStandBranch, sitStandRetreatStart] at hb
          rw [if_pos hg] at hb
          simp only [hidx, hh, hk, Option.some_bind, setAbsPosSmart] at hb
          have e := (Option.some.inj hb).symm
          subst e
          refine ⟨q ++ [Call.setAbsPosSmart LHIP hip, Call.setAbsPosSmart LKNEE knee,
            Call.setAbsPosSmart RHIP hip, Call.setAbsPosSmart RKNEE knee], ?_, Or.inr ⟨[], ?_⟩⟩
          · simp [hq]
          · rw [List.filter_append, filter_isMove_nil q hquiet]
            rfl
        · simp only [sitStandBranch, sitStandRetreatStart, h2, false_and, if_false] at hb
          exact hsame (Option.some.inj hb).symm
      | retreatCheck =>
        simp only [sitStandBranch, sitStandRetreatCheck, hnstand, and_false, if_false] at hb
        exact hsame (Option.some.inj hb).symm
    · obtain ⟨q', hq', -⟩ := sitStandBranch_sent c i k s s' hb
      refine ⟨q ++ q', by rw [hq', hq, List.append_assoc], Or.inr ⟨rest ++ q'.filter Call.isMove, ?_⟩⟩
      rw [List.filter_append, hrest, List.append_assoc]

theorem sitStand_first_advance (c : SitStandCfg) (sent : List Call)
    (hinit : c.initState = STANDING) (hip knee : Int)
    (hh : arrAt c.sitStandArrayHip 0 = some hip)
    (hk : arrAt c.sitStandArrayKnee 0 = some knee)
    (s : SitStandState) (hs : SitStandPoint c sent s) :
    ∃ q, s.sent = sent ++ q ∧
      (((∀ x ∈ q, x.isMove = false) ∧ s.sitstate = -1 ∧ s.movestate = STATEIMMOBILE) ∨
        ∃ rest, q.filter Call.isMove =
          [Call.setAbsPosSmart LHIP hip, Call.setAbsPosSmart LKNEE knee,
           Call.setAbsPosSmart RHIP hip, Call.setAbsPosSmart RKNEE knee] ++ rest) := by
  refine sitStandPoint_induct c sent
    (fun s => ∃ q, s.sent = sent ++ q ∧
      (((∀ x ∈ q, x.isMove = false) ∧ s.sitstate = -1 ∧ s.movestate = STATEIMMOBILE) ∨
        ∃ rest, q.filter Call.isMove =
          [Call.setAbsPosSmart LHIP hip, Call.setAbsPosSmart LKNEE knee,
           Call.setAbsPosSmart RHIP hip, Call.setAbsPosSmart RKNEE knee] ++ rest)) ?_ ?_ s hs
  · refine ⟨[], by simp [sitStandInit], Or.inl ⟨by simp, ?_, by simp [sitStandInit]⟩⟩
    simp [sitStandInit, hinit]
  · intro i k s s' ⟨q, hq, hph⟩ hb
    rcases hph with ⟨hquiet, hidx, hidle⟩ | ⟨rest, hrest⟩
    · have hngt : ¬ s.sitstate > 0 := by omega
      have hnsit : ¬ s.movestate = STATESITTING := by rw [hidle]; decide
      have hnstand : ¬ s.movestate = STATESTANDING := by rw [hidle]; decide
      have hsame : s' = s → ∃ q, s'.sent = sent ++ q ∧
          (((∀ x ∈ q, x.isMove = false) ∧ s'.sitstate = -1 ∧
              s'.movestate = STATEIMMOBILE) ∨
            ∃ rest, q.filter Call.isMove =
              [Call.setAbsPosSmart LHIP hip, Call.setAbsPosSmart LKNEE knee,
               Call.setAbsPosSmart RHIP hip, Call.setAbsPosSmart RKNEE knee] ++ rest) := by
        intro e; subst e
        exact ⟨q, hq, Or.inl ⟨hquiet, hidx, hidle⟩⟩
      have h0 : s.sitstate + 1 = 0 := by omega
      cases k with
      | advanceStart =>
        by_cases hg : i.button1Status = 0 ∧ s.movestate = STATEIMMOBILE ∧
            s.sitstate < c.arrSize - 1
        · simp only [sitStandBranch, sitStandAdvanceStart, if_pos hg, h0, hh, hk,
            Option.some_bind, setAbsPosSmart] at hb
          have e := (Option.some.inj hb).symm
          subst e
          refine ⟨q ++ [Call.setAbsPosSmart LHIP hip, Call.setAbsPosSmart LKNEE knee,
            Call.setAbsPosSmart RHIP hip, Call.setAbsPosSmart RKNEE knee], ?_, Or.inr ⟨[], ?_⟩⟩
          · simp [hq]
          · rw [List.filter_append, filter_isMove_nil q hquiet]
            rfl
        · simp only [sitStandBranch, sitStandAdvanceStart, if_neg hg] at hb
          exact hsame (Option.some.inj hb).symm
      | advanceCheck =>
        simp only [sitStandBranch, sitStandAdvanceCheck, hnsit, and_false, if_false] at hb
        exact hsame (Option.some.inj hb).symm
      | retreatStart =>
        simp only [sitStandBranch, sitStandRetreatStart, hngt, and_false, if_false] at hb
        exact hsame (Option.some.inj hb).symm
      | retreatCheck =>
        simp only [sitStandBranch, sitStandRetreatCheck, hngt, false_and, if_false] at hb
        exact hsame (Option.some.inj hb).symm
    · obtain ⟨q', hq', -⟩ := sitStandBranch_sent c i k s s' hb
      refine ⟨q ++ q', by rw [hq', hq, List.append_assoc], Or.inr ⟨rest ++ q'.filter Call.isMove, ?_⟩⟩
      rw [List.filter_append, hrest, List.append_assoc]

theorem tdiv_num_den (q : ℚ) :
    Int.tdiv q.num q.den = if 0 ≤ q then ⌊q⌋ else ⌈q⌉ := by
  have hden : (0 : Int) ≤ (q.den : Int) := Int.ofNat_nonneg _
  by_cases h : 0 ≤ q
  · rw [if_pos h, Rat.floor_def, Int.tdiv_eq_ediv (Rat.num_nonneg.mpr h) hden]
  · rw [if_neg h]
    have hlt : q < 0 := lt_of_not_ge h
    have hnum : 0 ≤ -q.num := by
      have := Rat.num_neg.mpr hlt
      omega
    have hceil : ⌈q⌉ = -⌊-q⌋ := by rw [Int.floor_neg, neg_neg]
    rw [hceil, Rat.floor_def, Rat.neg_num, Rat.neg_den, ← Int.tdiv_eq_ediv hnum hden,
      Int.neg_tdiv, neg_neg]

theorem toMotorPos_truncates (A B angle : ℚ) :
    toMotorPos (Dbl.finite A) (Dbl.finite B) angle =
      some (if 0 ≤ A * angle + B then ⌊A * angle + B⌋ else ⌈A * angle + B⌉) := by
  simp only [toMotorPos, Dbl.mul, Dbl.add, Dbl.toLong, tdiv_num_den]

theorem stringExtractLoop_short (toks : List (List Char)) :
    ∀ (left : Nat) (out : Option (List Char)), toks ≠ [] → toks.length ≤ left →
      stringExtractLoop toks left out = toks.getLast? := by
  induction toks with
  | nil => intro left out h; exact absurd rfl h
  | cons t rest ih =>
    intro left out _ hlen
    match left, hlen with
    | l + 1, hlen =>
      have hl : rest.length ≤ l := by simpa using hlen
      simp only [stringExtractLoop]
      cases rest with
      | nil => cases l <;> rfl
      | cons u rest' =>
        rw [ih l (some t) (List.cons_ne_nil _ _) hl, List.getLast?_cons_cons]

theorem stringExtractLoop_second (t1 t2 : List Char) (rest : List (List Char))
    (out : Option (List Char)) :
    stringExtractLoop (t1 :: t2 :: rest) 2 out = some t2 := by
  cases rest <;> rfl

/-! ## C1: the index moves one waypoint at a time -/

/-- C1 (P1, convergence monotonicity).  In `sitStand` and in `walkMode`, whatever
the trajectory, the state and the readings, a motion branch leaves the index
as it is, or adds 1 to it, or subtracts 1 from it.  It adds 1 only in the
convergence branch of the advancing move, entered in the advancing state, when
`checkPos` against waypoint index+1 returned 1; it subtracts 1 only in the
convergence branch of the retreating move, entered in the retreating state,
when `checkPos` against waypoint index-1 returned 1.  When that `checkPos`
returns 0 the branch leaves index and `movestate` unchanged. -/
theorem index_changes_by_one (c : SitStandCfg) (w : WalkCfg) (i : PollIn) (k : Branch) :
    (∀ s s', sitStandBranch c i k s = some s' →
      (s'.sitstate = s.sitstate ∨
        (s'.sitstate = s.sitstate + 1 ∧ k = Branch.advanceCheck ∧
          s.movestate = STATESITTING ∧
          ∃ hip knee, arrAt c.sitStandArrayHip (s.sitstate + 1) = some hip ∧
            arrAt c.sitStandArrayKnee (s.sitstate + 1) = some knee ∧
            (checkPos s.sent i.fwd hip knee hip knee).1 = 1) ∨
        (s'.sitstate = s.sitstate - 1 ∧ k = Branch.retreatCheck ∧
          s.movestate = STATESTANDING ∧
          ∃ hip knee, arrAt c.sitStandArrayHip (s.sitstate - 1) = some hip ∧
            arrAt c.sitStandArrayKnee (s.sitstate - 1) = some knee ∧
            (checkPos s.sent i.back hip knee hip knee).1 = 1)) ∧
      (k = Branch.advanceCheck → ∀ hip knee,
        arrAt c.sitStandArrayHip (s.sitstate + 1) = some hip →
        arrAt c.sitStandArrayKnee (s.sitstate + 1) = some knee →
        (checkPos s.sent i.fwd hip knee hip knee).1 = 0 →
        s'.sitstate = s.sitstate ∧ s'.movestate = s.movestate) ∧
      (k = Branch.retreatCheck → ∀ hip knee,
        arrAt c.sitStandArrayHip (s.sitstate - 1) = some hip →
        arrAt c.sitStandArrayKnee (s.sitstate - 1) = some knee →
        (checkPos s.sent i.back hip knee hip knee).1 = 0 →
        s'.sitstate = s.sitstate ∧ s'.movestate = s.movestate)) ∧
    (∀ t t', walkModeBranch w i k t = some t' →
      (t'.walkstate = t.walkstate ∨
        (t'.walkstate = t.walkstate + 1 ∧ k = Branch.advanceCheck ∧
          t.movestate = WALKINGFORWARD ∧
          ∃ lhip lknee rhip rknee, arrAt w.walkArrLHip (t.walkstate + 1) = some lhip ∧
            arrAt w.walkArrLKnee (t.walkstate + 1) = some lknee ∧
            arrAt w.walkArrRHip (t.walkstate + 1) = some rhip ∧
            arrAt w.walkArrRKnee (t.walkstate + 1) = some rknee ∧
            (checkPos t.sent i.fwd lhip lknee rhip rknee).1 = 1) ∨
        (t'.walkstate = t.walkstate - 1 ∧ k = Branch.retreatCheck ∧
          t.movestate = WALKINGBACK ∧
          ∃ lhip lknee rhip rknee, arrAt w.walkArrLHip (t.walkstate - 1) = some lhip ∧
            arrAt w.walkArrLKnee (t.walkstate - 1) = some lknee ∧
            arrAt w.walkArrRHip (t.walkstate - 1) = some rhip ∧
            arrAt w.walkArrRKnee (t.walkstate - 1) = some rknee ∧
            (checkPos t.sent i.back lhip lknee rhip rknee).1 = 1)) ∧
      (k = Branch.advanceCheck → ∀ lhip lknee rhip rknee,
        arrAt w.walkArrLHip (t.walkstate + 1) = some lhip →
        arrAt w.walkArrLKnee (t.walkstate + 1) = some lknee →
        arrAt w.walkArrRHip (t.walkstate + 1) = some rhip →
        arrAt w.walkArrRKnee (t.walkstate + 1) = some rknee →
        (checkPos t.sent i.fwd lhip lknee rhip rknee).1 = 0 →
        t'.walkstate = t.walkstate ∧ t'.movestate = t.movestate) ∧
      (k = Branch.retreatCheck → ∀ lhip lknee rhip rknee,
        arrAt w.walkArrLHip (t.walkstate - 1) = some lhip →
        arrAt w.walkArrLKnee (t.walkstate - 1) = some lknee →
        arrAt w.walkArrRHip (t.walkstate - 1) = some rhip →
        arrAt w.walkArrRKnee (t.walkstate - 1) = some rknee →
        (checkPos t.sent i.back lhip lknee rhip rknee).1 = 0 →
        t'.walkstate = t.walkstate ∧ t'.movestate = t.movestate)) := by
  constructor
  · intro s s' h
    cases k
    · simp only [sitStandBranch, sitStandAdvanceStart] at h
      split_ifs at h with hg
      · simp only [Option.bind_eq_some] at h
        obtain ⟨hip, hh, knee, hk, h⟩ := h
        cases h
        simp
      · cases h
        simp
    · simp only [sitStandBranch, sitStandAdvanceCheck] at h
      split_ifs at h with hg
      · simp only [Option.bind_eq_some] at h
        obtain ⟨hip, hh, knee, hk, h⟩ := h
        split_ifs at h with hr
        · cases h
          simp [hg.2, hh, hk, hr]
        · cases h
          simp
      · cases h
        simp
    · simp only [sitStandBranch, sitStandRetreatStart] at h
      split_ifs at h with hg
      · simp only [Option.bind_eq_some] at h
        obtain ⟨hip, hh, knee, hk, h⟩ := h
        cases h
        simp
      · cases h
        simp
    · simp only [sitStandBranch, sitStandRetreatCheck] at h
      split_ifs at h with hg
      · simp only [Option.bind_eq_some] at h
        obtain ⟨hip, hh, knee, hk, h⟩ := h
        split_ifs at h with hr
        · cases h
          simp [hg.2, hh, hk, hr]
        · cases h
          simp
      · cases h
        simp
  · intro t t' h
    cases k
    · simp only [walkModeBranch, walkModeAdvanceStart] at h
      split_ifs at h with hg
      · simp only [Option.bind_eq_some] at h
        obtain ⟨a, ha, b, hb, c, hc, d, hd, h⟩ := h
        cases h
        simp
      · cases h
        simp
    · simp only [walkModeBranch, walkModeAdvanceCheck] at h
      split_ifs at h with hg
      · simp only [Option.bind_eq_some] at h
        obtain ⟨a, ha, b, hb, c, hc, d, hd, h⟩ := h
        split_ifs at h with hr
        · cases h
          simp only [hg.2, ha, hb, hc, hd]
          simp
          refine ⟨hr, ?_⟩
          rintro _ _ _ _ rfl rfl rfl rfl
          simp [hr]
        · cases h
          simp
      · cases h
        simp
    · simp only [walkModeBranch, walkModeRetreatStart] at h
      split_ifs at h with hg
      · simp only [Option.bind_eq_some] at h
        obtain ⟨a, ha, b, hb, c, hc, d, hd, h⟩ := h
        cases h
        simp
      · cases h
        simp
    · simp only [walkModeBranch, walkModeRetreatCheck] at h
      split_ifs at h with hg
      · simp only [Option.bind_eq_some] at h
        obtain ⟨a, ha, b, hb, c, hc, d, hd, h⟩ := h
        split_ifs at h with hr
        · cases h
          simp only [hg.2, ha, hb, hc, hd]
          simp
          refine ⟨hr, ?_⟩
          rintro _ _ _ _ rfl rfl rfl rfl
          simp [hr]
        · cases h
          simp
      · cases h
        simp

/-- C1 at a concrete step: on the two-waypoint trajectory, with the move from
waypoint 0 to waypoint 1 in flight and the drives on waypoint 1, the
convergence branch moves the index from 0 to 1, and the theorem yields that
the state was advancing and `checkPos` against waypoint 1 returned 1. -/
theorem index_changes_by_one_witness :
    sitStandBranch demoSitStand onWaypoint1 Branch.advanceCheck demoAdvancing =
      some { sitstate := 1, movestate := STATEIMMOBILE,
             sent := [Call.getPos 1, Call.getPos 1, Call.getPos 3, Call.getPos 3,
                      Call.getPos 2, Call.getPos 2, Call.getPos 4, Call.getPos 4] } ∧
    demoAdvancing.movestate = STATESITTING ∧
    ∃ hip knee, arrAt demoSitStand.sitStandArrayHip (demoAdvancing.sitstate + 1) = some hip ∧
      arrAt demoSitStand.sitStandArrayKnee (demoAdvancing.sitstate + 1) = some knee ∧
      (checkPos demoAdvancing.sent onWaypoint1.fwd hip knee hip knee).1 = 1 := by
  have hb : sitStandBranch demoSitStand onWaypoint1 Branch.advanceCheck demoAdvancing =
      some { sitstate := 1, movestate := STATEIMMOBILE,
             sent := [Call.getPos 1, Call.getPos 1, Call.getPos 3, Call.getPos 3,
                      Call.getPos 2, Call.getPos 2, Call.getPos 4, Call.getPos 4] } := by
    decide
  rcases ((index_changes_by_one demoSitStand demoWalk onWaypoint1 Branch.advanceCheck).1
    _ _ hb).1 with h | ⟨-, -, hm, hx⟩ | ⟨h, -⟩
  · exact absurd h (by decide)
  · exact ⟨hb, hm, hx⟩
  · exact absurd h (by decide)

/-! ## C2: the index never leaves the trajectory -/

/-- C2 (P2, bounds).  In every run of `sitStand` entered with SITTING or
STANDING, and in every run of `walkMode`, the index at any branch boundary is
the sentinel it was seeded with (-1 or `arrSize`) or lies in
`[0, arrSize - 1]`.  From such a point every motion branch has a result (no
array is read out of bounds); a branch that changes the index changes it to a
value in `[0, arrSize - 1]`; an index in `[0, arrSize - 1]` stays there; at
index `arrSize - 1` the two advance branches do nothing, and at index 0 the
two retreat branches do nothing. -/
theorem index_stays_in_bounds (c : SitStandCfg) (w : WalkCfg) (sent : List Call)
    (i : PollIn) (k : Branch) :
    (c.sized → (c.initState = SITTING ∨ c.initState = STANDING) →
      ∀ s, SitStandPoint c sent s →
        ((c.initState = STANDING ∧ s.sitstate = -1) ∨
          (c.initState = SITTING ∧ s.sitstate = c.arrSize) ∨
          (0 ≤ s.sitstate ∧ s.sitstate ≤ c.arrSize - 1)) ∧
        ∃ s', sitStandBranch c i k s = some s' ∧
          (s'.sitstate ≠ s.sitstate → 0 ≤ s'.sitstate ∧ s'.sitstate ≤ c.arrSize - 1) ∧
          (0 ≤ s.sitstate ∧ s.sitstate ≤ c.arrSize - 1 →
            0 ≤ s'.sitstate ∧ s'.sitstate ≤ c.arrSize - 1) ∧
          (s.sitstate = c.arrSize - 1 →
            (k = Branch.advanceStart ∨ k = Branch.advanceCheck) → s' = s) ∧
          (s.sitstate = 0 →
            (k = Branch.retreatStart ∨ k = Branch.retreatCheck) → s' = s)) ∧
    (w.sized →
      ∀ t, WalkPoint w sent t →
        (t.walkstate = -1 ∨ (0 ≤ t.walkstate ∧ t.walkstate ≤ w.arrSize - 1)) ∧
        ∃ t', walkModeBranch w i k t = some t' ∧
          (t'.walkstate ≠ t.walkstate → 0 ≤ t'.walkstate ∧ t'.walkstate ≤ w.arrSize - 1) ∧
          (0 ≤ t.walkstate ∧ t.walkstate ≤ w.arrSize - 1 →
            0 ≤ t'.walkstate ∧ t'.walkstate ≤ w.arrSize - 1) ∧
          (t.walkstate = w.arrSize - 1 →
            (k = Branch.advanceStart ∨ k = Branch.advanceCheck) → t' = t) ∧
          (t.walkstate = 0 →
            (k = Branch.retreatStart ∨ k = Branch.retreatCheck) → t' = t)) := by
  constructor
  · intro hc hinit s hs
    have hn : (0 : Int) ≤ c.arrSize := by simp [SitStandCfg.arrSize]
    have hP : (c.initState = STANDING ∧ s.sitstate = -1) ∨
        (c.initState = SITTING ∧ s.sitstate = c.arrSize) ∨
        (0 ≤ s.sitstate ∧ s.sitstate ≤ c.arrSize - 1) := by
      refine sitStandPoint_induct c sent
        (fun s => (c.initState = STANDING ∧ s.sitstate = -1) ∨
          (c.initState = SITTING ∧ s.sitstate = c.arrSize) ∨
          (0 ≤ s.sitstate ∧ s.sitstate ≤ c.arrSize - 1)) ?_ ?_ s hs
      · rcases hinit with h | h
        · right; left
          simp [sitStandInit, h, SITTING, STANDING]
        · left
          simp [sitStandInit, h]
      · intro j k s s' hps hb
        obtain ⟨s'', hb', hidx, -, -⟩ :=
          sitStandBranch_bounds c j k s hc (by omega) (by omega)
        rw [hb] at hb'
        cases hb'
        rcases hidx with e | e
        · rw [e]; exact hps
        · exact Or.inr (Or.inr e)
    refine ⟨hP, ?_⟩
    obtain ⟨s', hb, hidx, ha, hr⟩ := sitStandBranch_bounds c i k s hc (by omega) (by omega)
    refine ⟨s', hb, ?_, ?_, ha, hr⟩
    · intro hne
      rcases hidx with e | e
      · exact absurd e hne
      · exact e
    · intro hin
      rcases hidx with e | e
      · rw [e]; exact hin
      · exact e
  · intro hc t ht
    have hn : (0 : Int) ≤ w.arrSize := by simp [WalkCfg.arrSize]
    have hP : t.walkstate = -1 ∨ (0 ≤ t.walkstate ∧ t.walkstate ≤ w.arrSize - 1) := by
      refine walkModePoint_induct w sent
        (fun t => t.walkstate = -1 ∨ (0 ≤ t.walkstate ∧ t.walkstate ≤ w.arrSize - 1))
        ?_ ?_ t ht
      · left; rfl
      · intro j k s s' hps hb
        obtain ⟨s'', hb', hidx, -, -⟩ :=
          walkModeBranch_bounds w j k s hc (by omega) (by omega)
        rw [hb] at hb'
        cases hb'
        rcases hidx with e | e
        · rw [e]; exact hps
        · exact Or.inr e
    refine ⟨hP, ?_⟩
    obtain ⟨t', hb, hidx, ha, hr⟩ := walkModeBranch_bounds w i k t hc (by omega) (by omega)
    refine ⟨t', hb, ?_, ?_, ha, hr⟩
    · intro hne
      rcases hidx with e | e
      · exact absurd e hne
      · exact e
    · intro hin
      rcases hidx with e | e
      · rw [e]; exact hin
      · exact e

/-- C2 at a concrete point: after one iteration of `sitStand` (entered with
STANDING) that advances to waypoint 0, the index is 0 and the retreat branch,
with the retreat button pressed, does nothing. -/
theorem index_stays_in_bounds_witness :
    demoSitStand.sized ∧ demoSitStand.initState = STANDING ∧
    sitStand demoSitStand [] [pressAdvance] = some (Outcome.next demoAfterAdvance) ∧
    ∃ s', sitStandBranch demoSitStand pressRetreat Branch.retreatStart demoAfterAdvance =
        some s' ∧ s' = demoAfterAdvance := by
  have hrun : sitStand demoSitStand [] [pressAdvance] =
      some (Outcome.next demoAfterAdvance) := by
    decide
  obtain ⟨-, s', hb, -, -, -, hr⟩ :=
    (index_stays_in_bounds demoSitStand demoWalk [] pressRetreat Branch.retreatStart).1
      (by decide) (Or.inr rfl) _ ⟨[pressAdvance], idleIn, 0, _, hrun, rfl⟩
  exact ⟨by decide, rfl, hrun, s', hb, hr rfl (Or.inl rfl)⟩

/-! ## C3: the convergence test reads every joint twice -/

/-- C3 (P4, tolerance AND), evaluated on the code where it departs from the
claim.  With every `getPos` call an independent read, `checkPos` tests the
first reading of a joint against the lower bound only and the second reading
against the upper bound only.  Here the left hip reads 253513 and then 213513
for the target 233513: neither reading is within POSCLEARANCE of the target,
the other three joints are on target, and yet `checkPos` returns 1 and the
sit-stand sequencer moves the index from 0 to 1. -/
theorem checkPos_passes_joint_outside_window :
    (checkPos [] splitReads 233513 235325 233513 235325).1 = 1 ∧
    ¬ (233513 - POSCLEARANCE < splitReads.lhip1 ∧
        splitReads.lhip1 < 233513 + POSCLEARANCE) ∧
    ¬ (233513 - POSCLEARANCE < splitReads.lhip2 ∧
        splitReads.lhip2 < 233513 + POSCLEARANCE) ∧
    sitStandAdvanceCheck demoSitStand
        { idleIn with fwd := splitReads }
        { sitstate := 0, movestate := STATESITTING, sent := [] } =
      some { sitstate := 1, movestate := STATEIMMOBILE,
             sent := [Call.getPos 1, Call.getPos 1, Call.getPos 3, Call.getPos 3,
                      Call.getPos 2, Call.getPos 2, Call.getPos 4, Call.getPos 4] } := by
  decide

/-! ## C4: one move in flight at a time -/

/-- C4 (P3, single-flight).  In `sitStand` and in `walkMode` a motion branch only
appends to the log of the link, and what it appends holds a `setAbsPosSmart`
burst only if the branch is the start branch of a pressed button and was
entered with `movestate` equal to STATEIMMOBILE.  Entered with any other
`movestate`, a start branch issues no command and changes nothing, whatever
the buttons read.  The abort branch issues no `setAbsPosSmart` either.  So in
an iteration entered with a move in flight whose `movestate` is the same after
the four motion branches (the move has not converged), the index is unchanged
and no `setAbsPosSmart` has been issued, whatever the buttons read. -/
theorem moves_start_from_idle (c : SitStandCfg) (w : WalkCfg) (i : PollIn) (k : Branch) :
    (∀ s s', sitStandBranch c i k s = some s' →
      ∃ q, s'.sent = s.sent ++ q ∧
        ((∃ x ∈ q, x.isMove = true) →
          s.movestate = STATEIMMOBILE ∧
          ((k = Branch.advanceStart ∧ i.button1Status = 0) ∨
            (k = Branch.retreatStart ∧ i.button2Status = 0))) ∧
        (s.movestate ≠ STATEIMMOBILE →
          (k = Branch.advanceStart ∨ k = Branch.retreatStart) → s' = s)) ∧
    (∀ s sent', sitStandAbort i s = some sent' →
      ∃ q, sent' = s.sent ++ q ∧ ∀ x ∈ q, x.isMove = false) ∧
    (∀ s s', s.movestate ≠ STATEIMMOBILE → sitStandBody c i s = some s' →
      s'.movestate = s.movestate →
      s'.sitstate = s.sitstate ∧
        ∃ q, s'.sent = s.sent ++ q ∧ ∀ x ∈ q, x.isMove = false) ∧
    (∀ t t', walkModeBranch w i k t = some t' →
      ∃ q, t'.sent = t.sent ++ q ∧
        ((∃ x ∈ q, x.isMove = true) →
          t.movestate = STATEIMMOBILE ∧
          ((k = Branch.advanceStart ∧ i.button1Status = 0) ∨
            (k = Branch.retreatStart ∧ i.button2Status = 0))) ∧
        (t.movestate ≠ STATEIMMOBILE →
          (k = Branch.advanceStart ∨ k = Branch.retreatStart) → t' = t)) ∧
    (∀ t sent', walkModeAbort i t = some sent' →
      ∃ q, sent' = t.sent ++ q ∧ ∀ x ∈ q, x.isMove = false) ∧
    (∀ t t', t.movestate ≠ STATEIMMOBILE → walkModeBody w i t = some t' →
      t'.movestate = t.movestate →
      t'.walkstate = t.walkstate ∧
        ∃ q, t'.sent = t.sent ++ q ∧ ∀ x ∈ q, x.isMove = false) :=
  ⟨fun s s' h => sitStandBranch_sent c i k s s' h,
   fun s sent' h => sitStandAbort_sent i s sent' h,
   fun s s' hm hb he => sitStandBody_in_flight c i s s' hm hb he,
   fun t t' h => walkModeBranch_sent w i k t t' h,
   fun t sent' h => walkModeAbort_sent i t sent' h,
   fun t t' hm hb he => walkModeBody_in_flight w i t t' hm hb he⟩

/-- C4 at a concrete step: from the entry state of `sitStand` (idle) the advance
branch with the advance button pressed issues its four bursts, and the theorem
ties their presence in the log to the branch having been entered idle. -/
theorem moves_start_from_idle_witness :
    sitStandBranch demoSitStand pressAdvance Branch.advanceStart
        (sitStandInit demoSitStand []) =
      some { sitstate := -1, movestate := STATESITTING,
             sent := [Call.setAbsPosSmart 1 0, Call.setAbsPosSmart 2 0,
                      Call.setAbsPosSmart 3 0, Call.setAbsPosSmart 4 0] } ∧
    (sitStandInit demoSitStand []).movestate = STATEIMMOBILE := by
  have hb : sitStandBranch demoSitStand pressAdvance Branch.advanceStart
        (sitStandInit demoSitStand []) =
      some { sitstate := -1, movestate := STATESITTING,
             sent := [Call.setAbsPosSmart 1 0, Call.setAbsPosSmart 2 0,
                      Call.setAbsPosSmart 3 0, Call.setAbsPosSmart 4 0] } := by
    decide
  obtain ⟨q, hq, hm, -⟩ :=
    (moves_start_from_idle demoSitStand demoWalk pressAdvance Branch.advanceStart).1 _ _ hb
  have hq' : q = [Call.setAbsPosSmart 1 0, Call.setAbsPosSmart 2 0,
      Call.setAbsPosSmart 3 0, Call.setAbsPosSmart 4 0] := by
    simpa [sitStandInit] using hq.symm
  exact ⟨hb, (hm ⟨Call.setAbsPosSmart 1 0, by simp [hq'], rfl⟩).1⟩

/-! ## C5: abort ends the run with the joints in preop -/

/-- C5 (P6, abort terminates and quiesces).  In `sitStand` and in `walkMode`, for
every `movestate` and every index from -1 to `arrSize`, an iteration in which
button 3 reads pressed ends in `exit`, whatever button 4 reads: it does not go
on to another iteration and does not return.  The log of the link then ends
with the preop commands to nodes 1, 2, 3, 4 (LHIP, LKNEE, RHIP, RKNEE) in that
order, followed only by the closing of the socket; inputs of later iterations
are never read. -/
theorem abort_ends_in_preop (c : SitStandCfg) (w : WalkCfg) (i : PollIn)
    (rest : List PollIn) (h3 : i.button3Status = 0) :
    (∀ s, c.sized → -1 ≤ s.sitstate → s.sitstate ≤ c.arrSize →
      ∃ s', sitStandBody c i s = some s' ∧
        sitStandPoll c i s = some (Outcome.exited
          (s'.sent ++ [Call.preop 1, Call.preop 2, Call.preop 3, Call.preop 4,
            Call.canFeastDown])) ∧
        sitStandLoop c (i :: rest) s = sitStandPoll c i s) ∧
    (∀ s r, sitStandPoll c i s = some r → ∃ sent, r = Outcome.exited sent) ∧
    (∀ t, w.sized → -1 ≤ t.walkstate → t.walkstate ≤ w.arrSize →
      ∃ t', walkModeBody w i t = some t' ∧
        walkModePoll w i t = some (Outcome.exited
          (t'.sent ++ [Call.preop 1, Call.preop 2, Call.preop 3, Call.preop 4,
            Call.canFeastDown])) ∧
        walkModeLoop w (i :: rest) t = walkModePoll w i t) ∧
    (∀ t r, walkModePoll w i t = some r → ∃ sent, r = Outcome.exited sent) := by
  refine ⟨?_, ?_, ?_, ?_⟩
  · intro s hc h1 h2
    obtain ⟨s', hb, -, -⟩ := sitStandSeq_total c i hc branchOrder s h1 h2
    have hp : sitStandPoll c i s = some (Outcome.exited
        (s'.sent ++ [Call.preop 1, Call.preop 2, Call.preop 3, Call.preop 4,
          Call.canFeastDown])) := by
      simp [sitStandPoll, sitStandBody, hb, sitStandTail, sitStandAbort, h3, canFeastDown,
        stopExo, preop, LHIP, LKNEE, RHIP, RKNEE]
    refine ⟨s', hb, hp, ?_⟩
    simp only [sitStandLoop, hp]
  · intro s r h
    simp only [sitStandPoll, Option.map_eq_some'] at h
    obtain ⟨s', -, ht⟩ := h
    simp only [sitStandTail, sitStandAbort, h3, if_true] at ht
    exact ⟨_, ht.symm⟩
  · intro t hc h1 h2
    obtain ⟨t', hb, -, -⟩ := walkModeSeq_total w i hc branchOrder t h1 h2
    have hp : walkModePoll w i t = some (Outcome.exited
        (t'.sent ++ [Call.preop 1, Call.preop 2, Call.preop 3, Call.preop 4,
          Call.canFeastDown])) := by
      simp [walkModePoll, walkModeBody, hb, walkModeTail, walkModeAbort, h3, canFeastDown,
        stopExo, preop, LHIP, LKNEE, RHIP, RKNEE]
    refine ⟨t', hb, hp, ?_⟩
    simp only [walkModeLoop, hp]
  · intro t r h
    simp only [walkModePoll, Option.map_eq_some'] at h
    obtain ⟨t', -, ht⟩ := h
    simp only [walkModeTail, walkModeAbort, h3, if_true] at ht
    exact ⟨_, ht.symm⟩

/-- C5 at a concrete poll: `sitStand` at its entry state on the two-waypoint
trajectory, only the abort button pressed. -/
theorem abort_ends_in_preop_witness :
    pressAbort.button3Status = 0 ∧ demoSitStand.sized ∧
    ∃ s', sitStandBody demoSitStand pressAbort (sitStandInit demoSitStand []) = some s' ∧
      sitStandPoll demoSitStand pressAbort (sitStandInit demoSitStand []) =
        some (Outcome.exited
          (s'.sent ++ [Call.preop 1, Call.preop 2, Call.preop 3, Call.preop 4,
            Call.canFeastDown])) ∧
      sitStandLoop demoSitStand (pressAbort :: [pressExit]) (sitStandInit demoSitStand []) =
        sitStandPoll demoSitStand pressAbort (sitStandInit demoSitStand []) :=
  ⟨rfl, by decide,
    (abort_ends_in_preop demoSitStand demoWalk pressAbort [pressExit] rfl).1
      (sitStandInit demoSitStand []) (by decide) (by decide) (by decide)⟩

/-! ## C6: abort is tested after the motion branches -/

/-- C6 (P6, abort supremacy), refuted at a concrete poll.  `sitStand` is at its
entry state (index -1, idle) on the two-waypoint trajectory; the advance button
and the abort button both read pressed and the drives stand at waypoint 0.
The advance branch runs before the abort test: four `setAbsPosSmart` bursts are
issued, the move converges and the index becomes 0, and only then are the
preop commands sent and the process ended. -/
theorem abort_does_not_preempt_advance :
    abortAdvanceIn.button3Status = 0 ∧
    (sitStandInit demoSitStand []).sitstate = -1 ∧
    sitStandBody demoSitStand abortAdvanceIn (sitStandInit demoSitStand []) =
      some { sitstate := 0, movestate := STATEIMMOBILE,
             sent := [Call.setAbsPosSmart 1 0, Call.setAbsPosSmart 2 0,
                      Call.setAbsPosSmart 3 0, Call.setAbsPosSmart 4 0,
                      Call.getPos 1, Call.getPos 1, Call.getPos 3, Call.getPos 3,
                      Call.getPos 2, Call.getPos 2, Call.getPos 4, Call.getPos 4] } ∧
    sitStandPoll demoSitStand abortAdvanceIn (sitStandInit demoSitStand []) =
      some (Outcome.exited
            [Call.setAbsPosSmart 1 0, Call.setAbsPosSmart 2 0,
             Call.setAbsPosSmart 3 0, Call.setAbsPosSmart 4 0,
             Call.getPos 1, Call.getPos 1, Call.getPos 3, Call.getPos 3,
             Call.getPos 2, Call.getPos 2, Call.getPos 4, Call.getPos 4,
             Call.preop 1, Call.preop 2, Call.preop 3, Call.preop 4,
             Call.canFeastDown]) := by
  decide

/-- C6 as amended.  In `sitStand` and in `walkMode` an iteration in which
button 3 reads pressed first runs its four motion branches as in any other
iteration and then ends the process: its outcome is `exit` with the log left by
the motion branches followed by the four preop commands and the closing of the
socket.  If neither button 1 nor button 2 reads pressed in that iteration, the
motion branches issue no `setAbsPosSmart`; if `movestate` is also
STATEIMMOBILE they change nothing at all, index included. -/
theorem abort_follows_motion_branches (c : SitStandCfg) (w : WalkCfg) (i : PollIn)
    (h3 : i.button3Status = 0) :
    (∀ s, c.sized → -1 ≤ s.sitstate → s.sitstate ≤ c.arrSize →
      ∃ s', sitStandBody c i s = some s' ∧
        sitStandPoll c i s = some (Outcome.exited
          (s'.sent ++ [Call.preop 1, Call.preop 2, Call.preop 3, Call.preop 4,
            Call.canFeastDown])) ∧
        (i.button1Status ≠ 0 → i.button2Status ≠ 0 →
          (∃ q, s'.sent = s.sent ++ q ∧ ∀ x ∈ q, x.isMove = false) ∧
          (s.movestate = STATEIMMOBILE → s' = s))) ∧
    (∀ t, w.sized → -1 ≤ t.walkstate → t.walkstate ≤ w.arrSize →
      ∃ t', walkModeBody w i t = some t' ∧
        walkModePoll w i t = some (Outcome.exited
          (t'.sent ++ [Call.preop 1, Call.preop 2, Call.preop 3, Call.preop 4,
            Call.canFeastDown])) ∧
        (i.button1Status ≠ 0 → i.button2Status ≠ 0 →
          (∃ q, t'.sent = t.sent ++ q ∧ ∀ x ∈ q, x.isMove = false) ∧
          (t.movestate = STATEIMMOBILE → t' = t))) := by
  constructor
  · intro s hc hlo hhi
    obtain ⟨s', hb, -, -⟩ := sitStandSeq_total c i hc branchOrder s hlo hhi
    refine ⟨s', hb, sitStandPoll_abort c i s s' h3 hb, ?_⟩
    intro h1 h2
    refine ⟨sitStandSeq_quiet c i h1 h2 branchOrder s s' hb, ?_⟩
    intro hm
    have := sitStandBody_idle c i s h1 h2 hm
    rw [sitStandBody] at this
    rw [hb] at this
    exact Option.some.inj this
  · intro t hc hlo hhi
    obtain ⟨t', hb, -, -⟩ := walkModeSeq_total w i hc branchOrder t hlo hhi
    refine ⟨t', hb, walkModePoll_abort w i t t' h3 hb, ?_⟩
    intro h1 h2
    refine ⟨walkModeSeq_quiet w i h1 h2 branchOrder t t' hb, ?_⟩
    intro hm
    have := walkModeBody_idle w i t h1 h2 hm
    rw [walkModeBody] at this
    rw [hb] at this
    exact Option.some.inj this

/-- C6 as amended, at a concrete poll: `walkMode` at its entry state on the
three-waypoint trajectory, the advance and abort buttons both pressed. -/
theorem abort_follows_motion_branches_witness :
    abortAdvanceIn.button3Status = 0 ∧ demoWalk.sized ∧
    ∃ t', walkModeBody demoWalk abortAdvanceIn (walkModeInit []) = some t' ∧
      walkModePoll demoWalk abortAdvanceIn (walkModeInit []) =
        some (Outcome.exited
          (t'.sent ++ [Call.preop 1, Call.preop 2, Call.preop 3, Call.preop 4,
            Call.canFeastDown])) ∧
      (abortAdvanceIn.button1Status ≠ 0 → abortAdvanceIn.button2Status ≠ 0 →
        (∃ q, t'.sent = (walkModeInit []).sent ++ q ∧ ∀ x ∈ q, x.isMove = false) ∧
        ((walkModeInit []).movestate = STATEIMMOBILE → t' = walkModeInit [])) :=
  ⟨rfl, by decide,
    (abort_follows_motion_branches demoSitStand demoWalk abortAdvanceIn rfl).2
      (walkModeInit []) (by decide) (by decide) (by decide)⟩

/-! ## C7: starting an advance in sitStand -/

/-- C7 (Idle to Advancing).  In the advance branch of `sitStand` (lines 227-235),
entered with an index of at least -1: if button 1 reads pressed, `movestate` is
STATEIMMOBILE and `sitstate < arrSize - 1`, then waypoint `sitstate + 1` exists
in both arrays, `movestate` becomes STATESITTING, the index is unchanged and
exactly four `setAbsPosSmart` bursts are appended to the log, to LHIP, LKNEE,
RHIP, RKNEE in that order, the hips with `sitStandArrayHip[sitstate + 1]` and
the knees with `sitStandArrayKnee[sitstate + 1]`.  If one of the three
conditions is false the branch issues no command and changes nothing. -/
theorem sitStand_advance_start (c : SitStandCfg) (i : PollIn) (s : SitStandState) :
    (i.button1Status = 0 ∧ s.movestate = STATEIMMOBILE ∧ s.sitstate < c.arrSize - 1 →
      c.sized → -1 ≤ s.sitstate →
      ∃ hip knee, arrAt c.sitStandArrayHip (s.sitstate + 1) = some hip ∧
        arrAt c.sitStandArrayKnee (s.sitstate + 1) = some knee ∧
        sitStandAdvanceStart c i s =
          some { sitstate := s.sitstate, movestate := STATESITTING,
                 sent := s.sent ++ [Call.setAbsPosSmart LHIP hip,
                   Call.setAbsPosSmart LKNEE knee, Call.setAbsPosSmart RHIP hip,
                   Call.setAbsPosSmart RKNEE knee] }) ∧
    (¬ (i.button1Status = 0 ∧ s.movestate = STATEIMMOBILE ∧ s.sitstate < c.arrSize - 1) →
      sitStandAdvanceStart c i s = some s) := by
  constructor
  · intro hg hc hlo
    have hsz : c.arrSize = c.sitStandArrayHip.length := rfl
    have hkn : (c.sitStandArrayKnee.length : Int) = c.sitStandArrayHip.length := by
      rw [hc]
    obtain ⟨hip, hh⟩ := arrAt_isSome c.sitStandArrayHip (s.sitstate + 1) (by omega) (by omega)
    obtain ⟨knee, hk⟩ := arrAt_isSome c.sitStandArrayKnee (s.sitstate + 1) (by omega) (by omega)
    refine ⟨hip, knee, hh, hk, ?_⟩
    simp only [sitStandAdvanceStart, if_pos hg, hh, hk, Option.some_bind, setAbsPosSmart,
      List.append_assoc]
    rfl
  · intro hg
    simp only [sitStandAdvanceStart, if_neg hg]

/-- C7 at a concrete state: the entry state of `sitStand` entered with STANDING
(index -1, idle), advance button pressed. -/
theorem sitStand_advance_start_witness :
    (pressAdvance.button1Status = 0 ∧
      (sitStandInit demoSitStand []).movestate = STATEIMMOBILE ∧
      (sitStandInit demoSitStand []).sitstate < demoSitStand.arrSize - 1) ∧
    ∃ hip knee,
      arrAt demoSitStand.sitStandArrayHip ((sitStandInit demoSitStand []).sitstate + 1) =
        some hip ∧
      arrAt demoSitStand.sitStandArrayKnee ((sitStandInit demoSitStand []).sitstate + 1) =
        some knee ∧
      sitStandAdvanceStart demoSitStand pressAdvance (sitStandInit demoSitStand []) =
        some { sitstate := (sitStandInit demoSitStand []).sitstate,
               movestate := STATESITTING,
               sent := (sitStandInit demoSitStand []).sent ++
                 [Call.setAbsPosSmart LHIP hip, Call.setAbsPosSmart LKNEE knee,
                  Call.setAbsPosSmart RHIP hip, Call.setAbsPosSmart RKNEE knee] } :=
  ⟨by decide,
    (sitStand_advance_start demoSitStand pressAdvance (sitStandInit demoSitStand [])).1
      (by decide) (by decide) (by decide)⟩

/-! ## C8: starting a retreat in sitStand -/

/-- C8 (Idle to Retreating).  In the retreat branch of `sitStand` (lines 251-259),
entered with an index of at most `arrSize`: if button 2 reads pressed,
`movestate` is STATEIMMOBILE when the branch is evaluated and `sitstate > 0`,
then waypoint `sitstate - 1` exists in both arrays, `movestate` becomes
STATESTANDING, the index is unchanged and exactly four `setAbsPosSmart` bursts
are appended to the log, to LHIP, LKNEE, RHIP, RKNEE in that order, the hips
with `sitStandArrayHip[sitstate - 1]` and the knees with
`sitStandArrayKnee[sitstate - 1]`.  Otherwise the branch issues no command and
changes nothing. -/
theorem sitStand_retreat_start (c : SitStandCfg) (i : PollIn) (s : SitStandState) :
    (i.button2Status = 0 ∧ s.movestate = STATEIMMOBILE ∧ s.sitstate > 0 →
      c.sized → s.sitstate ≤ c.arrSize →
      ∃ hip knee, arrAt c.sitStandArrayHip (s.sitstate - 1) = some hip ∧
        arrAt c.sitStandArrayKnee (s.sitstate - 1) = some knee ∧
        sitStandRetreatStart c i s =
          some { sitstate := s.sitstate, movestate := STATESTANDING,
                 sent := s.sent ++ [Call.setAbsPosSmart LHIP hip,
                   Call.setAbsPosSmart LKNEE knee, Call.setAbsPosSmart RHIP hip,
                   Call.setAbsPosSmart RKNEE knee] }) ∧
    (¬ (i.button2Status = 0 ∧ s.movestate = STATEIMMOBILE ∧ s.sitstate > 0) →
      sitStandRetreatStart c i s = some s) := by
  constructor
  · intro hg hc hhi
    have hsz : c.arrSize = c.sitStandArrayHip.length := rfl
    have hkn : (c.sitStandArrayKnee.length : Int) = c.sitStandArrayHip.length := by
      rw [hc]
    obtain ⟨hip, hh⟩ := arrAt_isSome c.sitStandArrayHip (s.sitstate - 1) (by omega) (by omega)
    obtain ⟨knee, hk⟩ := arrAt_isSome c.sitStandArrayKnee (s.sitstate - 1) (by omega) (by omega)
    refine ⟨hip, knee, hh, hk, ?_⟩
    simp only [sitStandRetreatStart, if_pos hg, hh, hk, Option.some_bind, setAbsPosSmart,
      List.append_assoc]
    rfl
  · intro hg
    simp only [sitStandRetreatStart, if_neg hg]

/-- C8 at a concrete state: at rest on the last waypoint of the two-waypoint
trajectory, retreat button pressed. -/
theorem sitStand_retreat_start_witness :
    (pressRetreat.button2Status = 0 ∧ demoAtOne.movestate = STATEIMMOBILE ∧
      demoAtOne.sitstate > 0) ∧
    ∃ hip knee,
      arrAt demoSitStand.sitStandArrayHip (demoAtOne.sitstate - 1) = some hip ∧
      arrAt demoSitStand.sitStandArrayKnee (demoAtOne.sitstate - 1) = some knee ∧
      sitStandRetreatStart demoSitStand pressRetreat demoAtOne =
        some { sitstate := demoAtOne.sitstate, movestate := STATESTANDING,
               sent := demoAtOne.sent ++
                 [Call.setAbsPosSmart LHIP hip, Call.setAbsPosSmart LKNEE knee,
                  Call.setAbsPosSmart RHIP hip, Call.setAbsPosSmart RKNEE knee] } :=
  ⟨by decide,
    (sitStand_retreat_start demoSitStand pressRetreat demoAtOne).1
      (by decide) (by decide) (by decide)⟩

/-! ## C9: leaving sitStand through the confirm-exit button -/

/-- C9 (exit condition).  An iteration of `sitStand` returns only if button 4
reads pressed and the index left by the motion branches is the extreme
opposite to the declared start: `arrSize - 1` when `initState` is STANDING, 0
when it is SITTING.  The motion branches never read button 4.  When the index
they leave is not that extreme, what button 4 reads makes no difference to the
iteration, and (button 3 not pressed) the loop goes on with exactly the state
the motion branches left: index, `movestate` and log as they were. -/
theorem sitStand_exit_condition (c : SitStandCfg) (i : PollIn) (s : SitStandState) :
    (∀ s', sitStandPoll c i s = some (Outcome.returned s') →
      sitStandBody c i s = some s' ∧ i.button4Status = 0 ∧
      ((s'.sitstate = c.arrSize - 1 ∧ c.initState = STANDING) ∨
        (s'.sitstate = 0 ∧ c.initState = SITTING))) ∧
    (∀ b4, sitStandBody c { i with button4Status := b4 } s = sitStandBody c i s) ∧
    (c.sized → -1 ≤ s.sitstate → s.sitstate ≤ c.arrSize →
      ∃ s', sitStandBody c i s = some s' ∧
        (¬ ((s'.sitstate = c.arrSize - 1 ∧ c.initState = STANDING) ∨
            (s'.sitstate = 0 ∧ c.initState = SITTING)) →
          (∀ b4, sitStandPoll c { i with button4Status := b4 } s = sitStandPoll c i s) ∧
          (i.button3Status ≠ 0 → sitStandPoll c i s = some (Outcome.next s')))) := by
  refine ⟨?_, fun _ => rfl, ?_⟩
  · intro s' h
    simp only [sitStandPoll, Option.map_eq_some'] at h
    obtain ⟨s1, hb, ht⟩ := h
    have hs : s' = s1 := sitStandTail_state c i s1 s' (Or.inr ht)
    subst hs
    refine ⟨hb, ?_⟩
    unfold sitStandTail at ht
    split at ht
    · simp at ht
    · split_ifs at ht with he
      simpa [sitStandExit] using he
  · intro hc hlo hhi
    obtain ⟨s', hb, -, -⟩ := sitStandSeq_total c i hc branchOrder s hlo hhi
    have hb0 : sitStandBody c i s = some s' := hb
    refine ⟨s', hb0, ?_⟩
    intro hne
    have hb' : ∀ b4, sitStandBody c { i with button4Status := b4 } s = some s' :=
      fun _ => hb0
    have hx : ∀ j : PollIn, sitStandExit c j s' = false := by
      intro j
      simp only [sitStandExit, decide_eq_false_iff_not]
      exact fun h => hne h.2
    constructor
    · intro b4
      simp only [sitStandPoll, hb' b4, hb0, Option.map_some', sitStandTail, hx, sitStandAbort]
    · intro h3
      simp [sitStandPoll, hb0, sitStandTail, sitStandAbort, h3, hx]

/-- C9 at two concrete polls of `sitStand` entered with STANDING on the
two-waypoint trajectory, confirm-exit pressed: at rest on the last waypoint the
function returns; at rest on waypoint 0 the loop goes on with the state
unchanged. -/
theorem sitStand_exit_condition_witness :
    (sitStandPoll demoSitStand pressExit demoAtOne = some (Outcome.returned demoAtOne) ∧
      sitStandBody demoSitStand pressExit demoAtOne = some demoAtOne ∧
      pressExit.button4Status = 0 ∧
      ((demoAtOne.sitstate = demoSitStand.arrSize - 1 ∧ demoSitStand.initState = STANDING) ∨
        (demoAtOne.sitstate = 0 ∧ demoSitStand.initState = SITTING))) ∧
    sitStandPoll demoSitStand pressExit demoAtZero = some (Outcome.next demoAtZero) := by
  have h1 : sitStandPoll demoSitStand pressExit demoAtOne =
      some (Outcome.returned demoAtOne) := by decide
  refine ⟨⟨h1, (sitStand_exit_condition demoSitStand pressExit demoAtOne).1 _ h1⟩, ?_⟩
  obtain ⟨s', hb, h⟩ := (sitStand_exit_condition demoSitStand pressExit demoAtZero).2.2
    (by decide) (by decide) (by decide)
  have hs : s' = demoAtZero := by
    have : sitStandBody demoSitStand pressExit demoAtZero = some demoAtZero := by decide
    rw [this] at hb
    exact (Option.some.inj hb).symm
  subst hs
  exact (h (by decide)).2 (by decide)

/-! ## C10: a normal exit can leave a move in flight -/

/-- C10 (normal exit only from Idle), refuted by a concrete run.  `sitStand` is
entered with STANDING on the two-waypoint trajectory.  The first iteration
advances to waypoint 0.  In the second the advance converges on waypoint 1 (the
last index), the retreat button then starts a move back to waypoint 0, which
does not converge, and the confirm-exit button ends the loop: `sitStand`
returns with `movestate` equal to STATESTANDING, not STATEIMMOBILE, after the
four retreat bursts have been issued. -/
theorem sitStand_returns_while_retreating :
    sitStand demoSitStand [] exitInFlightIns =
      some (Outcome.returned
        { sitstate := 1, movestate := STATESTANDING,
          sent := [Call.setAbsPosSmart 1 0, Call.setAbsPosSmart 2 0,
                   Call.setAbsPosSmart 3 0, Call.setAbsPosSmart 4 0,
                   Call.getPos 1, Call.getPos 1, Call.getPos 3, Call.getPos 3,
                   Call.getPos 2, Call.getPos 2, Call.getPos 4, Call.getPos 4,
                   Call.setAbsPosSmart 1 233513, Call.setAbsPosSmart 2 235325,
                   Call.setAbsPosSmart 3 233513, Call.setAbsPosSmart 4 235325,
                   Call.getPos 1, Call.getPos 1, Call.getPos 3, Call.getPos 3,
                   Call.getPos 2, Call.getPos 2, Call.getPos 4, Call.getPos 4,
                   Call.setAbsPosSmart 1 0, Call.setAbsPosSmart 2 0,
                   Call.setAbsPosSmart 3 0, Call.setAbsPosSmart 4 0,
                   Call.getPos 1, Call.getPos 1] }) ∧
    STATESTANDING ≠ STATEIMMOBILE := by
  decide

/-- C10 as amended.  Whenever `sitStand` or `walkMode` leaves its loop through
the confirm-exit button, the index is the exit extreme and `movestate` is
STATEIMMOBILE or the state of a move away from that extreme: for `sitStand`
entered with STANDING the index is `arrSize - 1` and `movestate` is
STATEIMMOBILE or STATESTANDING; entered with SITTING the index is 0 and
`movestate` is STATEIMMOBILE or STATESITTING; for `walkMode` the index is
`arrSize - 1` and `movestate` is STATEIMMOBILE or WALKINGBACK. -/
theorem exit_leaves_no_move_past_extreme (c : SitStandCfg) (w : WalkCfg)
    (sent : List Call) (ins : List PollIn) :
    (∀ s, sitStand c sent ins = some (Outcome.returned s) →
      (c.initState = STANDING ∧ s.sitstate = c.arrSize - 1 ∧
        (s.movestate = STATEIMMOBILE ∨ s.movestate = STATESTANDING)) ∨
      (c.initState = SITTING ∧ s.sitstate = 0 ∧
        (s.movestate = STATEIMMOBILE ∨ s.movestate = STATESITTING))) ∧
    (∀ t, walkMode w sent ins = some (Outcome.returned t) →
      t.walkstate = w.arrSize - 1 ∧
        (t.movestate = STATEIMMOBILE ∨ t.movestate = WALKINGBACK)) := by
  constructor
  · intro s h
    have hf := sitStandLoop_induct c
      (fun s => s.movestate = STATEIMMOBILE ∨
        (s.movestate = STATESITTING ∧ s.sitstate < c.arrSize - 1) ∨
        (s.movestate = STATESTANDING ∧ 0 < s.sitstate))
      (fun i k s s' hs hb => sitStandBranch_flight c i k s s' hs hb)
      ins (sitStandInit c sent) s (Or.inl rfl) (Or.inr h)
    obtain ⟨i, -, hx⟩ := sitStandLoop_returned c ins _ s h
    simp only [sitStandExit, decide_eq_true_eq] at hx
    simp only [STATEIMMOBILE, STATESITTING, STATESTANDING] at hf ⊢
    rcases hx.2 with ⟨e1, e2⟩ | ⟨e1, e2⟩
    · left
      refine ⟨e2, e1, ?_⟩
      omega
    · right
      refine ⟨e2, e1, ?_⟩
      omega
  · intro t h
    have hf := walkModeLoop_induct w
      (fun s => s.movestate = STATEIMMOBILE ∨
        (s.movestate = WALKINGFORWARD ∧ s.walkstate < w.arrSize - 1) ∨
        (s.movestate = WALKINGBACK ∧ 0 < s.walkstate))
      (fun i k s s' hs hb => walkModeBranch_flight w i k s s' hs hb)
      ins (walkModeInit sent) t (Or.inl rfl) (Or.inr h)
    obtain ⟨i, -, hx⟩ := walkModeLoop_returned w ins _ t h
    simp only [walkModeExit, decide_eq_true_eq] at hx
    simp only [STATEIMMOBILE, WALKINGFORWARD, WALKINGBACK] at hf ⊢
    refine ⟨hx.2, ?_⟩
    omega

/-- C10 as amended, at the concrete run that returns with the retreat in
flight: the theorem gives index `arrSize - 1` and a `movestate` that is
STATEIMMOBILE or STATESTANDING. -/
theorem exit_leaves_no_move_past_extreme_witness :
    (demoSitStand.initState = STANDING ∧ (1 : Int) = demoSitStand.arrSize - 1 ∧
      (STATESTANDING = STATEIMMOBILE ∨ STATESTANDING = STATESTANDING)) ∨
    (demoSitStand.initState = SITTING ∧ (1 : Int) = 0 ∧
      (STATESTANDING = STATEIMMOBILE ∨ STATESTANDING = STATESITTING)) :=
  (exit_leaves_no_move_past_extreme demoSitStand demoWalk [] exitInFlightIns).1
    { sitstate := 1, movestate := STATESTANDING,
      sent := [Call.setAbsPosSmart 1 0, Call.setAbsPosSmart 2 0,
               Call.setAbsPosSmart 3 0, Call.setAbsPosSmart 4 0,
               Call.getPos 1, Call.getPos 1, Call.getPos 3, Call.getPos 3,
               Call.getPos 2, Call.getPos 2, Call.getPos 4, Call.getPos 4,
               Call.setAbsPosSmart 1 233513, Call.setAbsPosSmart 2 235325,
               Call.setAbsPosSmart 3 233513, Call.setAbsPosSmart 4 235325,
               Call.getPos 1, Call.getPos 1, Call.getPos 3, Call.getPos 3,
               Call.getPos 2, Call.getPos 2, Call.getPos 4, Call.getPos 4,
               Call.setAbsPosSmart 1 0, Call.setAbsPosSmart 2 0,
               Call.setAbsPosSmart 3 0, Call.setAbsPosSmart 4 0,
               Call.getPos 1, Call.getPos 1] }
    (by decide)

/-! ## C11: advance is looked at before retreat -/

/-- C11 (tie-break).  In `sitStand` and in `walkMode`, take an iteration in which
buttons 1 and 2 both read pressed, entered with `movestate` STATEIMMOBILE and
`0 < index < arrSize - 1`.  The motion branches have a result; the first thing
they append to the log is the advance burst, four `setAbsPosSmart` calls to
LHIP, LKNEE, RHIP, RKNEE with the targets of waypoint index+1; and if the
`checkPos` against waypoint index+1 does not return 1 in this iteration,
nothing that follows in the log is a `setAbsPosSmart` (no retreat command),
the index is unchanged and `movestate` is the advancing state. -/
theorem advance_has_priority (c : SitStandCfg) (w : WalkCfg) (i : PollIn)
    (h1 : i.button1Status = 0) (_h2 : i.button2Status = 0) :
    (∀ s, c.sized → s.movestate = STATEIMMOBILE → 0 < s.sitstate →
      s.sitstate < c.arrSize - 1 →
      ∃ hip knee s', arrAt c.sitStandArrayHip (s.sitstate + 1) = some hip ∧
        arrAt c.sitStandArrayKnee (s.sitstate + 1) = some knee ∧
        sitStandBody c i s = some s' ∧
        ∃ rest, s'.sent = s.sent ++
            [Call.setAbsPosSmart LHIP hip, Call.setAbsPosSmart LKNEE knee,
             Call.setAbsPosSmart RHIP hip, Call.setAbsPosSmart RKNEE knee] ++ rest ∧
          ((checkPos s.sent i.fwd hip knee hip knee).1 ≠ 1 →
            s'.sitstate = s.sitstate ∧ s'.movestate = STATESITTING ∧
            ∀ x ∈ rest, x.isMove = false)) ∧
    (∀ t, w.sized → t.movestate = STATEIMMOBILE → 0 < t.walkstate →
      t.walkstate < w.arrSize - 1 →
      ∃ lhip lknee rhip rknee t', arrAt w.walkArrLHip (t.walkstate + 1) = some lhip ∧
        arrAt w.walkArrLKnee (t.walkstate + 1) = some lknee ∧
        arrAt w.walkArrRHip (t.walkstate + 1) = some rhip ∧
        arrAt w.walkArrRKnee (t.walkstate + 1) = some rknee ∧
        walkModeBody w i t = some t' ∧
        ∃ rest, t'.sent = t.sent ++
            [Call.setAbsPosSmart LHIP lhip, Call.setAbsPosSmart LKNEE lknee,
             Call.setAbsPosSmart RHIP rhip, Call.setAbsPosSmart RKNEE rknee] ++ rest ∧
          ((checkPos t.sent i.fwd lhip lknee rhip rknee).1 ≠ 1 →
            t'.walkstate = t.walkstate ∧ t'.movestate = WALKINGFORWARD ∧
            ∀ x ∈ rest, x.isMove = false)) :=
  ⟨fun s hc hm hlo hhi => sitStandBody_tie c i s hc h1 hm (by omega) hhi,
   fun t hc hm hlo hhi => walkModeBody_tie w i t hc h1 hm (by omega) hhi⟩

/-- C11 at a concrete poll: `walkMode` at rest on the middle waypoint of the
three-waypoint trajectory, both buttons pressed, drives at position 0. -/
theorem advance_has_priority_witness :
    pressBoth.button1Status = 0 ∧ pressBoth.button2Status = 0 ∧ demoWalk.sized ∧
    demoWalkAtOne.movestate = STATEIMMOBILE ∧ 0 < demoWalkAtOne.walkstate ∧
    demoWalkAtOne.walkstate < demoWalk.arrSize - 1 ∧
    ∃ lhip lknee rhip rknee t',
      arrAt demoWalk.walkArrLHip (demoWalkAtOne.walkstate + 1) = some lhip ∧
      arrAt demoWalk.walkArrLKnee (demoWalkAtOne.walkstate + 1) = some lknee ∧
      arrAt demoWalk.walkArrRHip (demoWalkAtOne.walkstate + 1) = some rhip ∧
      arrAt demoWalk.walkArrRKnee (demoWalkAtOne.walkstate + 1) = some rknee ∧
      walkModeBody demoWalk pressBoth demoWalkAtOne = some t' ∧
      ∃ rest, t'.sent = demoWalkAtOne.sent ++
          [Call.setAbsPosSmart LHIP lhip, Call.setAbsPosSmart LKNEE lknee,
           Call.setAbsPosSmart RHIP rhip, Call.setAbsPosSmart RKNEE rknee] ++ rest ∧
        ((checkPos demoWalkAtOne.sent pressBoth.fwd lhip lknee rhip rknee).1 ≠ 1 →
          t'.walkstate = demoWalkAtOne.walkstate ∧ t'.movestate = WALKINGFORWARD ∧
          ∀ x ∈ rest, x.isMove = false) :=
  ⟨rfl, rfl, by decide, rfl, by decide, by decide,
    (advance_has_priority demoSitStand demoWalk pressBoth rfl rfl).2 demoWalkAtOne
      (by decide) rfl (by decide) (by decide)⟩

/-! ## C12: the first move from the upper sentinel -/

/-- C12 (scenario), refuted on the code.  `sitStand` called with SITTING on the
two-waypoint trajectory (hip 180 and 96.23 degrees, knee 0 and 84.42 degrees)
starts with index 2.  An iteration in which the advance button reads pressed,
even with the drives standing on waypoint 1, issues no command and leaves the
index at 2: the advance guard `sitstate < arrSize - 1` is false. -/
theorem advance_is_blocked_at_upper_sentinel :
    sitStandTrajectory SITTING = some sittingCfg ∧
    sitStandInit sittingCfg [] =
      { sitstate := 2, movestate := STATEIMMOBILE, sent := [] } ∧
    sitStand sittingCfg [] [advanceAtWaypoint1] =
      some (Outcome.next { sitstate := 2, movestate := STATEIMMOBILE, sent := [] }) := by
  refine ⟨?_, by decide, by decide⟩
  simp only [sitStandTrajectory, motorPosArrayConverter, sitStandArrHip_degrees,
    sitStandArrKnee_degrees, calcAB, Dbl.ratio, toMotorPos, Dbl.mul, Dbl.add, Dbl.toLong,
    LHIP, LKNEE, HIP_MOTOR_POS1, HIP_MOTOR_DEG1, HIP_MOTOR_POS2, HIP_MOTOR_DEG2,
    KNEE_MOTOR_POS1, KNEE_MOTOR_DEG1, KNEE_MOTOR_POS2, KNEE_MOTOR_DEG2, List.map, sittingCfg]
  norm_num
  decide

/-- C12 as amended, evaluated on the code.  From the same start (index 2) it is
the retreat button that moves the exoskeleton: one iteration in which the
retreat button reads pressed issues four `setAbsPosSmart` bursts targeting
waypoint 1, hip 96.23 degrees converted to 233513 counts and knee 84.42 degrees
converted to 235325 counts, and with the drives converged on that target the
index becomes 1. -/
theorem retreat_leaves_upper_sentinel :
    sitStandTrajectory SITTING = some sittingCfg ∧
    motorPosArrayConverter sitStandArrHip_degrees LHIP = [some 0, some 233513] ∧
    motorPosArrayConverter sitStandArrKnee_degrees LKNEE = [some 0, some 235325] ∧
    sitStand sittingCfg [] [retreatAtWaypoint1] =
      some (Outcome.next
        { sitstate := 1, movestate := STATEIMMOBILE,
          sent := [Call.setAbsPosSmart 1 233513, Call.setAbsPosSmart 2 235325,
                   Call.setAbsPosSmart 3 233513, Call.setAbsPosSmart 4 235325,
                   Call.getPos 1, Call.getPos 1, Call.getPos 3, Call.getPos 3,
                   Call.getPos 2, Call.getPos 2, Call.getPos 4, Call.getPos 4] }) := by
  refine ⟨?_, ?_, ?_, by decide⟩
  · simp only [sitStandTrajectory, motorPosArrayConverter, sitStandArrHip_degrees,
      sitStandArrKnee_degrees, calcAB, Dbl.ratio, toMotorPos, Dbl.mul, Dbl.add, Dbl.toLong,
      LHIP, LKNEE, HIP_MOTOR_POS1, HIP_MOTOR_DEG1, HIP_MOTOR_POS2, HIP_MOTOR_DEG2,
      KNEE_MOTOR_POS1, KNEE_MOTOR_DEG1, KNEE_MOTOR_POS2, KNEE_MOTOR_DEG2, List.map,
      sittingCfg]
    norm_num
    decide
  · simp only [motorPosArrayConverter, sitStandArrHip_degrees, calcAB, Dbl.ratio,
      toMotorPos, Dbl.mul, Dbl.add, Dbl.toLong, LHIP, HIP_MOTOR_POS1, HIP_MOTOR_DEG1,
      HIP_MOTOR_POS2, HIP_MOTOR_DEG2, List.map]
    norm_num
    decide
  · simp only [motorPosArrayConverter, sitStandArrKnee_degrees, calcAB, Dbl.ratio,
      toMotorPos, Dbl.mul, Dbl.add, Dbl.toLong, LKNEE, KNEE_MOTOR_POS1, KNEE_MOTOR_DEG1,
      KNEE_MOTOR_POS2, KNEE_MOTOR_DEG2, List.map]
    norm_num
    decide

/-! ## C13: retreat is blocked at index 0 -/

/-- C13 (scenario).  In `sitStand` and in `walkMode`, for every state with
`movestate` STATEIMMOBILE and index 0, an iteration in which only button 2
reads pressed changes nothing: the motion branches return the state as it was
(same index, same `movestate`, same log, so no command was sent) and the loop
goes on with that state. -/
theorem retreat_blocked_at_zero (c : SitStandCfg) (w : WalkCfg) (i : PollIn)
    (h1 : i.button1Status ≠ 0) (_h2 : i.button2Status = 0)
    (h3 : i.button3Status ≠ 0) (h4 : i.button4Status ≠ 0) :
    (∀ s, s.movestate = STATEIMMOBILE → s.sitstate = 0 →
      sitStandBody c i s = some s ∧ sitStandPoll c i s = some (Outcome.next s)) ∧
    (∀ t, t.movestate = STATEIMMOBILE → t.walkstate = 0 →
      walkModeBody w i t = some t ∧ walkModePoll w i t = some (Outcome.next t)) := by
  constructor
  · intro s hm h0
    have hb : sitStandBody c i s = some s := by
      simp [sitStandBody, branchOrder, sitStandSeq, sitStandBranch, sitStandAdvanceStart,
        sitStandAdvanceCheck, sitStandRetreatStart, sitStandRetreatCheck, h1, hm, h0,
        STATEIMMOBILE, STATESITTING, STATESTANDING]
    refine ⟨hb, ?_⟩
    simp [sitStandPoll, hb, sitStandTail, sitStandAbort, sitStandExit, h3, h4]
  · intro t hm h0
    have hb : walkModeBody w i t = some t := by
      simp [walkModeBody, branchOrder, walkModeSeq, walkModeBranch, walkModeAdvanceStart,
        walkModeAdvanceCheck, walkModeRetreatStart, walkModeRetreatCheck, h1, hm, h0,
        STATEIMMOBILE, WALKINGFORWARD, WALKINGBACK]
    refine ⟨hb, ?_⟩
    simp [walkModePoll, hb, walkModeTail, walkModeAbort, walkModeExit, h3, h4]

/-- C13 at concrete states: at rest on waypoint 0 of the two-waypoint sit-stand
trajectory and of the three-waypoint walk trajectory, retreat button pressed. -/
theorem retreat_blocked_at_zero_witness :
    (pressRetreat.button1Status ≠ 0 ∧ pressRetreat.button2Status = 0 ∧
      pressRetreat.button3Status ≠ 0 ∧ pressRetreat.button4Status ≠ 0) ∧
    (sitStandBody demoSitStand pressRetreat demoAtZero = some demoAtZero ∧
      sitStandPoll demoSitStand pressRetreat demoAtZero = some (Outcome.next demoAtZero)) ∧
    (walkModeBody demoWalk pressRetreat demoWalkAtZero = some demoWalkAtZero ∧
      walkModePoll demoWalk pressRetreat demoWalkAtZero =
        some (Outcome.next demoWalkAtZero)) :=
  ⟨by decide,
    (retreat_blocked_at_zero demoSitStand demoWalk pressRetreat (by decide) rfl
      (by decide) (by decide)).1 demoAtZero rfl rfl,
    (retreat_blocked_at_zero demoSitStand demoWalk pressRetreat (by decide) rfl
      (by decide) (by decide)).2 demoWalkAtZero rfl rfl⟩

/-! ## C14: malformed position replies are not detected -/

/-- C14 (malformed replies), refuted at concrete replies.  The reply `[1]` has no
second token; `stringExtract` leaves its only token and `strToInt` makes 4355
of it.  The reply `[1] 0x1F` has a second token that is not a decimal integer;
`strToInt` makes 7232 of it.  Both numbers are within POSCLEARANCE of the
target 0, the raw position of waypoint 0 of the sit-stand trajectory: with
every query answered `[1]`, `checkPos` returns 1 against the targets 0 and
`sitStand`, entered with STANDING and the advance button pressed, moves the
index from -1 to 0. -/
theorem reply_without_value_converges :
    tokens replyNoValue = [replyNoValue] ∧
    positionOf replyNoValue = some 4355 ∧
    tokens replyHex = [['[', '1', ']'], ['0', 'x', '1', 'F']] ∧
    positionOf replyHex = some 7232 ∧
    (Replies.all replyNoValue).reads = some (readsAt 4355 4355 4355 4355) ∧
    (checkPos [] (readsAt 4355 4355 4355 4355) 0 0 0 0).1 = 1 ∧
    (checkPos [] (readsAt 7232 7232 7232 7232) 0 0 0 0).1 = 1 ∧
    (sitStandInit demoSitStand []).sitstate = -1 ∧
    sitStand demoSitStand [] [advanceNoValue] =
      some (Outcome.next
        { sitstate := 0, movestate := STATEIMMOBILE,
          sent := [Call.setAbsPosSmart 1 0, Call.setAbsPosSmart 2 0,
                   Call.setAbsPosSmart 3 0, Call.setAbsPosSmart 4 0,
                   Call.getPos 1, Call.getPos 1, Call.getPos 3, Call.getPos 3,
                   Call.getPos 2, Call.getPos 2, Call.getPos 4, Call.getPos 4] }) := by
  decide

/-- C14 as amended.  `getPos` has no failed query: for a reply with at least
two tokens it returns `strToInt` of the second token, for a reply with one
token `strToInt` of that token, whatever their characters are (only a reply
without any token leaves the result undefined).  `checkPos` compares the
numbers so obtained like any position: it returns 1 exactly when each of them
passes the bound test it is used in, and 0 otherwise.  So a malformed reply
counts as not converged only when its number fails its test, as for the reply
`[1] ERROR`, read as 247744, against the target 0. -/
theorem malformed_reply_is_compared (sent : List Call) (p : Replies) (r : Reads)
    (a b c d : Int) :
    (∀ reply t1 t2 rest, tokens reply = t1 :: t2 :: rest →
      positionOf reply = some (strToInt t2)) ∧
    (∀ reply t1, tokens reply = [t1] → positionOf reply = some (strToInt t1)) ∧
    (∀ reply, tokens reply = [] → positionOf reply = none) ∧
    (p.reads = some r →
      ((checkPos sent r a b c d).1 = 1 ↔
        (a - POSCLEARANCE < r.lhip1 ∧ r.lhip2 < a + POSCLEARANCE ∧
         c - POSCLEARANCE < r.rhip1 ∧ r.rhip2 < c + POSCLEARANCE ∧
         b - POSCLEARANCE < r.lknee1 ∧ r.lknee2 < b + POSCLEARANCE ∧
         d - POSCLEARANCE < r.rknee1 ∧ r.rknee2 < d + POSCLEARANCE)) ∧
      ((checkPos sent r a b c d).1 = 0 ↔
        ¬ (a - POSCLEARANCE < r.lhip1 ∧ r.lhip2 < a + POSCLEARANCE ∧
           c - POSCLEARANCE < r.rhip1 ∧ r.rhip2 < c + POSCLEARANCE ∧
           b - POSCLEARANCE < r.lknee1 ∧ r.lknee2 < b + POSCLEARANCE ∧
           d - POSCLEARANCE < r.rknee1 ∧ r.rknee2 < d + POSCLEARANCE))) ∧
    positionOf replyError = some 247744 ∧
    (checkPos sent (readsAt 247744 247744 247744 247744) 0 0 0 0).1 = 0 := by
  refine ⟨?_, ?_, ?_, ?_, by decide, ?_⟩
  · intro reply t1 t2 rest h
    have h0 : stringExtractLoop rest 0 (some t2) = some t2 := by cases rest <;> rfl
    simp [positionOf, stringExtract, h, stringExtractLoop, h0]
  · intro reply t1 h
    simp [positionOf, stringExtract, h, stringExtractLoop]
  · intro reply h
    simp [positionOf, stringExtract, h, stringExtractLoop]
  · intro _
    rw [checkPos_fst]
    constructor
    · split_ifs with hw
      · simp [hw]
      · simp [hw]
    · split_ifs with hw
      · simp [hw]
      · simp [hw]
  · rw [checkPos_fst]
    decide

/-- C14 as amended, at concrete replies: the eight well-formed replies
`[1] 233513` are read as the position 233513, and the theorem gives the window
tests that decide `checkPos` against hip target 233513 and knee target
235325. -/
theorem malformed_reply_is_compared_witness :
    (Replies.all replyGood).reads = some (readsAt 233513 233513 233513 233513) ∧
    ((checkPos [] (readsAt 233513 233513 233513 233513) 233513 235325 233513 235325).1 = 1 ↔
      (233513 - POSCLEARANCE < (readsAt 233513 233513 233513 233513).lhip1 ∧
       (readsAt 233513 233513 233513 233513).lhip2 < 233513 + POSCLEARANCE ∧
       233513 - POSCLEARANCE < (readsAt 233513 233513 233513 233513).rhip1 ∧
       (readsAt 233513 233513 233513 233513).rhip2 < 233513 + POSCLEARANCE ∧
       235325 - POSCLEARANCE < (readsAt 233513 233513 233513 233513).lknee1 ∧
       (readsAt 233513 233513 233513 233513).lknee2 < 235325 + POSCLEARANCE ∧
       235325 - POSCLEARANCE < (readsAt 233513 233513 233513 233513).rknee1 ∧
       (readsAt 233513 233513 233513 233513).rknee2 < 235325 + POSCLEARANCE)) :=
  ⟨by decide,
    ((malformed_reply_is_compared [] (Replies.all replyGood)
      (readsAt 233513 233513 233513 233513) 233513 235325 233513 235325).2.2.2.1
      (by decide)).1⟩

/-! ## C15: the calibration reproduces its reference points -/

/-- C15 (P5, calibration round-trip).  Over exact rational arithmetic, for every
pair of reference points (`y1` at `x1`) and (`y2` at `x2`) with `x1 ≠ x2`,
`calcAB` returns finite coefficients A and B with `A * x1 + B = y1` and
`A * x2 + B = y2`.  For the configured constants `motorPosArrayConverter` maps
the hip angles 90 and 180 to the raw positions 250880 and 0 (nodes 1 and 3) and
the knee angles 90 and 0 to 250880 and 0 (nodes 2 and 4). -/
theorem calcAB_round_trip (y1 x1 y2 x2 : Int) (h : x1 ≠ x2) :
    (∃ A B : ℚ, calcAB y1 x1 y2 x2 = (Dbl.finite A, Dbl.finite B) ∧
      A * x1 + B = y1 ∧ A * x2 + B = y2) ∧
    motorPosArrayConverter [90, 180] LHIP = [some 250880, some 0] ∧
    motorPosArrayConverter [90, 180] RHIP = [some 250880, some 0] ∧
    motorPosArrayConverter [90, 0] LKNEE = [some 250880, some 0] ∧
    motorPosArrayConverter [90, 0] RKNEE = [some 250880, some 0] := by
  have hd : x2 - x1 ≠ 0 := fun e => h (by omega)
  have hq : ((x2 : ℚ) - (x1 : ℚ)) ≠ 0 := by
    intro e
    apply hd
    have : ((x2 - x1 : Int) : ℚ) = 0 := by push_cast; exact e
    exact_mod_cast this
  refine ⟨⟨((y2 - y1 : Int) : ℚ) / ((x2 - x1 : Int) : ℚ),
    ((y1 * x2 - y2 * x1 : Int) : ℚ) / ((x2 - x1 : Int) : ℚ), ?_, ?_, ?_⟩, ?_, ?_, ?_, ?_⟩
  · simp only [calcAB, Dbl.ratio, if_neg hd]
  · push_cast
    field_simp
    ring
  · push_cast
    field_simp
    ring
  all_goals
    simp only [motorPosArrayConverter, calcAB, Dbl.ratio, toMotorPos, Dbl.mul, Dbl.add,
      Dbl.toLong, LHIP, RHIP, LKNEE, RKNEE, HIP_MOTOR_POS1, HIP_MOTOR_DEG1, HIP_MOTOR_POS2,
      HIP_MOTOR_DEG2, KNEE_MOTOR_POS1, KNEE_MOTOR_DEG1, KNEE_MOTOR_POS2, KNEE_MOTOR_DEG2,
      List.map]
    norm_num

/-- C15 at the configured hip reference points: 250880 at 90 degrees and 0 at
180 degrees. -/
theorem calcAB_round_trip_witness :
    (90 : Int) ≠ 180 ∧
    ∃ A B : ℚ, calcAB 250880 90 0 180 = (Dbl.finite A, Dbl.finite B) ∧
      A * ((90 : Int) : ℚ) + B = ((250880 : Int) : ℚ) ∧
      A * ((180 : Int) : ℚ) + B = ((0 : Int) : ℚ) :=
  ⟨by decide, (calcAB_round_trip 250880 90 0 180 (by decide)).1⟩

/-! ## C16: equal reference angles are not detected -/

/-- C16 (calibration error), refuted at a concrete input.  With both reference
angles equal to 90, `calcAB` does not fail: it returns, with two non-finite
coefficients, and the conversion of an angle with them has no defined
result. -/
theorem calcAB_returns_on_equal_angles :
    calcAB 250880 90 0 90 = (Dbl.nonFinite, Dbl.nonFinite) ∧
    toMotorPos (calcAB 250880 90 0 90).1 (calcAB 250880 90 0 90).2 90 = none := by
  decide

/-- C16 as amended.  `calcAB` has no failure path.  Whenever the two reference
angles are equal it divides by `x2 - x1 = 0` in double arithmetic and returns
two non-finite coefficients, with which the cast to `long` of any converted
angle has no defined result; whenever they differ the coefficients are finite.
The configured reference angles are distinct, hip 90 and 180, knee 90 and 0, so
the denominator `x2 - x1` is nonzero (90 and -90) for both joint classes. -/
theorem calcAB_without_guard (y1 y2 x : Int) (angle : ℚ) :
    calcAB y1 x y2 x = (Dbl.nonFinite, Dbl.nonFinite) ∧
    toMotorPos (calcAB y1 x y2 x).1 (calcAB y1 x y2 x).2 angle = none ∧
    (∀ x1 x2 : Int, x1 ≠ x2 →
      ∃ A B : ℚ, calcAB y1 x1 y2 x2 = (Dbl.finite A, Dbl.finite B)) ∧
    HIP_MOTOR_DEG1 ≠ HIP_MOTOR_DEG2 ∧ HIP_MOTOR_DEG2 - HIP_MOTOR_DEG1 = 90 ∧
    KNEE_MOTOR_DEG1 ≠ KNEE_MOTOR_DEG2 ∧ KNEE_MOTOR_DEG2 - KNEE_MOTOR_DEG1 = -90 := by
  have e : calcAB y1 x y2 x = (Dbl.nonFinite, Dbl.nonFinite) := by
    simp [calcAB, Dbl.ratio]
  refine ⟨e, ?_, ?_, by decide, by decide, by decide, by decide⟩
  · rw [e]
    rfl
  · intro x1 x2 h
    have hd : x2 - x1 ≠ 0 := fun e => h (by omega)
    exact ⟨_, _, by simp only [calcAB, Dbl.ratio, if_neg hd]; rfl⟩

/-! ## C17: walkMode runs the state machine of sitStand -/

/-- C17 (refinement).  For every trajectory, index, `movestate`, button readings
and position readings, the four motion branches of one iteration of `walkMode`
give, with WALKINGFORWARD and WALKINGBACK read as STATESITTING and
STATESTANDING, the same result as the loop body of `sitStand` run on the four
per-joint arrays: same new index, same new `movestate`, same log of calls (and
no result on either side when an array is read out of bounds).  When the
right-side arrays equal the left-side ones this is the loop body of `sitStand`
itself on the hip and knee arrays, whatever `initState`.  The abort branch is
the same too, and so is the entry state of `sitStand` called with STANDING.
Only the exit test differs: that of `walkMode` is the test of `sitStand`
called with STANDING, while `sitStand` called with SITTING leaves at index 0. -/
theorem walkMode_refines_sitStand (w : WalkCfg) (i : PollIn) (t : WalkState)
    (initState : Int) (sent : List Call) :
    (walkModeBody w i t).map asSitStand = sitStandFourBody w i (asSitStand t) ∧
    (w.walkArrRHip = w.walkArrLHip → w.walkArrRKnee = w.walkArrLKnee →
      (walkModeBody w i t).map asSitStand =
        sitStandBody { sitStandArrayHip := w.walkArrLHip,
                       sitStandArrayKnee := w.walkArrLKnee,
                       initState := initState } i (asSitStand t)) ∧
    walkModeAbort i t = sitStandAbort i (asSitStand t) ∧
    asSitStand (walkModeInit sent) =
      sitStandInit { sitStandArrayHip := w.walkArrLHip,
                     sitStandArrayKnee := w.walkArrLKnee, initState := STANDING } sent ∧
    walkModeExit w i t =
      sitStandExit { sitStandArrayHip := w.walkArrLHip,
                     sitStandArrayKnee := w.walkArrLKnee, initState := STANDING }
        i (asSitStand t) ∧
    sitStandExit { sitStandArrayHip := w.walkArrLHip,
                   sitStandArrayKnee := w.walkArrLKnee, initState := SITTING }
        i (asSitStand t) = decide (i.button4Status = 0 ∧ t.walkstate = 0) := by
  refine ⟨walkModeSeq_asSitStand w i branchOrder t, ?_, rfl, ?_, ?_, ?_⟩
  · intro hh hk
    rw [sitStandBody, ← sitStandFourSeq_two w initState i branchOrder hh hk]
    exact walkModeSeq_asSitStand w i branchOrder t
  · simp [asSitStand, walkModeInit, sitStandInit, sitLabel, STANDING, SITTING,
      STATEIMMOBILE, WALKINGFORWARD, WALKINGBACK]
  · simp [walkModeExit, sitStandExit, asSitStand, STANDING, SITTING, SitStandCfg.arrSize,
      WalkCfg.arrSize]
  · simp [sitStandExit, asSitStand, STANDING, SITTING]

/-! ## C18: leaving walkMode through the confirm-exit button -/

/-- C18 (walk exit).  `walkMode` starts with index -1.  An iteration returns only
if button 4 reads pressed and the index left by the motion branches is
`arrSize - 1`; so a run that returns ends with index `arrSize - 1`, in an
iteration whose button 4 read pressed.  When the index left by the motion
branches is any other value (index 0 included), what button 4 reads makes no
difference to the iteration and the loop goes on unless button 3 is pressed. -/
theorem walkMode_exit_condition (w : WalkCfg) (i : PollIn) (t : WalkState)
    (sent : List Call) (ins : List PollIn) :
    (walkModeInit sent).walkstate = -1 ∧
    (∀ t', walkModePoll w i t = some (Outcome.returned t') →
      walkModeBody w i t = some t' ∧ i.button4Status = 0 ∧
      t'.walkstate = w.arrSize - 1) ∧
    (∀ t', walkMode w sent ins = some (Outcome.returned t') →
      t'.walkstate = w.arrSize - 1 ∧ ∃ j, j ∈ ins ∧ j.button4Status = 0) ∧
    (w.sized → -1 ≤ t.walkstate → t.walkstate ≤ w.arrSize →
      ∃ t', walkModeBody w i t = some t' ∧
        (t'.walkstate ≠ w.arrSize - 1 →
          (∀ b4, walkModePoll w { i with button4Status := b4 } t = walkModePoll w i t) ∧
          (∀ r, walkModePoll w i t ≠ some (Outcome.returned r)) ∧
          (i.button3Status ≠ 0 → walkModePoll w i t = some (Outcome.next t')))) := by
  refine ⟨rfl, ?_, ?_, ?_⟩
  · intro t' h
    simp only [walkModePoll, Option.map_eq_some'] at h
    obtain ⟨t1, hb, ht⟩ := h
    have hs : t' = t1 := walkModeTail_state w i t1 t' (Or.inr ht)
    subst hs
    refine ⟨hb, ?_⟩
    unfold walkModeTail at ht
    split at ht
    · simp at ht
    · split_ifs at ht with he
      simpa [walkModeExit] using he
  · intro t' h
    obtain ⟨j, hj, hx⟩ := walkModeLoop_returned w ins _ t' h
    simp only [walkModeExit, decide_eq_true_eq] at hx
    exact ⟨hx.2, j, hj, hx.1⟩
  · intro hc hlo hhi
    obtain ⟨t', hb, -, -⟩ := walkModeSeq_total w i hc branchOrder t hlo hhi
    have hb0 : walkModeBody w i t = some t' := hb
    refine ⟨t', hb0, ?_⟩
    intro hne
    have hb' : ∀ b4, walkModeBody w { i with button4Status := b4 } t = some t' :=
      fun _ => hb0
    have hx : ∀ j : PollIn, walkModeExit w j t' = false := by
      intro j
      simp only [walkModeExit, decide_eq_false_iff_not]
      exact fun h => hne h.2
    refine ⟨?_, ?_, ?_⟩
    · intro b4
      simp only [walkModePoll, hb' b4, hb0, Option.map_some', walkModeTail, hx, walkModeAbort]
    · intro r
      simp only [walkModePoll, hb0, Option.map_some', walkModeTail, hx]
      split <;> simp
    · intro h3
      simp [walkModePoll, hb0, walkModeTail, walkModeAbort, h3, hx]

/-- C18 at two concrete polls of `walkMode` on the three-waypoint trajectory with
confirm-exit pressed: at rest on waypoint 0 the loop goes on, at rest on the
last waypoint the function returns. -/
theorem walkMode_exit_condition_witness :
    walkModePoll demoWalk pressExit demoWalkAtZero = some (Outcome.next demoWalkAtZero) ∧
    (walkModePoll demoWalk pressExit
        { walkstate := 2, movestate := STATEIMMOBILE, sent := [] } =
      some (Outcome.returned { walkstate := 2, movestate := STATEIMMOBILE, sent := [] }) ∧
      pressExit.button4Status = 0 ∧ (2 : Int) = demoWalk.arrSize - 1) := by
  constructor
  · obtain ⟨t', hb, h⟩ :=
      (walkMode_exit_condition demoWalk pressExit demoWalkAtZero [] []).2.2.2
        (by decide) (by decide) (by decide)
    have ht : t' = demoWalkAtZero := by
      have : walkModeBody demoWalk pressExit demoWalkAtZero = some demoWalkAtZero := by
        decide
      rw [this] at hb
      exact (Option.some.inj hb).symm
    subst ht
    exact (h (by decide)).2.2 (by decide)
  · have hp : walkModePoll demoWalk pressExit
        { walkstate := 2, movestate := STATEIMMOBILE, sent := [] } =
        some (Outcome.returned { walkstate := 2, movestate := STATEIMMOBILE, sent := [] }) := by
      decide
    exact ⟨hp, ((walkMode_exit_condition demoWalk pressExit _ [] []).2.1 _ hp).2⟩

/-! ## C19: a failed exchange ends the process at once -/

/-- C19 (safe termination), refuted at concrete exchanges.  A position query
whose write fails ends the process with only that write attempted; one whose
read fails ends it after the write, the read and the closing of the socket; a
`setAbsPosSmart` burst whose second write fails ends it with the first two
commands of the burst written.  In no case is a preop command written. -/
theorem canFeast_exits_without_preop :
    canFeast queryNode1 xferWriteFails = ([SockOp.write queryNode1], Feast.exitFailure) ∧
    canFeast queryNode1 xferReadFails =
      ([SockOp.write queryNode1, SockOp.read, SockOp.close], Feast.exitFailure) ∧
    sendCommList [(moveNode1, xferOk), (controlLowNode1, xferWriteFails),
        (controlHighNode1, xferOk)] =
      ([SockOp.write moveNode1, SockOp.read, SockOp.write controlLowNode1], true) ∧
    preopNode1 ∉ written (canFeast queryNode1 xferWriteFails).1 ∧
    preopNode1 ∉ written (canFeast queryNode1 xferReadFails).1 ∧
    preopNode1 ∉ written (sendCommList [(moveNode1, xferOk),
        (controlLowNode1, xferWriteFails), (controlHighNode1, xferOk)]).1 := by
  decide

/-- C19 as amended.  When the write or the read of an exchange fails, `canFeast`
ends the process and the only command it has written is the one it was
sending.  In the sending loop of a burst the commands written are always the
first commands of the burst, in order; when the process is ended inside the
loop they are the commands up to the one whose exchange failed, and nothing
else is written: the rest of the burst is not sent and no other command, such
as preop, is. -/
theorem canFeast_failure_sends_nothing_more (command : List Char) (x : Xfer)
    (l : List (List Char × Xfer)) :
    ((x.writeOk = false ∨ x.readOk = false) →
      (canFeast command x).2 = Feast.exitFailure ∧
      written (canFeast command x).1 = [command]) ∧
    ((sendCommList l).2 = true →
      ∃ done failing rest, l = done ++ failing :: rest ∧
        (failing.2.writeOk = false ∨ failing.2.readOk = false) ∧
        written (sendCommList l).1 = (done ++ [failing]).map Prod.fst) ∧
    ((sendCommList l).2 = false → written (sendCommList l).1 = l.map Prod.fst) := by
  refine ⟨?_, ?_, ?_⟩
  · intro h
    unfold canFeast
    rcases h with h | h
    · simp [h, written]
    · by_cases hw : x.writeOk = false
      · simp [hw, written]
      · simp [hw, h, written]
  · exact sendCommList_exit l
  · exact sendCommList_done l

/-! ## C20: the reconnect counter -/

/-- C20 (bounded reconnect), evaluated on the code where it departs from the
claim.  The socket accepts the first write and fails every later one, while
reads and connection attempts succeed.  With the uninitialised counter holding
-5 at entry the handler closes and reconnects 15 times, more than
MAX_RECONNECTS, and then returns.  With the counter holding 11 it is still
closing and reconnecting after 40 rounds.  With the counter holding 0 it stops
reconnecting after 10 rounds, the last write having failed, and then does not
end the process: it goes on to read and returns.  Only when the very first
write fails too is the process ended, inside `canFeast`, before any
reconnection. -/
theorem reconnects_exceed_the_ceiling :
    (canFeastErrorHandler netWritesFailAfterFirst queryNode1 (-5) 100).2 = Ended.returned ∧
    (canFeastErrorHandler netWritesFailAfterFirst queryNode1 (-5) 100).1.connects = 15 ∧
    ((canFeastErrorHandler netWritesFailAfterFirst queryNode1 (-5) 100).1.ops.count
      SockOp.close) = 15 ∧
    (canFeastErrorHandler netWritesFailAfterFirst queryNode1 11 40).2 = Ended.looping ∧
    (canFeastErrorHandler netWritesFailAfterFirst queryNode1 11 40).1.connects = 40 ∧
    (canFeastErrorHandler netWritesFailAfterFirst queryNode1 0 100).2 = Ended.returned ∧
    (canFeastErrorHandler netWritesFailAfterFirst queryNode1 0 100).1.connects = 10 ∧
    (canFeastErrorHandler netWritesFailAfterFirst queryNode1 0 100).1.ops.getLast? =
      some SockOp.read ∧
    (canFeastErrorHandler netWritesFail queryNode1 0 100).2 = Ended.exitFailure ∧
    (canFeastErrorHandler netWritesFail queryNode1 0 100).1.connects = 0 := by
  decide

/-! ## C21: the command burst of setAbsPosSmart -/

/-- C21 (contract).  In the walk program and in the sit-stand program of
canFeast, for every node id `n` and every position `p`, both `int` values other
than INT_MIN, `setAbsPosSmart` hands exactly three commands to `canFeast`, in
this order and all addressed to node `n`: the target position
`[1] <n> write 0x607A 0 i32 <p>`, control word low `[1] <n> write 0x6040 0 i16 47`
and control word high `[1] <n> write 0x6040 0 i16 63`, where `<n>` and `<p>` are
the decimal numerals of `n` and `p`, with a leading minus sign when negative. -/
theorem setAbsPosSmart_sends_three_commands (n p : Int) (hn : n ≠ INT_MIN) (hp : p ≠ INT_MIN) :
    Wire.setAbsPosSmart n p =
      some ["[1] ".toList ++ numeralOf 10 n ++ " write 0x607A 0 i32 ".toList ++ numeralOf 10 p,
            "[1] ".toList ++ numeralOf 10 n ++ " write 0x6040 0 i16 47".toList,
            "[1] ".toList ++ numeralOf 10 n ++ " write 0x6040 0 i16 63".toList] ∧
    SitStandMode.Wire.setAbsPosSmart n p =
      some ["[1] ".toList ++ numeralOf 10 n ++ " write 0x607A 0 i32 ".toList ++ numeralOf 10 p,
            "[1] ".toList ++ numeralOf 10 n ++ " write 0x6040 0 i16 47".toList,
            "[1] ".toList ++ numeralOf 10 n ++ " write 0x6040 0 i16 63".toList] := by
  have hN := itoa_eq n 10 hn (by norm_num) (by norm_num)
  have hP := itoa_eq p 10 hp (by norm_num) (by norm_num)
  have hn0 := numeralOf_no_NUL 10 (by norm_num) (by norm_num) n
  have hp0 := numeralOf_no_NUL 10 (by norm_num) (by norm_num) p
  have h10 : (10 : Int).toNat = 10 := rfl
  rw [h10] at hN hP
  have c1 : cstr (numeralOf 10 n ++ [NUL]) = numeralOf 10 n := cstr_append_NUL _ [] hn0
  have c2 : cstr (numeralOf 10 p ++ [NUL]) = numeralOf 10 p := cstr_append_NUL _ [] hp0
  have c3 : cstr (numeralOf 10 n) = numeralOf 10 n := cstr_of_no_NUL _ hn0
  have c4 : cstr (numeralOf 10 p) = numeralOf 10 p := cstr_of_no_NUL _ hp0
  have l1 : cstr "[1] ".toList = "[1] ".toList := by decide
  have l2 : cstr " write 0x607A 0 i32 ".toList = " write 0x607A 0 i32 ".toList := by decide
  have l3 : cstr " write 0x6040 0 i16 47".toList = " write 0x6040 0 i16 47".toList := by decide
  have l4 : cstr " write 0x6040 0 i16 63".toList = " write 0x6040 0 i16 63".toList := by decide
  constructor
  · simp only [Wire.setAbsPosSmart, DECIMAL, hN, hP, Option.some_bind, strcpy, strcat,
      c1, c2, c3, c4, l1, l2, l3, l4]
  · simp only [SitStandMode.Wire.setAbsPosSmart, DECIMAL, hN, hP, Option.some_bind, strcpy,
      strcat, c1, c2, c3, c4, l1, l2, l3, l4]

/-- C21 at node 1 and position -12237: the three commands are
`[1] 1 write 0x607A 0 i32 -12237`, `[1] 1 write 0x6040 0 i16 47` and
`[1] 1 write 0x6040 0 i16 63`. -/
theorem setAbsPosSmart_sends_three_commands_witness :
    (1 : Int) ≠ INT_MIN ∧ (-12237 : Int) ≠ INT_MIN ∧
    numeralOf 10 1 = "1".toList ∧ numeralOf 10 (-12237) = "-12237".toList ∧
    Wire.setAbsPosSmart 1 (-12237) =
      some ["[1] ".toList ++ numeralOf 10 1 ++ " write 0x607A 0 i32 ".toList ++
              numeralOf 10 (-12237),
            "[1] ".toList ++ numeralOf 10 1 ++ " write 0x6040 0 i16 47".toList,
            "[1] ".toList ++ numeralOf 10 1 ++ " write 0x6040 0 i16 63".toList] := by
  refine ⟨by decide, by decide, ?_, ?_,
    (setAbsPosSmart_sends_three_commands 1 (-12237) (by decide) (by decide)).1⟩
  · have hd : Nat.digits 10 1 = [1] := by norm_num
    have ha : Int.natAbs 1 = 1 := rfl
    simp only [numeralOf, ha, hd]
    decide
  · have hd : Nat.digits 10 12237 = [7, 3, 2, 2, 1] := by norm_num
    have ha : Int.natAbs (-12237) = 12237 := rfl
    simp only [numeralOf, ha, hd]
    decide

/-! ## C22: the position query of getPos -/

/-- C22 (contract).  In the walk program and in the sit-stand program of
canFeast, for every node id `n` (an `int` other than INT_MIN) `getPos` hands
exactly one command to `canFeast`, `[1] <n> read 0x6063 0 i32`, whatever the
reply is; and when the reply is `[1] <v>` followed by a carriage return or a
newline (and by anything after it), `<v>` being the decimal numeral of an
integer `v` in the range of a 32-bit `int`, it returns `v`. -/
theorem getPos_sends_query_returns_value (n : Int) (hn : n ≠ INT_MIN) (v : Int)
    (hv0 : INT_MIN ≤ v) (hv1 : v ≤ INT_MAX) (c : Char)
    (hc : c = Char.ofNat 13 ∨ c = Char.ofNat 10) (rest reply : List Char) :
    ((Wire.getPos n reply).map Prod.fst =
        some ["[1] ".toList ++ numeralOf 10 n ++ " read 0x6063 0 i32".toList] ∧
      Wire.getPos n ("[1] ".toList ++ (numeralOf 10 v ++ c :: rest)) =
        some (["[1] ".toList ++ numeralOf 10 n ++ " read 0x6063 0 i32".toList], some v)) ∧
    ((SitStandMode.Wire.getPos n reply).map Prod.fst =
        some ["[1] ".toList ++ numeralOf 10 n ++ " read 0x6063 0 i32".toList] ∧
      SitStandMode.Wire.getPos n ("[1] ".toList ++ (numeralOf 10 v ++ c :: rest)) =
        some (["[1] ".toList ++ numeralOf 10 n ++ " read 0x6063 0 i32".toList], some v)) := by
  have hN := itoa_eq n 10 hn (by norm_num) (by norm_num)
  have hn0 := numeralOf_no_NUL 10 (by norm_num) (by norm_num) n
  have h10 : (10 : Int).toNat = 10 := rfl
  rw [h10] at hN
  have c1 : cstr (numeralOf 10 n ++ [NUL]) = numeralOf 10 n := cstr_append_NUL _ [] hn0
  have c3 : cstr (numeralOf 10 n) = numeralOf 10 n := cstr_of_no_NUL _ hn0
  have l1 : cstr "[1] ".toList = "[1] ".toList := by decide
  have l2 : cstr " read 0x6063 0 i32".toList = " read 0x6063 0 i32".toList := by decide
  have hpos := positionOf_reply v hv0 hv1 c hc rest
  refine ⟨⟨?_, ?_⟩, ?_, ?_⟩
  · simp only [Wire.getPos, DECIMAL, hN, Option.some_bind, strcpy, strcat, c1, c3, l1, l2,
      Option.map_some']
  · simp only [Wire.getPos, DECIMAL, hN, Option.some_bind, strcpy, strcat, c1, c3, l1, l2,
      hpos]
  · simp only [SitStandMode.Wire.getPos, DECIMAL, hN, Option.some_bind, strcpy, strcat, c1,
      c3, l1, l2, Option.map_some']
  · simp only [SitStandMode.Wire.getPos, DECIMAL, hN, Option.some_bind, strcpy, strcat, c1,
      c3, l1, l2, hpos]

/-- C22 at node 3 with the reply `[1] -12237` ended by a carriage return: the
query is `[1] 3 read 0x6063 0 i32` and the value returned is -12237. -/
theorem getPos_sends_query_returns_value_witness :
    (3 : Int) ≠ INT_MIN ∧ INT_MIN ≤ (-12237 : Int) ∧ (-12237 : Int) ≤ INT_MAX ∧
    numeralOf 10 3 = "3".toList ∧ numeralOf 10 (-12237) = "-12237".toList ∧
    Wire.getPos 3 ("[1] ".toList ++ (numeralOf 10 (-12237) ++ [Char.ofNat 13])) =
      some (["[1] ".toList ++ numeralOf 10 3 ++ " read 0x6063 0 i32".toList],
        some (-12237)) := by
  refine ⟨by decide, by decide, by decide, ?_, ?_,
    (getPos_sends_query_returns_value 3 (by decide) (-12237) (by decide) (by decide)
      (Char.ofNat 13) (Or.inl rfl) [] []).1.2⟩
  · have hd : Nat.digits 10 3 = [3] := by norm_num
    have ha : Int.natAbs 3 = 3 := rfl
    simp only [numeralOf, ha, hd]
    decide
  · have hd : Nat.digits 10 12237 = [7, 3, 2, 2, 1] := by norm_num
    have ha : Int.natAbs (-12237) = 12237 := rfl
    simp only [numeralOf, ha, hd]
    decide

/-! ## C23: the convergence window -/

/-- C23 (contract).  When every joint reports the same position to both queries
`checkPos` makes of it, `checkPos` returns 1 if and only if each of the four
joints is strictly between its own target minus POSCLEARANCE and its own target
plus POSCLEARANCE, and returns 0 otherwise: the window is open.  POSCLEARANCE
is 10000 in the walk program and 5000 in the sit-stand program of canFeast,
where both hips share `hipTarget` and both knees share `kneeTarget`. -/
theorem checkPos_open_window (sent : List Call) (r : Reads)
    (lhipTarget lkneeTarget rhipTarget rkneeTarget hipTarget kneeTarget : Int)
    (hlhip : r.lhip1 = r.lhip2) (hrhip : r.rhip1 = r.rhip2)
    (hlknee : r.lknee1 = r.lknee2) (hrknee : r.rknee1 = r.rknee2) :
    (((checkPos sent r lhipTarget lkneeTarget rhipTarget rkneeTarget).1 = 1 ↔
        (lhipTarget - 10000 < r.lhip1 ∧ r.lhip1 < lhipTarget + 10000) ∧
        (rhipTarget - 10000 < r.rhip1 ∧ r.rhip1 < rhipTarget + 10000) ∧
        (lkneeTarget - 10000 < r.lknee1 ∧ r.lknee1 < lkneeTarget + 10000) ∧
        (rkneeTarget - 10000 < r.rknee1 ∧ r.rknee1 < rkneeTarget + 10000)) ∧
      ((checkPos sent r lhipTarget lkneeTarget rhipTarget rkneeTarget).1 ≠ 1 →
        (checkPos sent r lhipTarget lkneeTarget rhipTarget rkneeTarget).1 = 0)) ∧
    (((SitStandMode.checkPos sent r hipTarget kneeTarget).1 = 1 ↔
        (hipTarget - 5000 < r.lhip1 ∧ r.lhip1 < hipTarget + 5000) ∧
        (hipTarget - 5000 < r.rhip1 ∧ r.rhip1 < hipTarget + 5000) ∧
        (kneeTarget - 5000 < r.lknee1 ∧ r.lknee1 < kneeTarget + 5000) ∧
        (kneeTarget - 5000 < r.rknee1 ∧ r.rknee1 < kneeTarget + 5000)) ∧
      ((SitStandMode.checkPos sent r hipTarget kneeTarget).1 ≠ 1 →
        (SitStandMode.checkPos sent r hipTarget kneeTarget).1 = 0)) := by
  rw [checkPos_fst, checkPos_fst_sitStandMode]
  simp only [POSCLEARANCE, SitStandMode.POSCLEARANCE, ← hlhip, ← hrhip, ← hlknee, ← hrknee]
  refine ⟨⟨?_, ?_⟩, ?_, ?_⟩
  · split_ifs with h
    · simp only [true_iff]; tauto
    · simp only [zero_ne_one, false_iff]; tauto
  · split_ifs with h
    · simp
    · simp
  · split_ifs with h
    · simp only [true_iff]; tauto
    · simp only [zero_ne_one, false_iff]; tauto
  · split_ifs with h
    · simp
    · simp

/-- C23 on readings in which the left hip stands exactly POSCLEARANCE above its
target and the other joints on their targets: not converged, in the walk
program (10000) and in the sit-stand program (5000); one count less and the
four joints are converged. -/
theorem checkPos_open_window_witness :
    (checkPos [] (readsAt 10000 0 0 0) 0 0 0 0).1 = 0 ∧
    (checkPos [] (readsAt 9999 0 0 0) 0 0 0 0).1 = 1 ∧
    (SitStandMode.checkPos [] (readsAt 5000 0 0 0) 0 0).1 = 0 ∧
    (SitStandMode.checkPos [] (readsAt 4999 0 0 0) 0 0).1 = 1 := by
  have a := checkPos_open_window [] (readsAt 10000 0 0 0) 0 0 0 0 0 0 rfl rfl rfl rfl
  have b := checkPos_open_window [] (readsAt 9999 0 0 0) 0 0 0 0 0 0 rfl rfl rfl rfl
  have c := checkPos_open_window [] (readsAt 5000 0 0 0) 0 0 0 0 0 0 rfl rfl rfl rfl
  have d := checkPos_open_window [] (readsAt 4999 0 0 0) 0 0 0 0 0 0 rfl rfl rfl rfl
  refine ⟨a.1.2 ?_, b.1.1.2 (by decide), c.2.2 ?_, d.2.1.2 (by decide)⟩
  · intro h
    have := a.1.1.1 h
    revert this
    decide
  · intro h
    have := c.2.1.1 h
    revert this
    decide

/-! ## C24: a move in flight and the direction it completes in -/

/-- C24, evaluated on the code, which differs.  The sit-stand program of
canFeast keeps one `movestate` value, 1, for a move in either direction, and
both convergence tests run while it is 1.  With the trajectory of the program
and `sitStand` called with SITTING as `main` does, the drives reporting the
sitting posture all along: button 2 pressed in three iterations takes the index
from 11 to 10, to 9 and then issues the stand-up command towards waypoint 8
(hip 256729, knee 238998), the index staying 9 with the move in flight; in the
next iteration the test of the sit-down direction finds the drives within 5000
counts of waypoint 10 and the index becomes 10, not 8, with no further command
sent. -/
theorem stand_up_move_completes_as_sit_down :
    SitStandMode.sitStandTrajectory SitStandMode.SITTING = some SitStandMode.sittingCfg ∧
    SitStandMode.progress (SitStandMode.sitStand SitStandMode.sittingCfg []
        [SitStandMode.standMoreSeated, SitStandMode.standMoreSeated,
         SitStandMode.standMoreSeated]) =
      some (9, 1,
        [Call.setAbsPosSmart 1 274143, Call.setAbsPosSmart 2 241739,
         Call.setAbsPosSmart 3 274143, Call.setAbsPosSmart 4 241739,
         Call.setAbsPosSmart 1 271414, Call.setAbsPosSmart 2 241447,
         Call.setAbsPosSmart 3 271414, Call.setAbsPosSmart 4 241447,
         Call.setAbsPosSmart 1 256729, Call.setAbsPosSmart 2 238998,
         Call.setAbsPosSmart 3 256729, Call.setAbsPosSmart 4 238998]) ∧
    SitStandMode.progress (SitStandMode.sitStand SitStandMode.sittingCfg []
        [SitStandMode.standMoreSeated, SitStandMode.standMoreSeated,
         SitStandMode.standMoreSeated, SitStandMode.idleSeated]) =
      some (10, 0,
        [Call.setAbsPosSmart 1 274143, Call.setAbsPosSmart 2 241739,
         Call.setAbsPosSmart 3 274143, Call.setAbsPosSmart 4 241739,
         Call.setAbsPosSmart 1 271414, Call.setAbsPosSmart 2 241447,
         Call.setAbsPosSmart 3 271414, Call.setAbsPosSmart 4 241447,
         Call.setAbsPosSmart 1 256729, Call.setAbsPosSmart 2 238998,
         Call.setAbsPosSmart 3 256729, Call.setAbsPosSmart 4 238998]) := by
  refine ⟨?_, by decide, by decide⟩
  simp only [SitStandMode.sitStandTrajectory, motorPosArrayConverter,
    SitStandMode.sitStandArrHip_degrees, SitStandMode.sitStandArrKnee_degrees, calcAB,
    Dbl.ratio, toMotorPos, Dbl.mul, Dbl.add, Dbl.toLong, LHIP, LKNEE, HIP_MOTOR_POS1,
    HIP_MOTOR_DEG1, HIP_MOTOR_POS2, HIP_MOTOR_DEG2, KNEE_MOTOR_POS1, KNEE_MOTOR_DEG1,
    KNEE_MOTOR_POS2, KNEE_MOTOR_DEG2, List.map, SitStandMode.sittingCfg]
  norm_num
  decide

/-! ## C25: the node armed by setAbsPosSmart in the socket test program -/

/-- C25, evaluated on the code, which differs.  In the socket test program of
canFeast `setAbsPosSmart` writes the target position to node `nodeid`, but its
two control words are constants addressed to node 2: called for the left hip
(node 1), the right hip (node 3) or the right knee (node 4) it sets the target
of that node and arms node 2. -/
theorem control_words_go_to_node_2 :
    CloseSocket.setAbsPosSmart LHIP 1000 =
      some ["[1] 1 write 0x607A 0 i32 1000".toList, "[1] 2 write 0x6040 0 i16 47".toList,
            "[1] 2 write 0x6040 0 i16 63".toList] ∧
    CloseSocket.setAbsPosSmart RHIP 1000 =
      some ["[1] 3 write 0x607A 0 i32 1000".toList, "[1] 2 write 0x6040 0 i16 47".toList,
            "[1] 2 write 0x6040 0 i16 63".toList] ∧
    CloseSocket.setAbsPosSmart RKNEE (-12237) =
      some ["[1] 4 write 0x607A 0 i32 -12237".toList, "[1] 2 write 0x6040 0 i16 47".toList,
            "[1] 2 write 0x6040 0 i16 63".toList] ∧
    Wire.setAbsPosSmart LHIP 1000 =
      some ["[1] 1 write 0x607A 0 i32 1000".toList, "[1] 1 write 0x6040 0 i16 47".toList,
            "[1] 1 write 0x6040 0 i16 63".toList] := by
  decide

/-! ## C26: the calibration of the sit-stand trajectory -/

/-- C26 (numerical).  In the walk program `calcAB` gives the hip coefficients
A = -250880/90 and B = 501760 and the knee coefficients A = 250880/90 and B = 0,
and `motorPosArrayConverter`, which computes the truncation of A * angle + B,
maps the hip angles 180.00 and 96.23 (node LHIP) to the raw targets 0 and 233513
and the knee angles 0.00 and 84.42 (node LKNEE) to 0 and 235325. -/
theorem sitStand_trajectory_calibration :
    calcAB HIP_MOTOR_POS1 HIP_MOTOR_DEG1 HIP_MOTOR_POS2 HIP_MOTOR_DEG2 =
      (Dbl.finite (-250880 / 90), Dbl.finite 501760) ∧
    calcAB KNEE_MOTOR_POS1 KNEE_MOTOR_DEG1 KNEE_MOTOR_POS2 KNEE_MOTOR_DEG2 =
      (Dbl.finite (250880 / 90), Dbl.finite 0) ∧
    motorPosArrayConverter sitStandArrHip_degrees LHIP =
      sitStandArrHip_degrees.map (toMotorPos (Dbl.finite (-250880 / 90)) (Dbl.finite 501760)) ∧
    motorPosArrayConverter sitStandArrKnee_degrees LKNEE =
      sitStandArrKnee_degrees.map (toMotorPos (Dbl.finite (250880 / 90)) (Dbl.finite 0)) ∧
    sitStandArrHip_degrees = [180.00, 96.23] ∧
    sitStandArrKnee_degrees = [0.00, 84.42] ∧
    motorPosArrayConverter sitStandArrHip_degrees LHIP = [some 0, some 233513] ∧
    motorPosArrayConverter sitStandArrKnee_degrees LKNEE = [some 0, some 235325] ∧
    toMotorPos (Dbl.finite (-250880 / 90)) (Dbl.finite 501760) 96.23 =
      some (Int.tdiv ((-250880 / 90 : ℚ) * 96.23 + 501760).num
        ((-250880 / 90 : ℚ) * 96.23 + 501760).den) := by
  have hA : calcAB HIP_MOTOR_POS1 HIP_MOTOR_DEG1 HIP_MOTOR_POS2 HIP_MOTOR_DEG2 =
      (Dbl.finite (-250880 / 90), Dbl.finite 501760) := by
    simp only [calcAB, Dbl.ratio, HIP_MOTOR_POS1, HIP_MOTOR_DEG1, HIP_MOTOR_POS2,
      HIP_MOTOR_DEG2]
    norm_num
  have hK : calcAB KNEE_MOTOR_POS1 KNEE_MOTOR_DEG1 KNEE_MOTOR_POS2 KNEE_MOTOR_DEG2 =
      (Dbl.finite (250880 / 90), Dbl.finite 0) := by
    simp only [calcAB, Dbl.ratio, KNEE_MOTOR_POS1, KNEE_MOTOR_DEG1, KNEE_MOTOR_POS2,
      KNEE_MOTOR_DEG2]
    norm_num
  refine ⟨hA, hK, ?_, ?_, rfl, rfl, ?_, ?_, rfl⟩
  · simp only [motorPosArrayConverter, LHIP, hA]
    norm_num
  · simp only [motorPosArrayConverter, LKNEE, hK]
    norm_num
  · simp only [motorPosArrayConverter, sitStandArrHip_degrees, calcAB, Dbl.ratio,
      toMotorPos, Dbl.mul, Dbl.add, Dbl.toLong, LHIP, HIP_MOTOR_POS1, HIP_MOTOR_DEG1,
      HIP_MOTOR_POS2, HIP_MOTOR_DEG2, List.map]
    norm_num
    decide
  · simp only [motorPosArrayConverter, sitStandArrKnee_degrees, calcAB, Dbl.ratio,
      toMotorPos, Dbl.mul, Dbl.add, Dbl.toLong, LKNEE, KNEE_MOTOR_POS1, KNEE_MOTOR_DEG1,
      KNEE_MOTOR_POS2, KNEE_MOTOR_DEG2, List.map]
    norm_num
    decide

/-! ## C27: round trip of the integer codec -/

/-- C27 (round trip).  For every 32-bit `int` `v` other than INT_MIN, `strToInt`
applied to the string `itoa` stores for `v` in base 10 gives `v` back, the
multiplier `j` of `strToInt` being an `int` with wrap-around arithmetic. -/
theorem strToInt_itoa_round_trip (v : Int) (h0 : INT_MIN < v) (h1 : v ≤ INT_MAX) :
    (itoa v DECIMAL).map (fun str => strToInt (cstr str)) = some v := by
  have hv : v ≠ INT_MIN := ne_of_gt h0
  have h := cstr_itoa v 10 hv (by norm_num) (by norm_num)
  have h10 : (10 : Int).toNat = 10 := rfl
  rw [h10] at h
  have hs := strToInt_numeralOf v (le_of_lt h0) h1
  cases hi : itoa v 10 with
  | none => rw [hi] at h; simp at h
  | some str =>
    rw [hi] at h
    simp only [Option.map_some', Option.some.injEq] at h
    simp only [DECIMAL, hi, Option.map_some', h, hs]

/-- C27 at -12237 and at INT_MAX. -/
theorem strToInt_itoa_round_trip_witness :
    (INT_MIN < (-12237 : Int) ∧ (-12237 : Int) ≤ INT_MAX ∧
      (itoa (-12237) DECIMAL).map (fun str => strToInt (cstr str)) = some (-12237)) ∧
    (itoa 2147483647 DECIMAL).map (fun str => strToInt (cstr str)) = some 2147483647 :=
  ⟨⟨by decide, by decide, strToInt_itoa_round_trip (-12237) (by decide) (by decide)⟩,
    strToInt_itoa_round_trip 2147483647 (by decide) (by decide)⟩

/-! ## C28: itoa writes the canonical numeral -/

/-- C28.  For every `int` `v` other than INT_MIN and every base `b` from 2 to
35, `itoa` stores the numeral of `v` in base `b` followed by the terminating
NUL: the digits of the absolute value of `v` in base `b` written with the
characters 0-9a-z, most significant first and without leading zeros (the one
digit 0 for zero), preceded by a minus sign exactly when `v` is negative.  No
character of the numeral is a NUL, so the string held in `str` is the
numeral. -/
theorem itoa_writes_canonical_numeral (v b : Int) (hv : v ≠ INT_MIN) (hb2 : 2 ≤ b)
    (hb35 : b ≤ 35) :
    itoa v b = some (numeralOf b.toNat v ++ [NUL]) ∧
    (itoa v b).map cstr = some (numeralOf b.toNat v) ∧
    numeralOf b.toNat v =
      (if v < 0 then ['-'] else []) ++
        (if v = 0 then ['0']
         else (Nat.digits b.toNat v.natAbs).reverse.map fun d =>
           if d < 10 then Char.ofNat (48 + d) else Char.ofNat (87 + d)) :=
  ⟨itoa_eq v b hv hb2 hb35, cstr_itoa v b hv hb2 hb35, rfl⟩

/-- C28 at -12237 in base 10, where `itoa` stores `-12237`, and at 255 in base
16, where it stores `ff`. -/
theorem itoa_writes_canonical_numeral_witness :
    ((-12237 : Int) ≠ INT_MIN ∧ (2 : Int) ≤ 10 ∧ (10 : Int) ≤ 35 ∧
      itoa (-12237) 10 = some (numeralOf (10 : Int).toNat (-12237) ++ [NUL]) ∧
      numeralOf (10 : Int).toNat (-12237) = "-12237".toList) ∧
    (itoa 255 16 = some (numeralOf (16 : Int).toNat 255 ++ [NUL]) ∧
      numeralOf (16 : Int).toNat 255 = "ff".toList) := by
  refine ⟨⟨by decide, by decide, by decide,
    (itoa_writes_canonical_numeral (-12237) 10 (by decide) (by decide) (by decide)).1, ?_⟩,
    (itoa_writes_canonical_numeral 255 16 (by decide) (by decide) (by decide)).1, ?_⟩
  · have hd : Nat.digits 10 12237 = [7, 3, 2, 2, 1] := by norm_num
    have ha : Int.natAbs (-12237) = 12237 := rfl
    have hb : (10 : Int).toNat = 10 := rfl
    simp only [numeralOf, ha, hb, hd]
    decide
  · have hd : Nat.digits 16 255 = [15, 15] := by norm_num
    have ha : Int.natAbs 255 = 255 := rfl
    have hb : (16 : Int).toNat = 16 := rfl
    simp only [numeralOf, ha, hb, hd]
    decide

/-! ## C29: the base range of itoa -/

/-- C29, evaluated on the code, which differs from its own comment.  The
comment of `itoa` gives the base as between 2 and 36 and the digit table has 36
characters, but the test of line 772 rejects every base above 35: in base 36
`itoa` stores the empty string for every value, for instance for 35, whose
numeral in base 36 is the one digit z; in base 35 it stores `10` for 35. -/
theorem itoa_rejects_base_36 :
    (∀ value : Int, itoa value 36 = some [NUL]) ∧
    cstr [NUL] = [] ∧
    itoa 35 35 = some ['1', '0', NUL] ∧
    numAt 35 = 'z' ∧
    num.length = 36 := by
  refine ⟨fun value => ?_, by decide, by decide, by decide, by decide⟩
  simp [itoa]

/-! ## C30: stringExtract returns the token at the requested position -/

/-- C30.  For every string, every position `pos` of at least 1 and every
content of the output pointer before the call: when the string has at least
`pos` tokens, the pieces between delimiters (space, newline, carriage return)
that are not empty, `stringExtract` sets the output to token number `pos`,
counting from 1. -/
theorem stringExtract_returns_token (origStr : List Char) (extractStr : Option (List Char))
    (pos : Int) (tok : List Char) (hpos : 1 ≤ pos)
    (htok : (tokenList origStr)[(pos - 1).toNat]? = some tok) :
    stringExtract origStr extractStr pos = some tok := by
  have hlen : (pos - 1).toNat < (tokenList origStr).length := by
    by_contra hge
    rw [List.getElem?_eq_none (Nat.le_of_not_lt hge)] at htok
    exact Option.noConfusion htok
  have hidx : pos.toNat - 1 = (pos - 1).toNat := by omega
  rw [stringExtract, tokens_eq_tokenList,
    stringExtractLoop_get _ pos.toNat extractStr (by omega) (by omega), hidx, htok]

/-- C30 on the reply `[1] 250880` ended by a carriage return: position 2 is
`250880`, position 1 is `[1]`. -/
theorem stringExtract_returns_token_witness :
    (1 : Int) ≤ 2 ∧
    (tokenList "[1] 250880\r".toList)[((2 : Int) - 1).toNat]? = some "250880".toList ∧
    stringExtract "[1] 250880\r".toList none 2 = some "250880".toList ∧
    stringExtract "[1] 250880\r".toList none 1 = some "[1]".toList :=
  ⟨by decide, by decide,
    stringExtract_returns_token "[1] 250880\r".toList none 2 "250880".toList (by decide)
      (by decide),
    stringExtract_returns_token "[1] 250880\r".toList none 1 "[1]".toList (by decide)
      (by decide)⟩

/-! ## C31: the button read over the CAN bus -/

/-- C31, refuted on the code.  In the walk program and in the sit-stand program
of canFeast, `getButton` returns 1 for the reply `0x3F800000` ended by a
newline, which has one token and no second one: `stringExtract` leaves the last
token it found, and that token is compared. -/
theorem getButton_pressed_without_second_token :
    tokenList "0x3F800000\n".toList = ["0x3F800000".toList] ∧
    Wire.getButton 1 "0x3F800000\n".toList =
      some (["[1] 9 read 0x0101 1 u32".toList], some 1) ∧
    SitStandMode.Wire.getButton 1 "0x3F800000\n".toList =
      some (["[1] 9 read 0x0101 1 u32".toList], some 1) ∧
    Wire.getButton 1 "".toList = some (["[1] 9 read 0x0101 1 u32".toList], none) := by
  decide

/-- C31 as amended.  In both programs, for a button `k` from 1 to 4 `getButton`
hands the one command `[1] 9 read 0x010<k> 1 u32` to `canFeast`.  It returns 1
exactly when the token `stringExtract` leaves is `0x3F800000`, and 0 otherwise:
that token is the second token of a reply with two tokens or more and the only
token of a reply with one.  For a reply without any token the pointer compared
is uninitialised and the result is not defined. -/
theorem getButton_compares_extracted_token (k : Int) (hk1 : 1 ≤ k) (hk4 : k ≤ 4)
    (reply : List Char) :
    ((Wire.getButton k reply).map Prod.fst =
        some ["[1] 9 read 0x010".toList ++ [digit09az k.toNat] ++ " 1 u32".toList] ∧
      (∀ t1 t2 rest, tokenList reply = t1 :: t2 :: rest →
        (Wire.getButton k reply).map Prod.snd =
          some (some (if t2 = "0x3F800000".toList then 1 else 0))) ∧
      (∀ t1, tokenList reply = [t1] →
        (Wire.getButton k reply).map Prod.snd =
          some (some (if t1 = "0x3F800000".toList then 1 else 0))) ∧
      (tokenList reply = [] → (Wire.getButton k reply).map Prod.snd = some none)) ∧
    ((SitStandMode.Wire.getButton k reply).map Prod.fst =
        some ["[1] 9 read 0x010".toList ++ [digit09az k.toNat] ++ " 1 u32".toList] ∧
      (∀ t1 t2 rest, tokenList reply = t1 :: t2 :: rest →
        (SitStandMode.Wire.getButton k reply).map Prod.snd =
          some (some (if t2 = "0x3F800000".toList then 1 else 0))) ∧
      (∀ t1, tokenList reply = [t1] →
        (SitStandMode.Wire.getButton k reply).map Prod.snd =
          some (some (if t1 = "0x3F800000".toList then 1 else 0))) ∧
      (tokenList reply = [] →
        (SitStandMode.Wire.getButton k reply).map Prod.snd = some none)) := by
  have h2 : (2 : Int).toNat = 2 := rfl
  have hx : stringExtract reply none 2 = stringExtractLoop (tokenList reply) 2 none := by
    rw [stringExtract, tokens_eq_tokenList, h2]
  have hcmd : (if 0 ≤ k - 1 then
        ["[1] 9 read 0x0101 1 u32".toList, "[1] 9 read 0x0102 1 u32".toList,
         "[1] 9 read 0x0103 1 u32".toList, "[1] 9 read 0x0104 1 u32".toList].get?
          (k - 1).toNat else none) =
      some ("[1] 9 read 0x010".toList ++ [digit09az k.toNat] ++ " 1 u32".toList) := by
    interval_cases k <;> decide
  have hw : ∀ r : Option Int,
      (Wire.getButton k reply).map Prod.snd = some r ↔
        (stringExtract reply none 2).map
          (fun m => if m = "0x3F800000".toList then (1 : Int) else 0) = r := by
    intro r
    simp only [Wire.getButton, hcmd, Option.some_bind, Option.map_some', Option.some.injEq]
  have hs : ∀ r : Option Int,
      (SitStandMode.Wire.getButton k reply).map Prod.snd = some r ↔
        (stringExtract reply none 2).map
          (fun m => if m = "0x3F800000".toList then (1 : Int) else 0) = r := by
    intro r
    simp only [SitStandMode.Wire.getButton, hcmd, Option.some_bind, Option.map_some',
      Option.some.injEq]
  have two : ∀ t1 t2 rest, tokenList reply = t1 :: t2 :: rest →
      (stringExtract reply none 2).map
        (fun m => if m = "0x3F800000".toList then (1 : Int) else 0) =
        some (if t2 = "0x3F800000".toList then 1 else 0) := by
    intro t1 t2 rest h
    rw [hx, h, stringExtractLoop_second, Option.map_some']
  have one : ∀ t1, tokenList reply = [t1] →
      (stringExtract reply none 2).map
        (fun m => if m = "0x3F800000".toList then (1 : Int) else 0) =
        some (if t1 = "0x3F800000".toList then 1 else 0) := by
    intro t1 h
    rw [hx, h]
    rfl
  have zero : tokenList reply = [] →
      (stringExtract reply none 2).map
        (fun m => if m = "0x3F800000".toList then (1 : Int) else 0) = none := by
    intro h
    rw [hx, h]
    rfl
  refine ⟨⟨?_, fun t1 t2 rest h => (hw _).2 (two t1 t2 rest h),
      fun t1 h => (hw _).2 (one t1 h), fun h => (hw _).2 (zero h)⟩,
    ?_, fun t1 t2 rest h => (hs _).2 (two t1 t2 rest h),
      fun t1 h => (hs _).2 (one t1 h), fun h => (hs _).2 (zero h)⟩
  · simp only [Wire.getButton, hcmd, Option.some_bind, Option.map_some']
  · simp only [SitStandMode.Wire.getButton, hcmd, Option.some_bind, Option.map_some']

/-- C31 as amended, at button 4: the reply `[1] 0x3F800000` ended by a newline
gives 1, the reply `[1] 0x00000000` ended by a newline gives 0, and the command
is `[1] 9 read 0x0104 1 u32`. -/
theorem getButton_compares_extracted_token_witness :
    (1 : Int) ≤ 4 ∧ (4 : Int) ≤ 4 ∧
    "[1] 9 read 0x010".toList ++ [digit09az (4 : Int).toNat] ++ " 1 u32".toList =
      "[1] 9 read 0x0104 1 u32".toList ∧
    tokenList "[1] 0x3F800000\n".toList = ["[1]".toList, "0x3F800000".toList] ∧
    (Wire.getButton 4 "[1] 0x3F800000\n".toList).map Prod.fst =
      some ["[1] 9 read 0x010".toList ++ [digit09az (4 : Int).toNat] ++ " 1 u32".toList] ∧
    (Wire.getButton 4 "[1] 0x3F800000\n".toList).map Prod.snd =
      some (some (if "0x3F800000".toList = "0x3F800000".toList then 1 else 0)) ∧
    Wire.getButton 4 "[1] 0x3F800000\n".toList =
      some (["[1] 9 read 0x0104 1 u32".toList], some 1) ∧
    Wire.getButton 4 "[1] 0x00000000\n".toList =
      some (["[1] 9 read 0x0104 1 u32".toList], some 0) := by
  have a := getButton_compares_extracted_token 4 (by decide) (by decide)
    "[1] 0x3F800000\n".toList
  exact ⟨by decide, by decide, by decide, by decide, a.1.1,
    a.1.2.1 "[1]".toList "0x3F800000".toList [] (by decide), by decide, by decide⟩

/-! ## C32: no trajectory lookup is out of bounds -/

/-- C32 (safety).  In `sitStand`, for every `initState`, every trajectory of at
least one waypoint and every sequence of button and position readings, and in
`walkMode` for every trajectory and every such sequence: the run never makes a
lookup that has no defined result, the index stays between -1 and `arrSize` at
every point of every run, every motion branch has a result there, and the
indices the branches read, index + 1 under the guard `index < arrSize - 1` and
index - 1 under the guard `index > 0`, are between 0 and `arrSize - 1`, where
every trajectory array has an element. -/
theorem no_lookup_out_of_bounds (c : SitStandCfg) (w : WalkCfg) (sent : List Call)
    (ins : List PollIn) (i : PollIn) (k : Branch) :
    (c.sized → 1 ≤ c.arrSize →
      (∃ o, sitStand c sent ins = some o) ∧
      ∀ s, SitStandPoint c sent s →
        (-1 ≤ s.sitstate ∧ s.sitstate ≤ c.arrSize) ∧
        (∃ s', sitStandBranch c i k s = some s') ∧
        (s.sitstate < c.arrSize - 1 →
          (0 ≤ s.sitstate + 1 ∧ s.sitstate + 1 ≤ c.arrSize - 1) ∧
          ∃ hip knee, arrAt c.sitStandArrayHip (s.sitstate + 1) = some hip ∧
            arrAt c.sitStandArrayKnee (s.sitstate + 1) = some knee) ∧
        (s.sitstate > 0 →
          (0 ≤ s.sitstate - 1 ∧ s.sitstate - 1 ≤ c.arrSize - 1) ∧
          ∃ hip knee, arrAt c.sitStandArrayHip (s.sitstate - 1) = some hip ∧
            arrAt c.sitStandArrayKnee (s.sitstate - 1) = some knee)) ∧
    (w.sized →
      (∃ o, walkMode w sent ins = some o) ∧
      ∀ t, WalkPoint w sent t →
        (-1 ≤ t.walkstate ∧ t.walkstate ≤ w.arrSize) ∧
        (∃ t', walkModeBranch w i k t = some t') ∧
        (t.walkstate < w.arrSize - 1 →
          (0 ≤ t.walkstate + 1 ∧ t.walkstate + 1 ≤ w.arrSize - 1) ∧
          ∃ lhip lknee rhip rknee, arrAt w.walkArrLHip (t.walkstate + 1) = some lhip ∧
            arrAt w.walkArrLKnee (t.walkstate + 1) = some lknee ∧
            arrAt w.walkArrRHip (t.walkstate + 1) = some rhip ∧
            arrAt w.walkArrRKnee (t.walkstate + 1) = some rknee) ∧
        (t.walkstate > 0 →
          (0 ≤ t.walkstate - 1 ∧ t.walkstate - 1 ≤ w.arrSize - 1) ∧
          ∃ lhip lknee rhip rknee, arrAt w.walkArrLHip (t.walkstate - 1) = some lhip ∧
            arrAt w.walkArrLKnee (t.walkstate - 1) = some lknee ∧
            arrAt w.walkArrRHip (t.walkstate - 1) = some rhip ∧
            arrAt w.walkArrRKnee (t.walkstate - 1) = some rknee)) := by
  constructor
  · intro hc h1
    have hinit := sitStandInit_bounds c sent h1
    refine ⟨sitStandLoop_total c hc ins _ hinit.1 hinit.2, ?_⟩
    intro s hs
    have hb := sitStandPoint_bounds c sent hc h1 s hs
    obtain ⟨s', hs', -⟩ := sitStandBranch_bounds c i k s hc hb.1 hb.2
    refine ⟨hb, ⟨s', hs'⟩, ?_, ?_⟩
    · intro hlt
      exact ⟨⟨by omega, by omega⟩, sitStand_reads c hc _ (by omega) (by omega)⟩
    · intro hgt
      exact ⟨⟨by omega, by omega⟩, sitStand_reads c hc _ (by omega) (by omega)⟩
  · intro hc
    have h0 : (-1 : Int) ≤ w.arrSize := by simp only [WalkCfg.arrSize]; omega
    refine ⟨walkModeLoop_total w hc ins (walkModeInit sent) (le_refl _) h0, ?_⟩
    intro t ht
    have hb := walkModePoint_bounds w sent hc t ht
    obtain ⟨t', ht', -⟩ := walkModeBranch_bounds w i k t hc hb.1 hb.2
    refine ⟨hb, ⟨t', ht'⟩, ?_, ?_⟩
    · intro hlt
      exact ⟨⟨by omega, by omega⟩, walkMode_reads w hc _ (by omega) (by omega)⟩
    · intro hgt
      exact ⟨⟨by omega, by omega⟩, walkMode_reads w hc _ (by omega) (by omega)⟩

/-- C32 on the two-waypoint sit-stand trajectory entered with an argument that
is neither SITTING nor STANDING, and on the three-waypoint walk trajectory: a
run in which the retreat button, then the advance button is pressed has a
result. -/
theorem no_lookup_out_of_bounds_witness :
    (demoUnknownStart.sized ∧ 1 ≤ demoUnknownStart.arrSize ∧
      ∃ o, sitStand demoUnknownStart [] [pressRetreat, pressAdvance] = some o) ∧
    (demoWalk.sized ∧ ∃ o, walkMode demoWalk [] [pressRetreat, pressAdvance] = some o) :=
  ⟨⟨by decide, by decide,
      ((no_lookup_out_of_bounds demoUnknownStart demoWalk [] [pressRetreat, pressAdvance]
        pressRetreat Branch.retreatStart).1 (by decide) (by decide)).1⟩,
    by decide,
    ((no_lookup_out_of_bounds demoUnknownStart demoWalk [] [pressRetreat, pressAdvance]
      pressRetreat Branch.retreatStart).2 (by decide)).1⟩

/-! ## C33: a move in flight can complete -/

/-- C33 (invariant).  At every point of every run of `sitStand` and of
`walkMode`, a move state of advancing goes with an index below `arrSize - 1`
and a move state of retreating with an index above 0.  So the index guard of
the convergence test holds as long as the move is in flight, and, the
trajectory having at least one waypoint, the test of the move in flight reads
its target inside the arrays and completes the move when `checkPos` returns 1:
the index moves by one in the direction of the move and the move state becomes
STATEIMMOBILE. -/
theorem move_in_flight_can_complete (c : SitStandCfg) (w : WalkCfg) (sent : List Call)
    (i : PollIn) :
    (∀ s, SitStandPoint c sent s →
      (s.movestate = STATESITTING → s.sitstate < c.arrSize - 1) ∧
      (s.movestate = STATESTANDING → 0 < s.sitstate) ∧
      (c.sized → 1 ≤ c.arrSize → s.movestate = STATESITTING →
        ∃ hip knee, arrAt c.sitStandArrayHip (s.sitstate + 1) = some hip ∧
          arrAt c.sitStandArrayKnee (s.sitstate + 1) = some knee ∧
          ((checkPos s.sent i.fwd hip knee hip knee).1 = 1 →
            sitStandAdvanceCheck c i s =
              some { sitstate := s.sitstate + 1, movestate := STATEIMMOBILE,
                     sent := (checkPos s.sent i.fwd hip knee hip knee).2 })) ∧
      (c.sized → 1 ≤ c.arrSize → s.movestate = STATESTANDING →
        ∃ hip knee, arrAt c.sitStandArrayHip (s.sitstate - 1) = some hip ∧
          arrAt c.sitStandArrayKnee (s.sitstate - 1) = some knee ∧
          ((checkPos s.sent i.back hip knee hip knee).1 = 1 →
            sitStandRetreatCheck c i s =
              some { sitstate := s.sitstate - 1, movestate := STATEIMMOBILE,
                     sent := (checkPos s.sent i.back hip knee hip knee).2 }))) ∧
    (∀ t, WalkPoint w sent t →
      (t.movestate = WALKINGFORWARD → t.walkstate < w.arrSize - 1) ∧
      (t.movestate = WALKINGBACK → 0 < t.walkstate) ∧
      (w.sized → t.movestate = WALKINGFORWARD →
        ∃ lhip lknee rhip rknee, arrAt w.walkArrLHip (t.walkstate + 1) = some lhip ∧
          arrAt w.walkArrLKnee (t.walkstate + 1) = some lknee ∧
          arrAt w.walkArrRHip (t.walkstate + 1) = some rhip ∧
          arrAt w.walkArrRKnee (t.walkstate + 1) = some rknee ∧
          ((checkPos t.sent i.fwd lhip lknee rhip rknee).1 = 1 →
            walkModeAdvanceCheck w i t =
              some { walkstate := t.walkstate + 1, movestate := STATEIMMOBILE,
                     sent := (checkPos t.sent i.fwd lhip lknee rhip rknee).2 })) ∧
      (w.sized → t.movestate = WALKINGBACK →
        ∃ lhip lknee rhip rknee, arrAt w.walkArrLHip (t.walkstate - 1) = some lhip ∧
          arrAt w.walkArrLKnee (t.walkstate - 1) = some lknee ∧
          arrAt w.walkArrRHip (t.walkstate - 1) = some rhip ∧
          arrAt w.walkArrRKnee (t.walkstate - 1) = some rknee ∧
          ((checkPos t.sent i.back lhip lknee rhip rknee).1 = 1 →
            walkModeRetreatCheck w i t =
              some { walkstate := t.walkstate - 1, movestate := STATEIMMOBILE,
                     sent := (checkPos t.sent i.back lhip lknee rhip rknee).2 }))) := by
  constructor
  · intro s hs
    have hf := sitStandPoint_flight c sent s hs
    have hadv : s.movestate = STATESITTING → s.sitstate < c.arrSize - 1 := by
      intro hm
      rcases hf with h | h | h
      · rw [hm] at h; exact absurd h (by decide)
      · exact h.2
      · rw [hm] at h; exact absurd h.1 (by decide)
    have hret : s.movestate = STATESTANDING → 0 < s.sitstate := by
      intro hm
      rcases hf with h | h | h
      · rw [hm] at h; exact absurd h (by decide)
      · rw [hm] at h; exact absurd h.1 (by decide)
      · exact h.2
    refine ⟨hadv, hret, ?_, ?_⟩
    · intro hc h1 hm
      have hb := sitStandPoint_bounds c sent hc h1 s hs
      have hlt := hadv hm
      obtain ⟨hip, knee, hh, hk⟩ := sitStand_reads c hc (s.sitstate + 1) (by omega) (by omega)
      refine ⟨hip, knee, hh, hk, ?_⟩
      intro hcp
      simp only [sitStandAdvanceCheck, hlt, hm, and_self, if_true, hh, hk, Option.some_bind,
        hcp]
    · intro hc h1 hm
      have hb := sitStandPoint_bounds c sent hc h1 s hs
      have hgt := hret hm
      obtain ⟨hip, knee, hh, hk⟩ := sitStand_reads c hc (s.sitstate - 1) (by omega) (by omega)
      refine ⟨hip, knee, hh, hk, ?_⟩
      intro hcp
      have hgt' : s.sitstate > 0 := hgt
      simp only [sitStandRetreatCheck, hgt', hm, and_self, if_true, hh, hk, Option.some_bind,
        hcp]
  · intro t ht
    have hf := walkModePoint_flight w sent t ht
    have hadv : t.movestate = WALKINGFORWARD → t.walkstate < w.arrSize - 1 := by
      intro hm
      rcases hf with h | h | h
      · rw [hm] at h; exact absurd h (by decide)
      · exact h.2
      · rw [hm] at h; exact absurd h.1 (by decide)
    have hret : t.movestate = WALKINGBACK → 0 < t.walkstate := by
      intro hm
      rcases hf with h | h | h
      · rw [hm] at h; exact absurd h (by decide)
      · rw [hm] at h; exact absurd h.1 (by decide)
      · exact h.2
    refine ⟨hadv, hret, ?_, ?_⟩
    · intro hc hm
      have hb := walkModePoint_bounds w sent hc t ht
      have hlt := hadv hm
      obtain ⟨a, b, d, e, ha, hb', hd, he⟩ :=
        walkMode_reads w hc (t.walkstate + 1) (by omega) (by omega)
      refine ⟨a, b, d, e, ha, hb', hd, he, ?_⟩
      intro hcp
      simp only [walkModeAdvanceCheck, hlt, hm, and_self, if_true, ha, hb', hd, he,
        Option.some_bind, hcp]
    · intro hc hm
      have hb := walkModePoint_bounds w sent hc t ht
      have hgt : t.walkstate > 0 := hret hm
      obtain ⟨a, b, d, e, ha, hb', hd, he⟩ :=
        walkMode_reads w hc (t.walkstate - 1) (by omega) (by omega)
      refine ⟨a, b, d, e, ha, hb', hd, he, ?_⟩
      intro hcp
      simp only [walkModeRetreatCheck, hgt, hm, and_self, if_true, ha, hb', hd, he,
        Option.some_bind, hcp]

/-- C33 on the two-waypoint trajectory entered with STANDING, at the point
right after the first advance command: the index -1 is below `arrSize - 1`,
and with the drives on waypoint 0 the convergence test completes the move. -/
theorem move_in_flight_can_complete_witness :
    SitStandPoint demoSitStand [] demoFirstAdvance ∧
    demoFirstAdvance.movestate = STATESITTING ∧
    demoFirstAdvance.sitstate < demoSitStand.arrSize - 1 ∧
    sitStandAdvanceCheck demoSitStand pressAdvance demoFirstAdvance =
      some { sitstate := 0, movestate := STATEIMMOBILE,
             sent := (checkPos demoFirstAdvance.sent pressAdvance.fwd 0 0 0 0).2 } := by
  have hp : SitStandPoint demoSitStand [] demoFirstAdvance :=
    ⟨[], pressAdvance, 1, sitStandInit demoSitStand [], by decide, by decide⟩
  have a := (move_in_flight_can_complete demoSitStand demoWalk [] pressAdvance).1
    demoFirstAdvance hp
  refine ⟨hp, rfl, a.1 rfl, ?_⟩
  obtain ⟨hip, knee, hh, hk, hdone⟩ := a.2.2.1 (by decide) (by decide) rfl
  have eh : arrAt demoSitStand.sitStandArrayHip (demoFirstAdvance.sitstate + 1) = some 0 := by
    decide
  have ek : arrAt demoSitStand.sitStandArrayKnee (demoFirstAdvance.sitstate + 1) = some 0 := by
    decide
  rw [eh] at hh
  rw [ek] at hk
  cases hh
  cases hk
  exact hdone (by decide)

/-! ## C34: the first move from a sentinel -/

/-- C34.  `sitStand` started with SITTING on a trajectory of at least one
waypoint enters the loop with the index at `arrSize`.  In every state with the
index there the two advance branches do nothing, whatever the buttons read: no
command and no change of state; the index leaves `arrSize` only when the
convergence test of a retreat in flight succeeds, and then becomes
`arrSize - 1`.  In every run the first position commands sent, if any, are
those of the retreat to waypoint `arrSize - 1`, and until they are sent the
index is `arrSize` and the move state STATEIMMOBILE.  Started with STANDING the
loop is entered with the index at -1; there the two retreat branches do
nothing, the index leaves -1 only when the test of an advance in flight
succeeds, and then becomes 0, and the first position commands of every run are
those of the advance to waypoint 0. -/
theorem first_move_from_sentinel (c : SitStandCfg) (sent : List Call) (i : PollIn)
    (k : Branch) :
    (c.initState = SITTING → c.sized → 1 ≤ c.arrSize →
      (sitStandInit c sent).sitstate = c.arrSize ∧
      (sitStandInit c sent).movestate = STATEIMMOBILE ∧
      (∀ s, s.sitstate = c.arrSize →
        sitStandAdvanceStart c i s = some s ∧ sitStandAdvanceCheck c i s = some s ∧
        ∀ s', sitStandBranch c i k s = some s' →
          s'.sitstate = c.arrSize ∨
            (k = Branch.retreatCheck ∧ s.movestate = STATESTANDING ∧
              s'.sitstate = c.arrSize - 1 ∧ s'.movestate = STATEIMMOBILE)) ∧
      ∃ hip knee, arrAt c.sitStandArrayHip (c.arrSize - 1) = some hip ∧
        arrAt c.sitStandArrayKnee (c.arrSize - 1) = some knee ∧
        ∀ s, SitStandPoint c sent s →
          ∃ q, s.sent = sent ++ q ∧
            (((∀ x ∈ q, x.isMove = false) ∧ s.sitstate = c.arrSize ∧
                s.movestate = STATEIMMOBILE) ∨
              ∃ rest, q.filter Call.isMove =
                [Call.setAbsPosSmart LHIP hip, Call.setAbsPosSmart LKNEE knee,
                 Call.setAbsPosSmart RHIP hip, Call.setAbsPosSmart RKNEE knee] ++ rest)) ∧
    (c.initState = STANDING → c.sized → 1 ≤ c.arrSize →
      (sitStandInit c sent).sitstate = -1 ∧
      (sitStandInit c sent).movestate = STATEIMMOBILE ∧
      (∀ s, s.sitstate = -1 →
        sitStandRetreatStart c i s = some s ∧ sitStandRetreatCheck c i s = some s ∧
        ∀ s', sitStandBranch c i k s = some s' →
          s'.sitstate = -1 ∨
            (k = Branch.advanceCheck ∧ s.movestate = STATESITTING ∧
              s'.sitstate = 0 ∧ s'.movestate = STATEIMMOBILE)) ∧
      ∃ hip knee, arrAt c.sitStandArrayHip 0 = some hip ∧
        arrAt c.sitStandArrayKnee 0 = some knee ∧
        ∀ s, SitStandPoint c sent s →
          ∃ q, s.sent = sent ++ q ∧
            (((∀ x ∈ q, x.isMove = false) ∧ s.sitstate = -1 ∧
                s.movestate = STATEIMMOBILE) ∨
              ∃ rest, q.filter Call.isMove =
                [Call.setAbsPosSmart LHIP hip, Call.setAbsPosSmart LKNEE knee,
                 Call.setAbsPosSmart RHIP hip, Call.setAbsPosSmart RKNEE knee] ++ rest)) := by
  constructor
  · intro hinit hc h1
    have hne : ¬ SITTING = STANDING := by decide
    obtain ⟨hip, knee, hh, hk⟩ := sitStand_reads c hc (c.arrSize - 1) (by omega) (le_refl _)
    refine ⟨by simp [sitStandInit, hinit, hne], by simp [sitStandInit], ?_,
      hip, knee, hh, hk, fun s hs => sitStand_first_retreat c sent h1 hinit hip knee hh hk s hs⟩
    intro s hidx
    have hnolt : ¬ s.sitstate < c.arrSize - 1 := by omega
    have ha : sitStandAdvanceStart c i s = some s := by
      simp only [sitStandAdvanceStart, hnolt, and_false, if_false]
    have hb : sitStandAdvanceCheck c i s = some s := by
      simp only [sitStandAdvanceCheck, hnolt, false_and, if_false]
    refine ⟨ha, hb, ?_⟩
    intro s' hbr
    cases k with
    | advanceStart =>
      simp only [sitStandBranch, ha] at hbr
      left; rw [← Option.some.inj hbr]; exact hidx
    | advanceCheck =>
      simp only [sitStandBranch, hb] at hbr
      left; rw [← Option.some.inj hbr]; exact hidx
    | retreatStart =>
      simp only [sitStandBranch, sitStandRetreatStart] at hbr
      split_ifs at hbr
      · simp only [Option.bind_eq_some] at hbr
        obtain ⟨_, _, _, _, hbr⟩ := hbr
        left; rw [← Option.some.inj hbr]; exact hidx
      · left; rw [← Option.some.inj hbr]; exact hidx
    | retreatCheck =>
      simp only [sitStandBranch, sitStandRetreatCheck] at hbr
      split_ifs at hbr with hg
      · simp only [Option.bind_eq_some] at hbr
        obtain ⟨_, _, _, _, hbr⟩ := hbr
        split_ifs at hbr
        · right
          rw [← Option.some.inj hbr]
          exact ⟨rfl, hg.2, by simp [hidx], rfl⟩
        · left; rw [← Option.some.inj hbr]; exact hidx
      · left; rw [← Option.some.inj hbr]; exact hidx
  · intro hinit hc h1
    obtain ⟨hip, knee, hh, hk⟩ := sitStand_reads c hc 0 (le_refl _) (by omega)
    refine ⟨by simp [sitStandInit, hinit], by simp [sitStandInit], ?_,
      hip, knee, hh, hk, fun s hs => sitStand_first_advance c sent hinit hip knee hh hk s hs⟩
    intro s hidx
    have hngt : ¬ s.sitstate > 0 := by omega
    have ha : sitStandRetreatStart c i s = some s := by
      simp only [sitStandRetreatStart, hngt, and_false, if_false]
    have hb : sitStandRetreatCheck c i s = some s := by
      simp only [sitStandRetreatCheck, hngt, false_and, if_false]
    refine ⟨ha, hb, ?_⟩
    intro s' hbr
    cases k with
    | retreatStart =>
      simp only [sitStandBranch, ha] at hbr
      left; rw [← Option.some.inj hbr]; exact hidx
    | retreatCheck =>
      simp only [sitStandBranch, hb] at hbr
      left; rw [← Option.some.inj hbr]; exact hidx
    | advanceStart =>
      simp only [sitStandBranch, sitStandAdvanceStart] at hbr
      split_ifs at hbr
      · simp only [Option.bind_eq_some] at hbr
        obtain ⟨_, _, _, _, hbr⟩ := hbr
        left; rw [← Option.some.inj hbr]; exact hidx
      · left; rw [← Option.some.inj hbr]; exact hidx
    | advanceCheck =>
      simp only [sitStandBranch, sitStandAdvanceCheck] at hbr
      split_ifs at hbr with hg
      · simp only [Option.bind_eq_some] at hbr
        obtain ⟨_, _, _, _, hbr⟩ := hbr
        split_ifs at hbr
        · right
          rw [← Option.some.inj hbr]
          exact ⟨rfl, hg.2, by simp [hidx], rfl⟩
        · left; rw [← Option.some.inj hbr]; exact hidx
      · left; rw [← Option.some.inj hbr]; exact hidx

/-- C34 on the two-waypoint trajectory: entered with SITTING the index starts
at 2 and an iteration with the advance button pressed changes nothing; entered
with STANDING it starts at -1 and an iteration with the retreat button pressed
changes nothing. -/
theorem first_move_from_sentinel_witness :
    (sittingCfg.initState = SITTING ∧ sittingCfg.sized ∧ 1 ≤ sittingCfg.arrSize ∧
      (sitStandInit sittingCfg []).sitstate = 2 ∧
      sitStandAdvanceStart sittingCfg pressAdvance (sitStandInit sittingCfg []) =
        some (sitStandInit sittingCfg [])) ∧
    (demoSitStand.initState = STANDING ∧ demoSitStand.sized ∧ 1 ≤ demoSitStand.arrSize ∧
      (sitStandInit demoSitStand []).sitstate = -1 ∧
      sitStandRetreatStart demoSitStand pressRetreat (sitStandInit demoSitStand []) =
        some (sitStandInit demoSitStand [])) := by
  have a := (first_move_from_sentinel sittingCfg [] pressAdvance Branch.advanceStart).1
    (by decide) (by decide) (by decide)
  have b := (first_move_from_sentinel demoSitStand [] pressRetreat Branch.retreatStart).2
    (by decide) (by decide) (by decide)
  exact ⟨⟨by decide, by decide, by decide, a.1, (a.2.2.1 _ a.1).1⟩,
    ⟨by decide, by decide, by decide, b.1, (b.2.2.1 _ b.1).1⟩⟩

/-! ## C35: an unknown start state -/

/-- C35.  When `sitStand` is called with an `initState` that is neither SITTING
nor STANDING, the index starts at 1 and the condition of the `break` is false
in every state for every reading of the buttons, so no run returns: a run that
ends was ended by the abort button, and on a trajectory of at least one
waypoint the loop goes round for as long as the abort button is not pressed,
whatever the other inputs are.  Every exchange on the link is taken to
succeed. -/
theorem unknown_start_never_returns (c : SitStandCfg) (sent : List Call) (ins : List PollIn)
    (hsit : c.initState ≠ SITTING) (hstand : c.initState ≠ STANDING) :
    (sitStandInit c sent).sitstate = 1 ∧
    (∀ i s, sitStandExit c i s = false) ∧
    (∀ s, sitStand c sent ins ≠ some (Outcome.returned s)) ∧
    (∀ log, sitStand c sent ins = some (Outcome.exited log) →
      ∃ i, i ∈ ins ∧ i.button3Status = 0) ∧
    (c.sized → 1 ≤ c.arrSize → (∀ i ∈ ins, i.button3Status ≠ 0) →
      ∃ s, sitStand c sent ins = some (Outcome.next s)) := by
  have hx : ∀ i s, sitStandExit c i s = false := by
    intro i s
    simp [sitStandExit, hsit, hstand]
  refine ⟨by simp [sitStandInit, hsit, hstand], hx, ?_, ?_, ?_⟩
  · intro s h
    obtain ⟨i, -, hi⟩ := sitStandLoop_returned c ins _ s h
    rw [hx] at hi
    exact Bool.noConfusion hi
  · intro log h
    exact sitStandLoop_exited c ins _ log h
  · intro hc h1 h3
    have hb := sitStandInit_bounds c sent h1
    exact sitStandLoop_goes_on c hc hx ins _ h3 hb.1 hb.2

/-- C35 on the two-waypoint trajectory entered with the argument 0: the
confirm-exit button pressed with the index at 1, at 0 and again at 0 after an
advance leaves the loop going. -/
theorem unknown_start_never_returns_witness :
    demoUnknownStart.initState ≠ SITTING ∧ demoUnknownStart.initState ≠ STANDING ∧
    (sitStandInit demoUnknownStart []).sitstate = 1 ∧
    (∀ s, sitStand demoUnknownStart [] [pressExit, pressRetreat, pressExit] ≠
      some (Outcome.returned s)) ∧
    ∃ s, sitStand demoUnknownStart [] [pressExit, pressRetreat, pressExit] =
      some (Outcome.next s) := by
  have a := unknown_start_never_returns demoUnknownStart []
    [pressExit, pressRetreat, pressExit] (by decide) (by decide)
  exact ⟨by decide, by decide, a.1, a.2.2.1, a.2.2.2.2 (by decide) (by decide) (by decide)⟩

/-! ## C36: conversion for an unknown joint id -/

/-- C36.  For every node id other than 1, 2, 3 and 4 and every array of angles,
`motorPosArrayConverter` keeps A = B = 0 and writes the raw position 0 for
every element; for the node ids 1 and 3 it converts with the hip calibration
and for 2 and 4 with the knee calibration, so the left and the right joint of
a class convert alike.  Angles are finite numbers. -/
theorem unknown_joint_converts_to_zero (origArr : List ℚ) (nodeid : Int)
    (h1 : nodeid ≠ 1) (h2 : nodeid ≠ 2) (h3 : nodeid ≠ 3) (h4 : nodeid ≠ 4) :
    motorPosArrayConverter origArr nodeid = origArr.map (fun _ => some 0) ∧
    motorPosArrayConverter origArr nodeid =
      origArr.map (toMotorPos (Dbl.finite 0) (Dbl.finite 0)) ∧
    motorPosArrayConverter origArr LHIP = origArr.map
      (toMotorPos (calcAB HIP_MOTOR_POS1 HIP_MOTOR_DEG1 HIP_MOTOR_POS2 HIP_MOTOR_DEG2).1
        (calcAB HIP_MOTOR_POS1 HIP_MOTOR_DEG1 HIP_MOTOR_POS2 HIP_MOTOR_DEG2).2) ∧
    motorPosArrayConverter origArr RHIP = motorPosArrayConverter origArr LHIP ∧
    motorPosArrayConverter origArr LKNEE = origArr.map
      (toMotorPos (calcAB KNEE_MOTOR_POS1 KNEE_MOTOR_DEG1 KNEE_MOTOR_POS2 KNEE_MOTOR_DEG2).1
        (calcAB KNEE_MOTOR_POS1 KNEE_MOTOR_DEG1 KNEE_MOTOR_POS2 KNEE_MOTOR_DEG2).2) ∧
    motorPosArrayConverter origArr RKNEE = motorPosArrayConverter origArr LKNEE := by
  have e13 : ¬ (nodeid = 1 ∨ nodeid = 3) := by omega
  have e24 : ¬ (nodeid = 2 ∨ nodeid = 4) := by omega
  have hz : ∀ angle : ℚ, toMotorPos (Dbl.finite 0) (Dbl.finite 0) angle = some 0 := by
    intro angle
    simp [toMotorPos, Dbl.mul, Dbl.add, Dbl.toLong]
  refine ⟨?_, ?_, ?_, ?_, ?_, ?_⟩
  · simp only [motorPosArrayConverter, if_neg e13, if_neg e24]
    exact List.map_congr_left fun a _ => hz a
  · simp only [motorPosArrayConverter, if_neg e13, if_neg e24]
  · simp [motorPosArrayConverter, LHIP]
  · simp [motorPosArrayConverter, LHIP, RHIP]
  · simp [motorPosArrayConverter, LKNEE]
  · simp [motorPosArrayConverter, LKNEE, RKNEE]

/-- C36 at node id 9 on the hip angles of `sitStand`: both raw positions are
0. -/
theorem unknown_joint_converts_to_zero_witness :
    (9 : Int) ≠ 1 ∧ (9 : Int) ≠ 2 ∧ (9 : Int) ≠ 3 ∧ (9 : Int) ≠ 4 ∧
    motorPosArrayConverter sitStandArrHip_degrees 9 = [some 0, some 0] :=
  ⟨by decide, by decide, by decide, by decide,
    (unknown_joint_converts_to_zero sitStandArrHip_degrees 9 (by decide) (by decide)
      (by decide) (by decide)).1⟩

/-! ## C37: truncation toward zero -/

/-- C37 (numerical).  For finite A, B and angle the element `motorPosArrayConverter`
stores is A * angle + B truncated toward zero: the floor of a value that is not
negative, the ceiling of a negative one.  Element 12 of the left hip trajectory
of `walkMode` is 184.39 degrees; its exact image -2753408/225 lies between
-12238 and -12237, its floor is -12238, and the converter stores -12237.  The
command `setAbsPosSmart` builds for it on the left hip is
`[1] 1 write 0x607A 0 i32 -12237`. -/
theorem conversion_truncates_toward_zero :
    (∀ A B angle : ℚ, toMotorPos (Dbl.finite A) (Dbl.finite B) angle =
      some (if 0 ≤ A * angle + B then ⌊A * angle + B⌋ else ⌈A * angle + B⌉)) ∧
    walkArrLHip_degrees[12]? = some (184.39 : ℚ) ∧
    (motorPosArrayConverter walkArrLHip_degrees LHIP)[12]? = some (some (-12237)) ∧
    motorPosArrayConverter [184.39] LHIP = [some (-12237)] ∧
    (-250880 / 90 : ℚ) * 184.39 + 501760 = -2753408 / 225 ∧
    (-12238 : ℚ) < -2753408 / 225 ∧ (-2753408 / 225 : ℚ) < -12237 ∧
    ⌊(-2753408 / 225 : ℚ)⌋ = -12238 ∧
    ⌈(-2753408 / 225 : ℚ)⌉ = -12237 ∧
    Wire.setAbsPosSmart LHIP (-12237) =
      some ["[1] 1 write 0x607A 0 i32 -12237".toList, "[1] 1 write 0x6040 0 i16 47".toList,
            "[1] 1 write 0x6040 0 i16 63".toList] := by
  have hone : motorPosArrayConverter [184.39] LHIP = [some (-12237)] := by
    simp only [motorPosArrayConverter, calcAB, Dbl.ratio, toMotorPos, Dbl.mul, Dbl.add,
      Dbl.toLong, LHIP, HIP_MOTOR_POS1, HIP_MOTOR_DEG1, HIP_MOTOR_POS2, HIP_MOTOR_DEG2,
      List.map]
    norm_num
    decide
  refine ⟨toMotorPos_truncates, rfl, ?_, hone, by norm_num, by norm_num, by norm_num, ?_, ?_,
    by decide⟩
  · have hsplit : walkArrLHip_degrees
        = walkArrLHip_degrees.take 12 ++ [184.39] ++ walkArrLHip_degrees.drop 13 := rfl
    have hmap : ∀ l1 l2 l3 : List ℚ, motorPosArrayConverter (l1 ++ l2 ++ l3) LHIP =
        motorPosArrayConverter l1 LHIP ++ motorPosArrayConverter l2 LHIP ++
          motorPosArrayConverter l3 LHIP := by
      intro l1 l2 l3
      simp only [motorPosArrayConverter, List.map_append]
    have hlen : (motorPosArrayConverter (walkArrLHip_degrees.take 12) LHIP).length = 12 := by
      simp only [motorPosArrayConverter, List.length_map]
      rfl
    rw [hsplit, hmap, hone, List.append_assoc, List.getElem?_append_right (by omega), hlen]
    rfl
  · rw [Int.floor_eq_iff]
    constructor <;> norm_num
  · rw [Int.ceil_eq_iff]
    constructor <;> norm_num

/-! ## C38: stringExtract on short input -/

/-- C38.  For a string with at least one token and fewer tokens than `pos`,
`stringExtract` sets the output to the last token; nothing signals that
position `pos` does not exist.  For a string without any token it leaves the
output as it was before the call.  So `getPos` takes the token `[1]` of the
one-token reply `[1]` for the position, which `strToInt` reads as 4355. -/
theorem stringExtract_short_input (origStr : List Char) (extractStr : Option (List Char))
    (pos : Int) :
    (∀ tok, (tokenList origStr).getLast? = some tok →
      ((tokenList origStr).length : Int) < pos →
      stringExtract origStr extractStr pos = some tok) ∧
    (tokenList origStr = [] → stringExtract origStr extractStr pos = extractStr) ∧
    tokenList "[1]".toList = ["[1]".toList] ∧
    stringExtract "[1]".toList none 2 = some "[1]".toList ∧
    positionOf "[1]".toList = some (strToInt "[1]".toList) ∧
    strToInt "[1]".toList = 4355 := by
  refine ⟨?_, ?_, by decide, by decide, by decide, by decide⟩
  · intro tok hlast hlen
    have hne : tokenList origStr ≠ [] := by
      intro h
      rw [h] at hlast
      exact Option.noConfusion hlast
    rw [stringExtract, tokens_eq_tokenList,
      stringExtractLoop_short _ pos.toNat extractStr hne (by omega), hlast]
  · intro h
    rw [stringExtract, tokens_eq_tokenList, h]
    rfl

/-- C38 on the reply `[1]` with position 2, and on a reply made of a space and
a carriage return, which has no token. -/
theorem stringExtract_short_input_witness :
    (tokenList "[1]".toList).getLast? = some "[1]".toList ∧
    (((tokenList "[1]".toList).length : Int) < 2) ∧
    stringExtract "[1]".toList (some "old".toList) 2 = some "[1]".toList ∧
    tokenList " \r".toList = [] ∧
    stringExtract " \r".toList (some "old".toList) 2 = some "old".toList :=
  ⟨by decide, by decide,
    (stringExtract_short_input "[1]".toList (some "old".toList) 2).1 "[1]".toList
      (by decide) (by decide),
    by decide,
    (stringExtract_short_input " \r".toList (some "old".toList) 2).2.1 (by decide)⟩

end Walk
